import Mathlib

/-!
The authentication core of caido-mcp-server.

A shallow embedding of `internal/auth/token_store.go`, `internal/auth/oauth.go`,
`getToken` of `cmd/serve.go`, the parts of `internal/caido/client.go` they call and,
of `internal/tools`, the page size of list_requests, `parseHTTPMessage` and the line
endings of send_request, and the properties proved of it.

Conventions of the embedding:

* a Go `string` and the content of a file are Unicode text (`String`, `List Char`);
* a `time.Time` is the instant it denotes;
* an `error` is a message or a format wrapping a cause, a panic is the outcome `fault`;
* a function with effects takes the state it reads and returns the state it leaves:
  the store's functions pass the files (`FS`), the authenticator's pass a `World`
  that also holds the clock, the messages the subscription will deliver and the trace
  of the effects so far;
* what lies outside the repository is a parameter (`Env`: the gateway's replies, the
  dial, `url.Parse`, the caller's context) or a model of the library function
  (`encoding/json`, `time`, `os`).
-/

namespace Caido

/-! ## Time: instants and their RFC 3339 text

`time.Time` is embedded as the instant it denotes, counted in nanoseconds from
0001-01-01T00:00:00Z (the zero value of `time.Time`).  The zone a Go value
carries is not part of the embedding; text is produced in UTC. -/

/-- An instant, in nanoseconds since 0001-01-01T00:00:00Z. -/
abbrev Time := Int

def nsPerSecond : Nat := 1000000000

def nsPerDay : Nat := 86400 * nsPerSecond

/-- The Go constant `time.Minute`, a duration in nanoseconds. -/
def Minute : Int := 60 * 1000000000

/-- The Go constant `time.Hour`, a duration in nanoseconds. -/
def Hour : Int := 60 * Minute

def isLeap (y : Nat) : Bool := y % 4 == 0 && (y % 100 != 0 || y % 400 == 0)

def daysInYear (y : Nat) : Nat := if isLeap y then 366 else 365

/-- Length of month `m` (1 to 12) of year `y`. -/
def daysIn (m y : Nat) : Nat :=
  if m = 2 then (if isLeap y then 29 else 28)
  else if m = 4 ∨ m = 6 ∨ m = 9 ∨ m = 11 then 30 else 31

/-- Days from 0000-01-01 to the first day of year `y`. -/
def daysBeforeYear (y : Nat) : Nat :=
  365 * y + (y + 3) / 4 - (y + 99) / 100 + (y + 399) / 400

/-- Days from the first day of year `y` to the first day of its month `m`. -/
def daysBeforeMonth (y : Nat) : Nat → Nat
  | 0 => 0
  | 1 => 0
  | m + 2 => daysBeforeMonth y (m + 1) + daysIn (m + 1) y

/-- Walks forward from year `y` until the day count `d` falls inside a year. -/
def splitYear : Nat → Nat → Nat → Nat × Nat
  | 0, y, d => (y, d)
  | fuel + 1, y, d =>
    if d < daysInYear y then (y, d) else splitYear fuel (y + 1) (d - daysInYear y)

/-- Walks forward from month `m` until the day count `d` falls inside a month. -/
def splitMonth (y : Nat) : Nat → Nat → Nat → Nat × Nat
  | 0, m, d => (m, d)
  | fuel + 1, m, d =>
    if d < daysIn m y then (m, d) else splitMonth y fuel (m + 1) (d - daysIn m y)

def digitChar (d : Nat) : Char := Char.ofNat (48 + d)

def digitVal (c : Char) : Option Nat :=
  if 48 ≤ c.toNat ∧ c.toNat ≤ 57 then some (c.toNat - 48) else none

def isDigit (c : Char) : Bool := (digitVal c).isSome

def pad2 (n : Nat) : List Char := [digitChar (n / 10 % 10), digitChar (n % 10)]

def pad4 (n : Nat) : List Char :=
  [digitChar (n / 1000 % 10), digitChar (n / 100 % 10), digitChar (n / 10 % 10), digitChar (n % 10)]

/-- The decimal digits of `n` at the places `w`, `w / 10`, ... down to the last
non-zero place: nine digits with the trailing zeros trimmed when `w = 10 ^ 8`. -/
def fracDigits : Nat → Nat → Nat → List Char
  | 0, _, _ => []
  | fuel + 1, w, n => if n = 0 then [] else digitChar (n / w % 10) :: fracDigits fuel (w / 10) (n % w)

/-- The layout `time.RFC3339Nano` applied to an instant in UTC; `none` when the
year falls outside 0000 to 9999, where `Time.MarshalJSON` reports an error. -/
def formatRFC3339Nano (t : Time) : Option (List Char) :=
  let absDay := t / (nsPerDay : Int) + 366
  if absDay < 0 ∨ (daysBeforeYear 10000 : Int) ≤ absDay then none
  else
    let rem := (t % (nsPerDay : Int)).toNat
    let yd := splitYear absDay.toNat 0 absDay.toNat
    let md := splitMonth yd.1 11 1 yd.2
    let secs := rem / nsPerSecond
    let frac := rem % nsPerSecond
    some (pad4 yd.1 ++ '-' :: pad2 md.1 ++ '-' :: pad2 (md.2 + 1) ++ 'T' ::
      pad2 (secs / 3600) ++ ':' :: pad2 (secs / 60 % 60) ++ ':' :: pad2 (secs % 60) ++
      (if frac = 0 then [] else '.' :: fracDigits 9 100000000 frac) ++ ['Z'])

/-- Two digits, both required (`getnum` with `fixed = true`). -/
def getnum2 : List Char → Option (Nat × List Char)
  | a :: b :: rest =>
    match digitVal a, digitVal b with
    | some x, some y => some (10 * x + y, rest)
    | _, _ => none
  | _ => none

/-- One or two digits (`getnum` with `fixed = false`), as the hour is read. -/
def getnum : List Char → Option (Nat × List Char)
  | [] => none
  | [a] => (digitVal a).map fun x => (x, [])
  | a :: b :: rest =>
    match digitVal a, digitVal b with
    | some x, some y => some (10 * x + y, rest)
    | some x, none => some (x, b :: rest)
    | none, _ => none

def getnum4 : List Char → Option (Nat × List Char)
  | a :: b :: c :: d :: rest =>
    match digitVal a, digitVal b, digitVal c, digitVal d with
    | some x, some y, some z, some u => some (1000 * x + 100 * y + 10 * z + u, rest)
    | _, _, _, _ => none
  | _ => none

def expect (c : Char) : List Char → Option (List Char)
  | [] => none
  | a :: rest => if a = c then some rest else none

/-- Reads the digits of a fraction of a second: the first nine count, the rest
are dropped (`parseNanoseconds`). -/
def fracValue : Nat → List Char → Nat × List Char
  | _, [] => (0, [])
  | w, c :: rest =>
    match digitVal c with
    | some d => let r := fracValue (w / 10) rest; (d * w + r.1, r.2)
    | none => (0, c :: rest)

/-- The optional fraction after the seconds: a period or comma and at least one digit. -/
def parseFraction : List Char → Nat × List Char
  | c :: d :: rest =>
    if (c = '.' ∨ c = ',') ∧ isDigit d then fracValue 100000000 (d :: rest) else (0, c :: d :: rest)
  | s => (0, s)

/-- The zone, `Z` or a signed `hh:mm`, which must end the text; the result is the
offset from UTC in seconds. -/
def parseZone : List Char → Option Int
  | ['Z'] => some 0
  | [sign, h1, h2, colon, m1, m2] =>
    match getnum2 [h1, h2], getnum2 [m1, m2] with
    | some (hr, _), some (mm, _) =>
      if colon ≠ ':' ∨ hr > 24 ∨ mm > 60 then none
      else if sign = '+' then some (((hr * 60 + mm) * 60 : Nat) : Int)
      else if sign = '-' then some (-(((hr * 60 + mm) * 60 : Nat) : Int))
      else none
    | _, _ => none
  | _ => none

/-- The fields read from a text in the layout `time.RFC3339`, before any range check. -/
structure Civil where
  year : Nat
  month : Nat
  day : Nat
  hour : Nat
  min : Nat
  sec : Nat
  nsec : Nat
  offset : Int

def parseDate (s : List Char) : Option ((Nat × Nat × Nat) × List Char) := do
  let (year, s) ← getnum4 s
  let s ← expect '-' s
  let (month, s) ← getnum2 s
  let s ← expect '-' s
  let (day, s) ← getnum2 s
  let s ← expect 'T' s
  pure ((year, month, day), s)

def parseClock (s : List Char) : Option ((Nat × Nat × Nat) × List Char) := do
  let (hour, s) ← getnum s
  let s ← expect ':' s
  let (min, s) ← getnum2 s
  let s ← expect ':' s
  let (sec, s) ← getnum2 s
  pure ((hour, min, sec), s)

def parseCivil (s : List Char) : Option Civil := do
  let (d, s) ← parseDate s
  let (c, s) ← parseClock s
  let f := parseFraction s
  let offset ← parseZone f.2
  pure ⟨d.1, d.2.1, d.2.2, c.1, c.2.1, c.2.2, f.1, offset⟩

/-- The range checks of `time.Parse`. -/
def Civil.valid (c : Civil) : Bool :=
  1 ≤ c.month && c.month ≤ 12 && 1 ≤ c.day && c.day ≤ daysIn c.month c.year &&
    c.hour < 24 && c.min < 60 && c.sec < 60

def Civil.toTime (c : Civil) : Time :=
  let days : Int := (daysBeforeYear c.year + daysBeforeMonth c.year c.month + (c.day - 1) : Nat) - 366
  ((days * 86400 + (c.hour * 3600 + c.min * 60 + c.sec : Nat)) - c.offset) * (nsPerSecond : Int) +
    (c.nsec : Nat)

/-- The instant denoted by a text in the layout `time.RFC3339`, as
`time.Parse(time.RFC3339, s)` and `Time.UnmarshalJSON` read it; `none` is a
parse error. -/
def parseRFC3339 (s : List Char) : Option Time :=
  match parseCivil s with
  | some c => if c.valid then some c.toTime else none
  | none => none

/-! ## Errors -/

/-- A Go `error`: a message, or a format that wraps a cause with `%w`. -/
inductive Error where
  | leaf (msg : String)
  | wrap (format : String) (cause : Error)
  deriving DecidableEq, Repr

deriving instance DecidableEq for Except

/-! ## JSON documents (`encoding/json`) -/

/-- A parsed JSON document.  Strings and keys keep their raw text, the
characters between the quotes with the escapes still in place. -/
inductive JSON where
  | null
  | bool (b : Bool)
  | num (text : List Char)
  | str (raw : List Char)
  | arr (items : List JSON)
  | obj (members : List (List Char × JSON))
  deriving Repr

def isSpace (c : Char) : Bool := c = ' ' || c = '\t' || c = '\n' || c = '\r'

def skipWS : List Char → List Char
  | [] => []
  | c :: cs => if isSpace c then skipWS cs else c :: cs

def hexDigit (d : Nat) : Char :=
  if d < 10 then Char.ofNat (48 + d) else Char.ofNat (87 + d)

def hexVal (c : Char) : Option Nat :=
  let n := c.toNat
  if 48 ≤ n ∧ n ≤ 57 then some (n - 48)
  else if 97 ≤ n ∧ n ≤ 102 then some (n - 87)
  else if 65 ≤ n ∧ n ≤ 70 then some (n - 55)
  else none

/-- The characters a backslash may introduce, `u` apart. -/
def isSimpleEscape (c : Char) : Bool :=
  c = '"' || c = '\\' || c = '/' || c = 'b' || c = 'f' || c = 'n' || c = 'r' || c = 't'

/-- How `json.Marshal` writes one character of a string (HTML escaping on). -/
def escapeChar (c : Char) : List Char :=
  if c = '"' then ['\\', '"']
  else if c = '\\' then ['\\', '\\']
  else if c = '\n' then ['\\', 'n']
  else if c = '\r' then ['\\', 'r']
  else if c = '\t' then ['\\', 't']
  else if c.toNat = 8 then ['\\', 'b']
  else if c.toNat = 12 then ['\\', 'f']
  else if c.toNat < 32 ∨ c = '<' ∨ c = '>' ∨ c = '&' then
    ['\\', 'u', '0', '0', hexDigit (c.toNat / 16), hexDigit (c.toNat % 16)]
  else if c.toNat = 0x2028 then ['\\', 'u', '2', '0', '2', '8']
  else if c.toNat = 0x2029 then ['\\', 'u', '2', '0', '2', '9']
  else [c]

/-- The raw text `json.Marshal` writes between the quotes for a string. -/
def escape : List Char → List Char
  | [] => []
  | c :: cs => escapeChar c ++ escape cs

def quote (s : String) : List Char := '"' :: escape s.data ++ ['"']

/-- Four hexadecimal digits lead the text. -/
def hex4 : List Char → Bool
  | h1 :: h2 :: h3 :: h4 :: _ =>
    (hexVal h1).isSome && (hexVal h2).isSome && (hexVal h3).isSome && (hexVal h4).isSome
  | _ => false

/-- Scans a string literal after its opening quote: the raw text up to the
closing quote, and what follows it.  `none` is a syntax error.  After `\u` the
four digits are checked and then scanned as the ordinary characters they are. -/
def scanString : List Char → Option (List Char × List Char)
  | [] => none
  | c :: rest =>
    if c = '"' then some ([], rest)
    else if c = '\\' then
      match rest with
      | [] => none
      | e :: rest1 =>
        if isSimpleEscape e ∨ (e = 'u' ∧ hex4 rest1 = true) then
          (scanString rest1).map fun r => (c :: e :: r.1, r.2)
        else none
    else if c.toNat < 32 then none
    else (scanString rest).map fun r => (c :: r.1, r.2)

/-- The UTF-16 code unit written by four hexadecimal digits (`getu4`, after
the `\u`). -/
def getu4 : List Char → Option Nat
  | h1 :: h2 :: h3 :: h4 :: _ =>
    match hexVal h1, hexVal h2, hexVal h3, hexVal h4 with
    | some a, some b, some c, some d => some (4096 * a + 256 * b + 16 * c + d)
    | _, _, _, _ => none
  | _ => none

def isSurrogate (u : Nat) : Bool := 0xD800 ≤ u && u < 0xE000

/-- The character a backslash escape other than `\u` stands for. -/
def simpleEscape (e : Char) : Char :=
  if e = 'b' then Char.ofNat 8
  else if e = 'f' then Char.ofNat 12
  else if e = 'n' then '\n'
  else if e = 'r' then '\r'
  else if e = 't' then '\t'
  else e

/-- U+FFFD for a surrogate left without its partner. -/
def flush (pending : Option Nat) : List Char :=
  if pending.isSome then [Char.ofNat 0xFFFD] else []

/-- The string a raw text denotes (`unquote`): escapes are resolved, a surrogate
pair becomes one character, a lone surrogate becomes U+FFFD.  `skip` counts the
hexadecimal digits still to pass over, `pending` is a surrogate escape just read
and not yet paired. -/
def unquoteAux : Nat → Option Nat → List Char → List Char
  | _, p, [] => flush p
  | skip + 1, p, _ :: rest => unquoteAux skip p rest
  | 0, p, c :: rest =>
    if c = '\\' then
      match rest with
      | [] => flush p
      | e :: rest1 =>
        if e = 'u' then
          match getu4 rest1 with
          | none => flush p
          | some u =>
            if isSurrogate u then
              match p with
              | some hi =>
                if hi < 0xDC00 ∧ 0xDC00 ≤ u then
                  Char.ofNat ((hi - 0xD800) * 1024 + (u - 0xDC00) + 0x10000) ::
                    unquoteAux 4 none rest1
                else Char.ofNat 0xFFFD :: unquoteAux 4 (some u) rest1
              | none => unquoteAux 4 (some u) rest1
            else flush p ++ Char.ofNat u :: unquoteAux 4 none rest1
        else flush p ++ simpleEscape e :: unquoteAux 0 none rest1
    else flush p ++ c :: unquoteAux 0 none rest

def unquote (raw : List Char) : List Char := unquoteAux 0 none raw

def takeDigits : List Char → List Char
  | [] => []
  | c :: cs => if 48 ≤ c.toNat ∧ c.toNat ≤ 57 then takeDigits cs else c :: cs

/-- One or more digits; `none` when there is none. -/
def digits1 : List Char → Option (List Char)
  | [] => none
  | c :: cs => if 48 ≤ c.toNat ∧ c.toNat ≤ 57 then some (takeDigits cs) else none

/-- Scans a number and returns what follows it. -/
def scanNumber (cs : List Char) : Option (List Char) :=
  let cs := match cs with
    | '-' :: r => r
    | r => r
  let afterInt := match cs with
    | [] => none
    | c :: r => if c = '0' then some r else if 49 ≤ c.toNat ∧ c.toNat ≤ 57 then some (takeDigits r) else none
  match afterInt with
  | none => none
  | some r =>
    let afterFrac := match r with
      | '.' :: r1 => digits1 r1
      | _ => some r
    match afterFrac with
    | none => none
    | some r2 =>
      match r2 with
      | e :: r3 =>
        if e = 'e' ∨ e = 'E' then
          match r3 with
          | s :: r4 => if s = '+' ∨ s = '-' then digits1 r4 else digits1 r3
          | [] => none
        else some r2
      | [] => some r2

def literal (p : List Char) (cs : List Char) : Option (List Char) :=
  if p.isPrefixOf cs then some (cs.drop p.length) else none

/-- The nesting limit of the `encoding/json` scanner. -/
def maxNestingDepth : Nat := 10000

mutual

/-- Parses the value at the head of the text (leading white space already
skipped); `depth` counts the open arrays and objects. -/
def parseValue : Nat → Nat → List Char → Option (JSON × List Char)
  | 0, _, _ => none
  | _, _, [] => none
  | fuel + 1, depth, c :: rest =>
    if c = '{' then
      if maxNestingDepth ≤ depth then none
      else match skipWS rest with
        | [] => none
        | d :: rest1 =>
          if d = '}' then some (JSON.obj [], rest1)
          else (parseMembers fuel (depth + 1) (d :: rest1)).map fun r => (JSON.obj r.1, r.2)
    else if c = '[' then
      if maxNestingDepth ≤ depth then none
      else match skipWS rest with
        | [] => none
        | d :: rest1 =>
          if d = ']' then some (JSON.arr [], rest1)
          else (parseItems fuel (depth + 1) (d :: rest1)).map fun r => (JSON.arr r.1, r.2)
    else if c = '"' then
      (scanString rest).map fun r => (JSON.str r.1, r.2)
    else if c = 't' then (literal ['r', 'u', 'e'] rest).map fun r => (JSON.bool true, r)
    else if c = 'f' then (literal ['a', 'l', 's', 'e'] rest).map fun r => (JSON.bool false, r)
    else if c = 'n' then (literal ['u', 'l', 'l'] rest).map fun r => (JSON.null, r)
    else
      (scanNumber (c :: rest)).map fun r =>
        (JSON.num ((c :: rest).take ((c :: rest).length - r.length)), r)

/-- Parses `"key": value` pairs up to the closing brace. -/
def parseMembers : Nat → Nat → List Char → Option (List (List Char × JSON) × List Char)
  | 0, _, _ => none
  | _, _, [] => none
  | fuel + 1, depth, c :: rest =>
    if c = '"' then
      match scanString rest with
      | none => none
      | some (key, rest1) =>
        match skipWS rest1 with
        | [] => none
        | colon :: rest2 =>
          if colon = ':' then
            match parseValue fuel depth (skipWS rest2) with
            | none => none
            | some (v, rest3) =>
              match skipWS rest3 with
              | [] => none
              | d :: rest4 =>
                if d = '}' then some ([(key, v)], rest4)
                else if d = ',' then
                  (parseMembers fuel depth (skipWS rest4)).map fun r => ((key, v) :: r.1, r.2)
                else none
          else none
    else none

/-- Parses array items up to the closing bracket. -/
def parseItems : Nat → Nat → List Char → Option (List JSON × List Char)
  | 0, _, _ => none
  | fuel + 1, depth, cs =>
    match parseValue fuel depth cs with
    | none => none
    | some (v, rest) =>
      match skipWS rest with
      | [] => none
      | d :: rest1 =>
        if d = ']' then some ([v], rest1)
        else if d = ',' then
          (parseItems fuel depth (skipWS rest1)).map fun r => (v :: r.1, r.2)
        else none

end

/-- A whole text as one JSON document (`checkValid` and the scan that follows):
one value, white space around it, nothing else. -/
def parseJSON (cs : List Char) : Option JSON :=
  match parseValue (cs.length + 1) 0 (skipWS cs) with
  | none => none
  | some (v, rest) => if skipWS rest = [] then some v else none

/-! ## The token store (`internal/auth/token_store.go`) -/

def filePermission : Nat := 0o600

def dirPermission : Nat := 0o700

/-- StoredToken represents the token data stored on disk. -/
structure StoredToken where
  AccessToken : String
  RefreshToken : String
  ExpiresAt : Time
  deriving DecidableEq, Repr

/-- The zero value of `StoredToken`, what `var token StoredToken` declares. -/
def StoredToken.zero : StoredToken := ⟨"", "", 0⟩

/-- Key folding of `encoding/json`: a key names a field when the two are equal
up to letter case (with the Kelvin sign read as K and the long s as S). -/
def foldChar (c : Char) : Char :=
  if 97 ≤ c.toNat ∧ c.toNat ≤ 122 then Char.ofNat (c.toNat - 32)
  else if c.toNat = 0x212A then 'K'
  else if c.toNat = 0x17F then 'S'
  else c

def foldName (s : List Char) : List Char := s.map foldChar

/-- Stores one member of the document into the field its key names; a key
naming no field is skipped. -/
def setField (tok : StoredToken) (key : List Char) (v : JSON) : Except Error StoredToken :=
  let name := foldName (unquote key)
  if name = foldName "accessToken".data then
    match v with
    | JSON.str raw => .ok { tok with AccessToken := String.mk (unquote raw) }
    | JSON.null => .ok tok
    | _ => .error (.leaf "json: cannot unmarshal into Go struct field StoredToken.accessToken of type string")
  else if name = foldName "refreshToken".data then
    match v with
    | JSON.str raw => .ok { tok with RefreshToken := String.mk (unquote raw) }
    | JSON.null => .ok tok
    | _ => .error (.leaf "json: cannot unmarshal into Go struct field StoredToken.refreshToken of type string")
  else if name = foldName "expiresAt".data then
    match v with
    | JSON.str raw =>
      match parseRFC3339 raw with
      | some t => .ok { tok with ExpiresAt := t }
      | none => .error (.leaf "parsing time: cannot parse")
    | JSON.null => .ok tok
    | _ => .error (.leaf "Time.UnmarshalJSON: input is not a JSON string")
  else .ok tok

def setFields : List (List Char × JSON) → StoredToken → Except Error StoredToken
  | [], tok => .ok tok
  | (key, v) :: rest, tok =>
    match setField tok key v with
    | .ok tok1 => setFields rest tok1
    | .error e => .error e

/-- The function `json.Unmarshal(data, &token)` on a zero `token`.  The texts of
the errors are schematic; of several errors the first in the document is kept. -/
def Unmarshal (data : List Char) : Except Error StoredToken :=
  match parseJSON data with
  | none => .error (.leaf "invalid character or unexpected end of JSON input")
  | some JSON.null => .ok StoredToken.zero
  | some (JSON.obj members) => setFields members StoredToken.zero
  | some _ => .error (.leaf "json: cannot unmarshal into Go value of type auth.StoredToken")

/-- One line of an indented object: the key, a colon, a space and the value. -/
def member (key : String) (value : List Char) : List Char :=
  ' ' :: ' ' :: quote key ++ ':' :: ' ' :: value

/-- The function `json.MarshalIndent(token, "", "  ")`. -/
def MarshalIndent (token : StoredToken) : Except Error (List Char) :=
  match formatRFC3339Nano token.ExpiresAt with
  | none => .error (.leaf "json: error calling MarshalJSON for type time.Time: Time.MarshalJSON: year outside of range [0,9999]")
  | some ts =>
    .ok ('\x7b' :: '\n' :: member "accessToken" (quote token.AccessToken) ++
      ',' :: '\n' :: member "refreshToken" (quote token.RefreshToken) ++
      ',' :: '\n' :: member "expiresAt" ('"' :: ts ++ ['"']) ++ ['\n', '\x7d'])

/-- The record at `tokenFilePath`. Access is not derived from the mode bits: a
file on which reading fails is `faulty`, and a write that succeeds leaves the
record `present` with what was written. -/
inductive Record where
  | absent
  | present (mode : Nat) (data : String)
  | faulty (mode : Nat) (err : Error)
  deriving DecidableEq, Repr

/-- The directory `configDir`. -/
structure Dir where
  mode : Nat
  record : Record
  deriving DecidableEq, Repr

/-- How a failing `os.WriteFile` fails: `written = none` when the file could not
be opened, `some n` when it was opened (and truncated) and `n` bytes got written. -/
structure WriteFault where
  err : Error
  written : Option Nat
  deriving DecidableEq, Repr

/-- The part of the file system the store touches. -/
structure FS where
  umask : Nat
  dir : Option Dir
  mkdirFault : Option Error
  writeFault : Option WriteFault
  removeFault : Option Error
  deriving DecidableEq, Repr

/-- The error `fs.ErrNotExist`. -/
def ErrNotExist : Error := .leaf "file does not exist"

def IsNotExist (e : Error) : Bool := e = ErrNotExist

/-- The permission bits a new file or directory gets. -/
def applyUmask (perm umask : Nat) : Nat := perm ^^^ (perm &&& umask)

def FS.record (fs : FS) : Record :=
  match fs.dir with
  | none => .absent
  | some d => d.record

/-- The function `os.ReadFile(s.tokenFilePath())`. -/
def ReadFile (fs : FS) : Except Error String :=
  match fs.record with
  | .absent => .error ErrNotExist
  | .faulty _ e => .error e
  | .present _ data => .ok data

/-- The function `os.MkdirAll(s.configDir, perm)`: nothing happens to a
directory that is there. -/
def MkdirAll (fs : FS) (perm : Nat) : Option Error × FS :=
  match fs.dir with
  | some _ => (none, fs)
  | none =>
    match fs.mkdirFault with
    | some e => (some e, fs)
    | none => (none, { fs with dir := some ⟨applyUmask perm fs.umask, .absent⟩ })

/-- The mode of the record after a write: kept when the file was there. -/
def modeAfterWrite (fs : FS) (perm : Nat) : Nat :=
  match fs.record with
  | .absent => applyUmask perm fs.umask
  | .present mode _ => mode
  | .faulty mode _ => mode

/-- The function `os.WriteFile(s.tokenFilePath(), data, perm)`. -/
def WriteFile (fs : FS) (data : String) (perm : Nat) : Option Error × FS :=
  match fs.dir with
  | none => (some ErrNotExist, fs)
  | some d =>
    match fs.writeFault with
    | some ⟨e, none⟩ => (some e, fs)
    | some ⟨e, some n⟩ =>
      (some e, { fs with dir := some { d with record := .present (modeAfterWrite fs perm) (String.mk (data.data.take n)) } })
    | none =>
      (none, { fs with dir := some { d with record := .present (modeAfterWrite fs perm) data } })

/-- ensureConfigDir creates the config directory if it doesn't exist. -/
def ensureConfigDir (fs : FS) : Option Error × FS :=
  match MkdirAll fs dirPermission with
  | (some err, fs1) => (some (.wrap "failed to create config directory: %w" err), fs1)
  | (none, fs1) => (none, fs1)

/-- Save stores the token to disk. -/
def Save (fs : FS) (token : StoredToken) : Option Error × FS :=
  match ensureConfigDir fs with
  | (some err, fs1) => (some err, fs1)
  | (none, fs1) =>
    match MarshalIndent token with
    | .error err => (some (.wrap "failed to marshal token: %w" err), fs1)
    | .ok data =>
      match WriteFile fs1 (String.mk data) filePermission with
      | (some err, fs2) => (some (.wrap "failed to write token file: %w" err), fs2)
      | (none, fs2) => (none, fs2)

/-- Load retrieves the token from disk; `ok none` is Go's `nil, nil`. -/
def Load (fs : FS) : Except Error (Option StoredToken) :=
  match ReadFile fs with
  | .error err =>
    if IsNotExist err then .ok none
    else .error (.wrap "failed to read token file: %w" err)
  | .ok data =>
    match Unmarshal data.data with
    | .error err => .error (.wrap "failed to unmarshal token: %w" err)
    | .ok token => .ok (some token)

/-- Delete removes the token file. -/
def Delete (fs : FS) : Option Error × FS :=
  match fs.dir with
  | none => (none, fs)
  | some d =>
    match d.record with
    | .absent => (none, fs)
    | _ =>
      match fs.removeFault with
      | some err =>
        if IsNotExist err then (none, fs)
        else (some (.wrap "failed to delete token file: %w" err), fs)
      | none => (none, { fs with dir := some { d with record := .absent } })

/-- IsExpired checks if the token is expired or about to expire; `now` is the
reading of `time.Now()`, and `After` is the strict order of instants. -/
def IsExpired (now : Time) (token : Option StoredToken) : Bool :=
  match token with
  | none => true
  | some t => decide (t.ExpiresAt < now + 5 * Minute)

/-! ## The gateway client (`internal/caido/client.go`, `internal/caido/types.go`) -/

/-- AuthenticationRequest is the response from startAuthenticationFlow. -/
structure AuthenticationRequest where
  ID : String
  UserCode : String
  VerificationURL : String
  ExpiresAt : Time
  deriving DecidableEq, Repr

/-- AuthenticationToken contains the access and refresh tokens. -/
structure AuthenticationToken where
  AccessToken : String
  RefreshToken : String
  ExpiresAt : Time
  deriving DecidableEq, Repr

/-- What `c.doRequest` leaves for a mutation: a failure of the call, or the
decoded `resp` with its result pointer and its error pointer (the `__typename`). -/
inductive Reply (α : Type) where
  | failed (err : Error)
  | resp (result : Option α) (error : Option String)

/-- How a call ends: a value, an `error`, or a run-time panic (a nil pointer
dereferenced, a slice bound out of range). -/
inductive Res (α : Type) where
  | ok (v : α)
  | error (err : Error)
  | fault
  deriving DecidableEq, Repr

/-- StartAuthenticationFlow initiates the OAuth authentication flow; `ok none`
is a nil request returned with a nil error. -/
def StartAuthenticationFlow (reply : Reply AuthenticationRequest) :
    Except Error (Option AuthenticationRequest) :=
  match reply with
  | .failed err => .error (.wrap "failed to start authentication flow: %w" err)
  | .resp _ (some typename) => .error (.leaf ("authentication error: " ++ typename))
  | .resp request none => .ok request

/-- RefreshToken refreshes the access token using the refresh token; `ok none`
is a nil token returned with a nil error. -/
def RefreshToken (reply : Reply AuthenticationToken) : Except Error (Option AuthenticationToken) :=
  match reply with
  | .failed err => .error (.wrap "failed to refresh token: %w" err)
  | .resp _ (some typename) => .error (.leaf ("refresh error: " ++ typename))
  | .resp token none => .ok token

/-- WebSocketEndpoint returns the WebSocket endpoint for subscriptions; `none`
is the panic of `endpoint[4:]` on a string shorter than four.  Lengths and
slices count characters here and bytes in Go; the two agree on ASCII. -/
def WebSocketEndpoint (endpoint : String) : Option String :=
  if endpoint.length > 5 ∧ endpoint.data.take 5 = "https".data then
    some ("wss" ++ String.mk (endpoint.data.drop 5) ++ "/ws/graphql")
  else if endpoint.length < 4 then none
  else some ("ws" ++ String.mk (endpoint.data.drop 4) ++ "/ws/graphql")

/-! ## Decoded messages (`map[string]interface{}`) -/

/-- A value of type `interface{}` as `encoding/json` decodes one. An `object`
stands for the map in which a key has the value of its first entry. -/
inductive Value where
  | null
  | bool (b : Bool)
  | number (text : String)
  | string (s : String)
  | array (items : List Value)
  | object (members : List (String × Value))
  deriving Repr

/-- The index expression `m[key]`; `none` is the nil interface of a missing key. -/
def index (m : List (String × Value)) (key : String) : Option Value :=
  match m with
  | [] => none
  | (k, v) :: rest => if k = key then some v else index rest key

/-- The type assertion `v.(string)`. -/
def asString : Option Value → Option String
  | some (Value.string s) => some s
  | _ => none

/-- The type assertion `v.(map[string]interface{})`. -/
def asObject : Option Value → Option (List (String × Value))
  | some (Value.object m) => some m
  | _ => none

/-- The type assertion `v.([]interface{})`. -/
def asArray : Option Value → Option (List Value)
  | some (Value.array items) => some items
  | _ => none

/-- Decoding one JSON document into a nil `map[string]interface{}`. -/
def asMap : Value → Except Error (List (String × Value))
  | Value.object m => .ok m
  | Value.null => .ok []
  | _ => .error (.leaf "json: cannot unmarshal into Go value of type map[string]interface {}")

/-! ## The world an authentication attempt runs in -/

/-- An argument of a `fmt.Fprintf` call. -/
inductive Arg where
  | str (s : String)
  | err (e : Error)
  | time (t : Time)
  deriving DecidableEq, Repr

/-- The effects of a run, in the order they happen. -/
inductive Event where
  | load
  | save (token : StoredToken)
  | refresh (refreshToken : String)
  | startFlow
  | dial (url : String) (header : List (String × String))
  | send (msg : Value)
  | read
  | close
  | exec (name : String) (args : List String)
  | stderr (format : String) (args : List Arg)
  deriving Repr

/-- One `conn.ReadJSON`: how long it blocked (nanoseconds), and the document it
read or the error it met. -/
structure Inbound where
  elapsed : Nat
  result : Except Error Value

/-- The result of `url.Parse`, as far as it is used. -/
structure URL where
  Scheme : String
  Host : String
  deriving DecidableEq, Repr

/-- The collaborators of the authenticator: the remote gateway, the libraries
outside this repository and the caller's context. -/
structure Env where
  endpoint : String
  refresh : String → Reply AuthenticationToken
  startFlow : Reply AuthenticationRequest
  urlParse : String → Except Error URL
  dial : Option Error
  sendFault : Nat → Option Error
  goos : String
  start : String → List String → Option Error
  ctxErr : Time → Option Error
  sprint : List Value → String

/-- The state a run changes: the store's files, the clock, the messages the
subscription will deliver, and the effects so far. -/
structure World where
  fs : FS
  now : Time
  inbound : List Inbound
  trace : List Event

def World.emit (w : World) (e : Event) : World := { w with trace := w.trace ++ [e] }

/-- The error of a read on a connection the peer has closed. -/
def ErrClosed : Error := .leaf "websocket: close 1006 (abnormal closure): unexpected EOF"

/-! ## The authenticator (`internal/auth/oauth.go`) -/

/-- The query of the subscription. -/
def subscriptionQuery : String :=
  "subscription CreatedAuthenticationToken($requestId: ID!) \x7b\n\t\t\t\tcreatedAuthenticationToken(requestId: $requestId) \x7b\n\t\t\t\t\ttoken \x7b\n\t\t\t\t\t\taccessToken\n\t\t\t\t\t\trefreshToken\n\t\t\t\t\t\texpiresAt\n\t\t\t\t\t\x7d\n\t\t\t\t\terror \x7b\n\t\t\t\t\t\t__typename\n\t\t\t\t\t\x7d\n\t\t\t\t\x7d\n\t\t\t\x7d"

def initMsg : Value := .object [("type", .string "connection_init")]

def subMsg (requestID : String) : Value :=
  .object [("id", .string "1"), ("type", .string "subscribe"),
    ("payload", .object [("query", .string subscriptionQuery),
      ("variables", .object [("requestId", .string requestID)])])]

/-- The token a `token` object carries: a field that is missing or not a string
reads as the empty string, an expiry that does not parse becomes seven days
from `now`. -/
def tokenOf (now : Time) (tokenData : List (String × Value)) : AuthenticationToken :=
  let accessToken := (asString (index tokenData "accessToken")).getD ""
  let refreshToken := (asString (index tokenData "refreshToken")).getD ""
  let expiresAtStr := (asString (index tokenData "expiresAt")).getD ""
  let expiresAt := match parseRFC3339 expiresAtStr.data with
    | some t => t
    | none => now + 7 * 24 * Hour
  ⟨accessToken, refreshToken, expiresAt⟩

/-- The body of the read loop after a message has been read: `none` goes on to
the next iteration, `some r` returns `r`. -/
def handleMessage (env : Env) (now : Time) (msg : List (String × Value)) :
    Option (Except Error AuthenticationToken) :=
  match asString (index msg "type") with
  | none => none
  | some msgType =>
    if msgType = "next" then
      match asObject (index msg "payload") with
      | none => none
      | some payload =>
        match asObject (index payload "data") with
        | none => none
        | some data =>
          match asObject (index data "createdAuthenticationToken") with
          | none => none
          | some created =>
            match asObject (index created "error") with
            | some errData =>
              let typename := (asString (index errData "__typename")).getD ""
              some (.error (.leaf ("authentication failed: " ++ typename)))
            | none =>
              match asObject (index created "token") with
              | none => none
              | some tokenData => some (.ok (tokenOf now tokenData))
    else if msgType = "error" then
      let payload := (asArray (index msg "payload")).getD []
      some (.error (.leaf ("subscription error: " ++ env.sprint payload)))
    else if msgType = "complete" then
      some (.error (.leaf "subscription completed without token"))
    else none

/-- One `conn.ReadJSON(&msg)` into a nil map, when `m` is what the connection
delivers. -/
def readJSON (m : Inbound) (rest : List Inbound) (w : World) :
    Except Error (List (String × Value)) × World :=
  let w1 := { w with now := w.now + m.elapsed, inbound := rest }.emit .read
  match m.result with
  | .error err => (.error err, w1)
  | .ok v => (asMap v, w1)

/-- One `conn.ReadJSON` on the connection of `w`; a connection with nothing
left to deliver is closed. -/
def readFrame (w : World) : Except Error (List (String × Value)) × World :=
  match w.inbound with
  | [] => (.error ErrClosed, w.emit .read)
  | m :: rest => readJSON m rest w

/-- The loop `for { select { case <-ctx.Done(): ... } ... }` of waitForToken;
`ms` is `w.inbound`, and a connection with nothing left to deliver is closed. -/
def readLoop (env : Env) : List Inbound → World → Except Error AuthenticationToken × World
  | [], w =>
    match env.ctxErr w.now with
    | some err => (.error err, w)
    | none => (.error (.wrap "failed to read message: %w" ErrClosed), w.emit .read)
  | m :: rest, w =>
    match env.ctxErr w.now with
    | some err => (.error err, w)
    | none =>
      match readJSON m rest w with
      | (.error err, w1) => (.error (.wrap "failed to read message: %w" err), w1)
      | (.ok msg, w1) =>
        match handleMessage env w1.now msg with
        | some r => (r, w1)
        | none => readLoop env rest w1

/-- The part of waitForToken that runs between the dial and the deferred close. -/
def converse (env : Env) (requestID : String) (w : World) :
    Except Error AuthenticationToken × World :=
  let w := w.emit (.send initMsg)
  match env.sendFault 0 with
  | some err => (.error (.wrap "failed to send init: %w" err), w)
  | none =>
    match readFrame w with
    | (.error err, w) => (.error (.wrap "failed to read ack: %w" err), w)
    | (.ok _, w) =>
      let w := w.emit (.send (subMsg requestID))
      match env.sendFault 1 with
      | some err => (.error (.wrap "failed to send subscription: %w" err), w)
      | none => readLoop env w.inbound w

/-- waitForToken waits for the authentication token via WebSocket subscription. -/
def waitForToken (env : Env) (requestID : String) (w : World) :
    Res AuthenticationToken × World :=
  match WebSocketEndpoint env.endpoint with
  | none => (.fault, w)
  | some wsEndpoint =>
    match env.urlParse wsEndpoint with
    | .error err => (.error (.wrap "invalid websocket endpoint: %w" err), w)
    | .ok u =>
      let originScheme := if u.Scheme = "wss" then "https" else "http"
      let header := [("Origin", originScheme ++ "://" ++ u.Host),
        ("Sec-WebSocket-Protocol", "graphql-transport-ws")]
      let w := w.emit (.dial wsEndpoint header)
      match env.dial with
      | some err => (.error (.wrap "failed to connect to websocket: %w" err), w)
      | none =>
        match converse env requestID w with
        | (.error err, w) => (.error err, w.emit .close)
        | (.ok token, w) => (.ok token, w.emit .close)

/-- openBrowser opens the default browser to the given URL. -/
def openBrowser (env : Env) (url : String) (w : World) : Option Error × World :=
  if env.goos = "darwin" then (env.start "open" [url], w.emit (.exec "open" [url]))
  else if env.goos = "linux" then (env.start "xdg-open" [url], w.emit (.exec "xdg-open" [url]))
  else if env.goos = "windows" then
    (env.start "rundll32" ["url.dll,FileProtocolHandler", url],
      w.emit (.exec "rundll32" ["url.dll,FileProtocolHandler", url]))
  else (some (.leaf "unsupported platform"), w)

/-- The call `a.tokenStore.Save(storedToken)` in a run. -/
def saveToken (storedToken : StoredToken) (w : World) : Option Error × World :=
  let w := w.emit (.save storedToken)
  let r := Save w.fs storedToken
  (r.1, { w with fs := r.2 })

/-- The instructions startAuthFlow shows once it holds a request, and its
attempt to open the browser. -/
def showInstructions (env : Env) (authReq : AuthenticationRequest) (w : World) : World :=
  let w := w.emit (.stderr "\n=== Caido Authentication Required ===\n" [])
  let w := w.emit (.stderr "Please open the following URL in your browser:\n" [])
  let w := w.emit (.stderr "  %s\n\n" [.str authReq.VerificationURL])
  let w := w.emit (.stderr "And enter this code: %s\n\n" [.str authReq.UserCode])
  let w := w.emit (.stderr "Waiting for authentication (expires at %s)...\n\n" [.time authReq.ExpiresAt])
  match openBrowser env authReq.VerificationURL w with
  | (some _, w) => w.emit (.stderr "(Could not open browser automatically)\n" [])
  | (none, w) => w

/-- startAuthFlow initiates the OAuth authentication flow.  A nil request is
dereferenced when the third line of the instructions is formatted. -/
def startAuthFlow (env : Env) (w : World) : Res String × World :=
  let w := w.emit .startFlow
  match StartAuthenticationFlow env.startFlow with
  | .error err => (.error (.wrap "failed to start authentication flow: %w" err), w)
  | .ok none =>
    (.fault, (w.emit (.stderr "\n=== Caido Authentication Required ===\n" [])).emit
      (.stderr "Please open the following URL in your browser:\n" []))
  | .ok (some authReq) =>
    match waitForToken env authReq.ID (showInstructions env authReq w) with
    | (.fault, w) => (.fault, w)
    | (.error err, w) => (.error (.wrap "failed to get authentication token: %w" err), w)
    | (.ok token, w) =>
      let storedToken : StoredToken := ⟨token.AccessToken, token.RefreshToken, token.ExpiresAt⟩
      match saveToken storedToken w with
      | (some err, w) => (.error (.wrap "failed to save token: %w" err), w)
      | (none, w) =>
        (.ok token.AccessToken, w.emit (.stderr "Authentication successful!\n\n" []))

/-- refreshToken attempts to refresh the access token. -/
def refreshToken (env : Env) (refreshToken : String) (w : World) : Res StoredToken × World :=
  let w := w.emit (.refresh refreshToken)
  match RefreshToken (env.refresh refreshToken) with
  | .error err => (.error err, w)
  | .ok none => (.fault, w)
  | .ok (some token) =>
    let storedToken : StoredToken := ⟨token.AccessToken, token.RefreshToken, token.ExpiresAt⟩
    match saveToken storedToken w with
    | (some err, w) => (.error (.wrap "failed to save refreshed token: %w" err), w)
    | (none, w) => (.ok storedToken, w)

/-- EnsureAuthenticated ensures we have a valid token.
Returns the access token or an error. -/
def EnsureAuthenticated (env : Env) (w : World) : Res String × World :=
  let w := w.emit .load
  match Load w.fs with
  | .error err => (.error (.wrap "failed to load token: %w" err), w)
  | .ok none => startAuthFlow env w
  | .ok (some token) =>
    if ¬ IsExpired w.now (some token) then (.ok token.AccessToken, w)
    else if token.RefreshToken ≠ "" then
      match refreshToken env token.RefreshToken w with
      | (.ok newToken, w) => (.ok newToken.AccessToken, w)
      | (.fault, w) => (.fault, w)
      | (.error err, w) =>
        startAuthFlow env
          (w.emit (.stderr "Token refresh failed: %v. Starting new authentication flow...\n" [.err err]))
    else startAuthFlow env w

/-- The tokens the messages of `ms` can issue: `token` is what the read loop
returns on reading one of them. -/
def issues (env : Env) (ms : List Inbound) (token : AuthenticationToken) : Prop :=
  ∃ m ∈ ms, ∃ v msg now, m.result = .ok v ∧ asMap v = .ok msg ∧
    handleMessage env now msg = some (.ok token)

/-! ## Sample stores, gateways and worlds -/

/-- The instant 2024-01-01T00:00:00Z. -/
def sampleNow : Time := 63839664000000000000

/-- A token that expires 2999-01-01T00:00:00Z. -/
def freshToken : StoredToken := ⟨"access-0", "refresh-0", 94607740800000000000⟩

/-- A token that expired 2023-12-31T00:00:00Z. -/
def staleToken : StoredToken := ⟨"access-0", "refresh-0", 63839577600000000000⟩

/-- A token that expires 2024-06-01T00:00:00Z. -/
def renewedToken : AuthenticationToken := ⟨"access-1", "refresh-1", 63852796800000000000⟩

def sampleRequest : AuthenticationRequest :=
  ⟨"req-1", "ABCD-1234", "https://auth.example/device", 63839664300000000000⟩

def emptyStore : FS := ⟨0o22, none, none, none, none⟩

def storeWith (data : String) : FS := ⟨0o22, some ⟨0o700, .present 0o600 data⟩, none, none, none⟩

def freshText : String :=
  "\x7b\"accessToken\":\"access-0\",\"refreshToken\":\"refresh-0\",\"expiresAt\":\"2999-01-01T00:00:00Z\"\x7d"

def staleText : String :=
  "\x7b\"accessToken\":\"access-0\",\"refreshToken\":\"refresh-0\",\"expiresAt\":\"2023-12-31T00:00:00Z\"\x7d"

/-- A record without an access token, not expired. -/
def blankText : String :=
  "\x7b\"refreshToken\":\"refresh-0\",\"expiresAt\":\"2999-01-01T00:00:00Z\"\x7d"

def ackFrame : Inbound := ⟨1000000, .ok (.object [("type", .string "connection_ack")])⟩

def tokenFrame : Inbound :=
  ⟨2000000, .ok (.object [("type", .string "next"), ("payload", .object [("data", .object
    [("createdAuthenticationToken", .object [("token", .object
      [("accessToken", .string "access-1"), ("refreshToken", .string "refresh-1"),
        ("expiresAt", .string "2024-06-01T00:00:00Z")])])])])])⟩

/-- A token message without an `accessToken` field. -/
def blankFrame : Inbound :=
  ⟨2000000, .ok (.object [("type", .string "next"), ("payload", .object [("data", .object
    [("createdAuthenticationToken", .object [("token", .object
      [("refreshToken", .string "refresh-1"),
        ("expiresAt", .string "2024-06-01T00:00:00Z")])])])])])⟩

/-- A home directory in which the configuration directory cannot be created. -/
def readOnlyStore : FS := ⟨0o22, none, some (.leaf "read-only file system"), none, none⟩

/-- A gateway that answers every call. -/
def sampleEnv : Env :=
  ⟨"http://localhost:8080", fun _ => .resp (some renewedToken) none,
    .resp (some sampleRequest) none, fun _ => .ok ⟨"ws", "localhost:8080"⟩, none, fun _ => none,
    "linux", fun _ _ => none, fun _ => none, fun _ => "[]"⟩

/-- A gateway that rejects the refresh value. -/
def rejectingEnv : Env :=
  ⟨"http://localhost:8080", fun _ => .resp none (some "InvalidTokenUserError"),
    .resp (some sampleRequest) none, fun _ => .ok ⟨"ws", "localhost:8080"⟩, none, fun _ => none,
    "linux", fun _ _ => none, fun _ => none, fun _ => "[]"⟩

/-- A gateway that cannot be reached. -/
def offlineEnv : Env :=
  ⟨"http://localhost:8080", fun _ => .failed (.leaf "connection refused"),
    .failed (.leaf "connection refused"), fun _ => .ok ⟨"ws", "localhost:8080"⟩,
    some (.leaf "connection refused"), fun _ => none, "linux", fun _ _ => none, fun _ => none,
    fun _ => "[]"⟩

def sampleWorld (fs : FS) (inbound : List Inbound) : World := ⟨fs, sampleNow, inbound, []⟩

/-! ## Observers of the trace -/

/-- The world `w1` is `w` after more effects, all of a kind `K`, that leave the
files and the pending messages as they are. -/
def World.adds (K : Event → Bool) (w w1 : World) : Prop :=
  w1.fs = w.fs ∧ w1.inbound = w.inbound ∧
    ∃ ev, w1.trace = w.trace ++ ev ∧ ∀ e ∈ ev, K e = true

def Event.isLoad : Event → Bool
  | .load => true
  | _ => false

def Event.isSave : Event → Bool
  | .save _ => true
  | _ => false

def Event.isRefresh : Event → Bool
  | .refresh _ => true
  | _ => false

def Event.isStartFlow : Event → Bool
  | .startFlow => true
  | _ => false

def Event.isDial : Event → Bool
  | .dial _ _ => true
  | _ => false

/-- The effects on the subscription connection. -/
def Event.isWire : Event → Bool
  | .dial _ _ => true
  | .send _ => true
  | .read => true
  | .close => true
  | _ => false

/-- The effects towards the human: a line on stderr, a browser started. -/
def Event.isNote : Event → Bool
  | .stderr _ _ => true
  | .exec _ _ => true
  | _ => false

/-- The world in which a run of EnsureAuthenticated from `w` calls startAuthFlow
(`return a.startAuthFlow(ctx)`); `none` when the run returns before that line. -/
def flowEntry (env : Env) (w : World) : Option World :=
  let w := w.emit .load
  match Load w.fs with
  | .error _ => none
  | .ok none => some w
  | .ok (some token) =>
    if ¬ IsExpired w.now (some token) then none
    else if token.RefreshToken ≠ "" then
      match refreshToken env token.RefreshToken w with
      | (.ok _, _) => none
      | (.fault, _) => none
      | (.error err, w) =>
        some (w.emit (.stderr "Token refresh failed: %v. Starting new authentication flow...\n" [.err err]))
    else some w

/-! ## The accessor of the server (`cmd/serve.go`, `internal/auth/token_store.go`) -/

/-- NewTokenStore creates a new token store; `homeErr` is the error of
`os.UserHomeDir`, if it fails. -/
def NewTokenStore (homeErr : Option Error) : Option Error :=
  match homeErr with
  | some err => some (.wrap "failed to get home directory: %w" err)
  | none => none

/-- getToken retrieves the access token from stored file. -/
def getToken (env : Env) (homeErr : Option Error) (w : World) : Res String × World :=
  match NewTokenStore homeErr with
  | some err => (.error (.wrap "failed to create token store: %w" err), w)
  | none =>
    let w := w.emit .load
    match Load w.fs with
    | .error err => (.error (.wrap "failed to load token: %w" err), w)
    | .ok none =>
      (.error (.leaf "no authentication token found. Please run 'caido-mcp-server login' first"), w)
    | .ok (some storedToken) =>
      if IsExpired w.now (some storedToken) then
        if storedToken.RefreshToken = "" then
          (.error (.leaf "token expired and no refresh token available. Please run 'caido-mcp-server login' again"), w)
        else
          let w := w.emit (.refresh storedToken.RefreshToken)
          match RefreshToken (env.refresh storedToken.RefreshToken) with
          | .error err =>
            (.error (.wrap "token expired and refresh failed: %w. Please run 'caido-mcp-server login' again" err), w)
          | .ok none => (.fault, w)
          | .ok (some newToken) =>
            let storedToken : StoredToken :=
              ⟨newToken.AccessToken, newToken.RefreshToken, newToken.ExpiresAt⟩
            match saveToken storedToken w with
            | (some err, w) =>
              (.ok storedToken.AccessToken,
                w.emit (.stderr "Warning: failed to save refreshed token: %v\n" [.err err]))
            | (none, w) => (.ok storedToken.AccessToken, w)
      else (.ok storedToken.AccessToken, w)

/-! ## Unrecognized messages -/

/-- The messages the read loop is said to ignore: a message with no string type,
a type other than next, error and complete, or a next message lacking an object
payload, data, createdAuthenticationToken, or (absent an error object) token. -/
def unrecognized (msg : List (String × Value)) : Bool :=
  match asString (index msg "type") with
  | none => true
  | some msgType =>
    if msgType = "next" then
      match asObject (index msg "payload") with
      | none => true
      | some payload =>
        match asObject (index payload "data") with
        | none => true
        | some data =>
          match asObject (index data "createdAuthenticationToken") with
          | none => true
          | some created =>
            (asObject (index created "error")).isNone && (asObject (index created "token")).isNone
    else decide (msgType ≠ "error" ∧ msgType ≠ "complete")

/-- An inbound read that delivers an unrecognized message; a read that fails
delivers no message. -/
def Inbound.ignored (m : Inbound) : Bool :=
  match m.result with
  | .error _ => false
  | .ok v =>
    match asMap v with
    | .error _ => false
    | .ok msg => unrecognized msg

/-- The sequence with every unrecognized message removed.  The time a removed
message took to arrive (`carry`) is added to the wait for the next message, so
that the messages left arrive at the instants they did. -/
def pruneFrom (carry : Nat) : List Inbound → List Inbound
  | [] => []
  | m :: rest =>
    if m.ignored then pruneFrom (carry + m.elapsed) rest
    else ⟨carry + m.elapsed, m.result⟩ :: pruneFrom 0 rest

def prune (ms : List Inbound) : List Inbound := pruneFrom 0 ms

/-- The time the reads of `ms` take together. -/
def span : List Inbound → Nat
  | [] => 0
  | m :: rest => m.elapsed + span rest

/-! ## More samples -/

/-- A store whose directory and record were made by someone else, readable by all. -/
def looseStore : FS := ⟨0o22, some ⟨0o755, .present 0o644 staleText⟩, none, none, none⟩

/-- A store on a full disk: the record can be opened (and is truncated), nothing
can be written to it. -/
def fullDiskStore : FS :=
  ⟨0o22, some ⟨0o700, .present 0o600 staleText⟩, none,
    some ⟨.leaf "no space left on device", some 0⟩, none⟩

/-- A store whose record cannot be opened for writing. -/
def lockedStore : FS :=
  ⟨0o22, some ⟨0o700, .present 0o600 staleText⟩, none,
    some ⟨.leaf "permission denied", none⟩, none⟩

def pingFrame : Inbound := ⟨360000000000, .ok (.object [("type", .string "ping")])⟩

def completeFrame : Inbound := ⟨1000000, .ok (.object [("type", .string "complete"), ("id", .string "1")])⟩

def errorFrame : Inbound :=
  ⟨1000000, .ok (.object [("type", .string "error"), ("id", .string "1"),
    ("payload", .array [.object [("message", .string "bad request")]])])⟩

/-- A next message that carries an error object and a token object. -/
def deniedFrame : Inbound :=
  ⟨2000000, .ok (.object [("type", .string "next"), ("payload", .object [("data", .object
    [("createdAuthenticationToken", .object
      [("token", .object [("accessToken", .string "access-1"),
          ("refreshToken", .string "refresh-1"), ("expiresAt", .string "2024-06-01T00:00:00Z")]),
        ("error", .object [("__typename", .string "AuthenticationUserError")])])])])])⟩

/-- A caller that gives up five minutes after `sampleNow` (`context.WithTimeout`). -/
def deadlineEnv : Env :=
  ⟨"http://localhost:8080", fun _ => .resp (some renewedToken) none,
    .resp (some sampleRequest) none, fun _ => .ok ⟨"ws", "localhost:8080"⟩, none, fun _ => none,
    "linux", fun _ _ => none,
    fun t => if sampleNow + 5 * Minute ≤ t then some (.leaf "context deadline exceeded") else none,
    fun _ => "[]"⟩

/-- The subscribe message on the wire. -/
def Event.isSubscribe : Event → Bool
  | .send (.object m) => asString (index m "type") = some "subscribe"
  | _ => false

/-- The permission bits of the record, if there is one. -/
def FS.fileMode (fs : FS) : Option Nat :=
  match fs.record with
  | .absent => none
  | .present mode _ => some mode
  | .faulty mode _ => some mode

/-- The permission bits of the directory, if there is one. -/
def FS.dirMode (fs : FS) : Option Nat := fs.dir.map Dir.mode

/-- The `type` of the message a read delivers, when it delivers a message that has
a string type. -/
def Inbound.msgType (m : Inbound) : Option String :=
  match m.result with
  | .error _ => none
  | .ok v =>
    match asMap v with
    | .error _ => none
    | .ok msg => asString (index msg "type")

/-! ## More observers of the trace -/

def Event.isClose : Event → Bool
  | .close => true
  | _ => false

def Event.isSend : Event → Bool
  | .send _ => true
  | _ => false

/-- The messages written to the connection, in the order they are written. -/
def sent : List Event → List Value
  | [] => []
  | .send msg :: rest => msg :: sent rest
  | _ :: rest => sent rest

/-- A gateway whose replies carry neither a result nor an error. -/
def blankEnv : Env :=
  ⟨"http://localhost:8080", fun _ => .resp none none, .resp none none,
    fun _ => .ok ⟨"ws", "localhost:8080"⟩, none, fun _ => none, "linux", fun _ _ => none,
    fun _ => none, fun _ => "[]"⟩

/-- A token message whose `expiresAt` is no timestamp. -/
def undatedFrame : Inbound :=
  ⟨2000000, .ok (.object [("type", .string "next"), ("payload", .object [("data", .object
    [("createdAuthenticationToken", .object [("token", .object
      [("accessToken", .string "access-1"), ("refreshToken", .string "refresh-1"),
        ("expiresAt", .string "next week")])])])])])⟩

/-- A gateway that renews a token and then cannot be reached. -/
def renewOnlyEnv : Env :=
  ⟨"http://localhost:8080", fun _ => .resp (some renewedToken) none,
    .failed (.leaf "connection refused"), fun _ => .ok ⟨"ws", "localhost:8080"⟩, none,
    fun _ => none, "linux", fun _ _ => none, fun _ => none, fun _ => "[]"⟩

/-- A store on which every byte of a write reaches the record and the write then
reports an error. -/
def unsyncedStore : FS :=
  ⟨0o22, some ⟨0o700, .present 0o600 staleText⟩, none,
    some ⟨.leaf "input/output error", some 4096⟩, none⟩

/-! ## The tools (`internal/tools`, `internal/caido/client.go`)

Here a `[]byte`, and a `string` that is cut at byte offsets, is the list of its
bytes. -/

/-- The value listRequestsHandler gives to `opts.First` for the `limit` of its input. -/
def listRequestsLimit (inputLimit : Int) : Int :=
  let limit := inputLimit
  let limit := if limit ≤ 0 then 10 else limit
  if limit > 100 then 100 else limit

/-- The variable `first` of the query Client.ListRequests sends for `opts.First`. -/
def firstVar (optsFirst : Int) : Int :=
  if optsFirst > 0 then optsFirst else 20

/-- The page size the list_requests tool asks the gateway for. -/
def listRequestsPageSize (inputLimit : Int) : Int := firstVar (listRequestsLimit inputLimit)

/-- The value of a character of the standard base64 alphabet. -/
def b64Val (c : Char) : Option Nat :=
  let n := c.toNat
  if 65 ≤ n ∧ n ≤ 90 then some (n - 65)
  else if 97 ≤ n ∧ n ≤ 122 then some (n - 71)
  else if 48 ≤ n ∧ n ≤ 57 then some (n + 4)
  else if c = '+' then some 62
  else if c = '/' then some 63
  else none

/-- Decodes groups of four characters; padding may only end the input. -/
def decodeQuanta : List Char → Option (List Nat)
  | [] => some []
  | a :: b :: c :: d :: rest =>
    match b64Val a, b64Val b with
    | some x, some y =>
      if c = '=' then
        if d = '=' ∧ rest = [] then some [x * 4 + y / 16] else none
      else
        match b64Val c with
        | none => none
        | some z =>
          if d = '=' then
            if rest = [] then some [x * 4 + y / 16, y % 16 * 16 + z / 4] else none
          else
            match b64Val d with
            | none => none
            | some u =>
              (decodeQuanta rest).map fun r =>
                (x * 4 + y / 16) :: (y % 16 * 16 + z / 4) :: (z % 4 * 64 + u) :: r
    | _, _ => none
  | _ => none

/-- The function `base64.StdEncoding.DecodeString`: carriage returns and line feeds
are skipped, `none` is a corrupt input. -/
def DecodeString (s : String) : Option (List Nat) :=
  decodeQuanta (s.data.filter fun c => c ≠ '\r' ∧ c ≠ '\n')

/-- The function `bytes.SplitN(s, sep, 2)` for a non-empty `sep`: what stands before
the first `sep`, and what stands behind it when there is one. -/
def SplitN2 (sep : List Nat) : List Nat → List Nat × Option (List Nat)
  | [] => ([], none)
  | b :: rest =>
    if sep.isPrefixOf (b :: rest) then ([], some ((b :: rest).drop sep.length))
    else ((b :: (SplitN2 sep rest).1), (SplitN2 sep rest).2)

/-- ParsedHTTPMessage contains parsed headers and body; `Headers = none` is the nil
map. -/
structure ParsedHTTPMessage where
  FirstLine : String
  Headers : Option (List (String × String))
  Body : List Nat
  BodySize : Nat
  Truncated : Bool
  deriving DecidableEq, Repr

/-- parseHTTPMessage parses raw HTTP message (base64 encoded) into headers and body;
`none` is the nil result.  The reading of the first line and of the header lines, a
function of `headerPart` alone, is the parameter `readHeaders`. -/
def parseHTTPMessage (readHeaders : List Nat → String × List (String × String))
    (rawBase64 : String) (includeHeaders includeBody : Bool) (bodyOffset bodyLimit : Int) :
    Option ParsedHTTPMessage :=
  if rawBase64 = "" then none
  else
    match DecodeString rawBase64 with
    | none => none
    | some raw =>
      let parts := SplitN2 [13, 10, 13, 10] raw
      let headerPart := parts.1
      let bodyPart := parts.2.getD []
      let firstLine := if includeHeaders then (readHeaders headerPart).1 else ""
      let headers := if includeHeaders then some (readHeaders headerPart).2 else none
      let bodySize := bodyPart.length
      if includeBody ∧ bodyPart.length > 0 then
        let bodyPart :=
          if bodyOffset > 0 then
            if bodyOffset ≥ bodyPart.length then [] else bodyPart.drop bodyOffset.toNat
          else bodyPart
        if bodyLimit > 0 ∧ (bodyPart.length : Int) > bodyLimit then
          some ⟨firstLine, headers, bodyPart.take bodyLimit.toNat, bodySize, true⟩
        else some ⟨firstLine, headers, bodyPart, bodySize, false⟩
      else some ⟨firstLine, headers, [], bodySize, false⟩

/-- The bytes behind the first occurrence of `sep`, none when there is no occurrence. -/
def afterFirst (sep : List Nat) : List Nat → List Nat
  | [] => []
  | b :: rest =>
    if sep.isPrefixOf (b :: rest) then (b :: rest).drop sep.length else afterFirst sep rest

/-- What is said of the body of a message. -/
structure BodyView where
  BodySize : Nat
  Body : List Nat
  Truncated : Bool
  deriving DecidableEq, Repr

/-- The reference definition on the body, in the words of the claim: BodySize is the
number of bytes after the first CRLF CRLF separator (0 when there is none); Body is
that byte string with the first bodyOffset bytes dropped (empty when bodyOffset is at
least BodySize) and then cut to at most bodyLimit bytes when bodyLimit is positive;
Truncated is true exactly when the bytes remaining after the offset exceed bodyLimit. -/
def referenceBody (raw : List Nat) (bodyOffset bodyLimit : Int) : BodyView :=
  let after := afterFirst [13, 10, 13, 10] raw
  let remaining := if bodyOffset ≥ after.length then [] else after.drop bodyOffset.toNat
  { BodySize := after.length,
    Body := if bodyLimit > 0 then remaining.take bodyLimit.toNat else remaining,
    Truncated := decide ((remaining.length : Int) > bodyLimit) }

/-- The scan of `strings.ReplaceAll`: `skip` characters of a match are still to be
passed over. -/
def ReplaceAllFrom (old new : List Char) : Nat → List Char → List Char
  | _, [] => []
  | skip + 1, _ :: cs => ReplaceAllFrom old new skip cs
  | 0, c :: cs =>
    if old.isPrefixOf (c :: cs) then new ++ ReplaceAllFrom old new (old.length - 1) cs
    else c :: ReplaceAllFrom old new 0 cs

/-- The function `strings.ReplaceAll(s, old, new)` for a non-empty `old`. -/
def ReplaceAll (s old new : List Char) : List Char := ReplaceAllFrom old new 0 s

/-- The function `strings.HasSuffix`. -/
def HasSuffix (s suffix : List Char) : Bool := decide (suffix <:+ s)

/-- The text sendRequestHandler encodes and sends for the raw request of its input:
the variable `raw` once the line endings are normalised and the request ends with a
double CRLF. -/
def normalizeRaw (inputRaw : String) : String :=
  let raw := ReplaceAll inputRaw.data ['\r', '\n'] ['\n']
  let raw := ReplaceAll raw ['\n'] ['\r', '\n']
  if ¬ HasSuffix raw ['\r', '\n', '\r', '\n'] then
    if HasSuffix raw ['\r', '\n'] then String.mk (raw ++ ['\r', '\n'])
    else String.mk (raw ++ ['\r', '\n', '\r', '\n'])
  else String.mk raw

/-- Every line feed of the text stands right behind a carriage return, `prev` being
the character before the text. -/
def crlfFrom (prev : Char) : List Char → Bool
  | [] => true
  | c :: cs => (c != '\n' || prev == '\r') && crlfFrom c cs

/-! ## Lemmas: digits -/

theorem digitVal_digitChar (d : Nat) (h : d < 10) : digitVal (digitChar d) = some d := by
  interval_cases d <;> rfl

theorem isDigit_digitChar (d : Nat) (h : d < 10) : isDigit (digitChar d) = true := by
  simp [isDigit, digitVal_digitChar d h]

theorem getnum2_pad2 (n : Nat) (rest : List Char) (h : n < 100) :
    getnum2 (pad2 n ++ rest) = some (n, rest) := by
  have h1 : n / 10 % 10 < 10 := Nat.mod_lt _ (by decide)
  have h2 : n % 10 < 10 := Nat.mod_lt _ (by decide)
  simp only [pad2, List.cons_append, List.nil_append, getnum2, digitVal_digitChar _ h1,
    digitVal_digitChar _ h2]
  congr 2
  omega

theorem getnum_pad2 (n : Nat) (rest : List Char) (h : n < 100) :
    getnum (pad2 n ++ rest) = some (n, rest) := by
  have h1 : n / 10 % 10 < 10 := Nat.mod_lt _ (by decide)
  have h2 : n % 10 < 10 := Nat.mod_lt _ (by decide)
  simp only [pad2, List.cons_append, List.nil_append, getnum, digitVal_digitChar _ h1,
    digitVal_digitChar _ h2]
  congr 2
  omega

theorem getnum4_pad4 (n : Nat) (rest : List Char) (h : n < 10000) :
    getnum4 (pad4 n ++ rest) = some (n, rest) := by
  have h1 : n / 1000 % 10 < 10 := Nat.mod_lt _ (by decide)
  have h2 : n / 100 % 10 < 10 := Nat.mod_lt _ (by decide)
  have h3 : n / 10 % 10 < 10 := Nat.mod_lt _ (by decide)
  have h4 : n % 10 < 10 := Nat.mod_lt _ (by decide)
  simp only [pad4, List.cons_append, List.nil_append, getnum4, digitVal_digitChar _ h1,
    digitVal_digitChar _ h2, digitVal_digitChar _ h3, digitVal_digitChar _ h4]
  congr 2
  omega

/-! ## Lemmas: the calendar -/

theorem daysInYear_pos (y : Nat) : 365 ≤ daysInYear y := by
  unfold daysInYear; split <;> omega

theorem isLeap_iff (y : Nat) : isLeap y = true ↔ (y % 4 = 0 ∧ (y % 100 ≠ 0 ∨ y % 400 = 0)) := by
  simp [isLeap]

theorem daysBeforeYear_succ (y : Nat) : daysBeforeYear (y + 1) = daysBeforeYear y + daysInYear y := by
  have e1 : (y + 1 + 3) / 4 = (y + 3) / 4 + (if y % 4 = 0 then 1 else 0) := by split_ifs <;> omega
  have e2 : (y + 1 + 99) / 100 = (y + 99) / 100 + (if y % 100 = 0 then 1 else 0) := by
    split_ifs <;> omega
  have e3 : (y + 1 + 399) / 400 = (y + 399) / 400 + (if y % 400 = 0 then 1 else 0) := by
    split_ifs <;> omega
  have e4 : (y + 99) / 100 ≤ (y + 3) / 4 := by omega
  have e5 : y % 100 = 0 → y % 4 = 0 := by omega
  have e6 : y % 400 = 0 → y % 100 = 0 := by omega
  unfold daysBeforeYear daysInYear
  rw [e1, e2, e3]
  clear e1 e2 e3
  by_cases h400 : y % 400 = 0
  · have h100 := e6 h400
    have h4 := e5 h100
    simp [isLeap, h4, h100, h400]
    omega
  · by_cases h100 : y % 100 = 0
    · have h4 := e5 h100
      simp [isLeap, h4, h100, h400]
      omega
    · by_cases h4 : y % 4 = 0
      · simp [isLeap, h4, h100, h400]
        omega
      · simp [isLeap, h4, h100, h400]
        omega

theorem splitYear_spec (fuel : Nat) : ∀ y d, d ≤ fuel →
    (splitYear fuel y d).2 < daysInYear (splitYear fuel y d).1 ∧
    daysBeforeYear (splitYear fuel y d).1 + (splitYear fuel y d).2 = daysBeforeYear y + d := by
  induction fuel with
  | zero =>
    intro y d h
    have hd : d = 0 := by omega
    subst hd
    have := daysInYear_pos y
    simp [splitYear]
    omega
  | succ n ih =>
    intro y d h
    have hpos := daysInYear_pos y
    simp only [splitYear]
    split
    · simp; assumption
    · have := ih (y + 1) (d - daysInYear y) (by omega)
      rw [daysBeforeYear_succ] at this
      omega

theorem daysBeforeMonth_succ (y m : Nat) (h : 1 ≤ m) :
    daysBeforeMonth y (m + 1) = daysBeforeMonth y m + daysIn m y := by
  obtain ⟨k, rfl⟩ : ∃ k, m = k + 1 := ⟨m - 1, by omega⟩
  rfl

theorem daysBeforeMonth_twelve (y : Nat) : daysBeforeMonth y 12 + 31 = daysInYear y := by
  unfold daysInYear
  simp [daysBeforeMonth, daysIn]
  split <;> rfl

theorem splitMonth_spec (y : Nat) (fuel : Nat) : ∀ m d, 1 ≤ m → m + fuel = 12 →
    daysBeforeMonth y m + d < daysInYear y →
    1 ≤ (splitMonth y fuel m d).1 ∧ (splitMonth y fuel m d).1 ≤ 12 ∧
    (splitMonth y fuel m d).2 < daysIn (splitMonth y fuel m d).1 y ∧
    daysBeforeMonth y (splitMonth y fuel m d).1 + (splitMonth y fuel m d).2 =
      daysBeforeMonth y m + d := by
  induction fuel with
  | zero =>
    intro m d h1 h12 hd
    have hm : m = 12 := by omega
    subst hm
    have := daysBeforeMonth_twelve y
    have h31 : daysIn 12 y = 31 := by simp [daysIn]
    simp only [splitMonth]
    exact ⟨by omega, by omega, by omega, trivial⟩
  | succ n ih =>
    intro m d h1 h12 hd
    simp only [splitMonth]
    split
    · refine ⟨h1, by omega, by assumption, rfl⟩
    · have hs := daysBeforeMonth_succ y m h1
      have := ih (m + 1) (d - daysIn m y) (by omega) (by omega) (by omega)
      omega

/-! ## Lemmas: fractions of a second -/

theorem fracValue_stop (w : Nat) : fracValue w ['Z'] = (0, ['Z']) := rfl

theorem fracValue_cons (w d : Nat) (rest : List Char) (h : d < 10) :
    fracValue w (digitChar d :: rest) =
      (d * w + (fracValue (w / 10) rest).1, (fracValue (w / 10) rest).2) := by
  rw [fracValue]
  simp [digitVal_digitChar d h]

theorem fracValue_fracDigits (k : Nat) : ∀ n, n < 10 ^ (k + 1) →
    fracValue (10 ^ k) (fracDigits (k + 1) (10 ^ k) n ++ ['Z']) = (n, ['Z']) := by
  induction k with
  | zero =>
    intro n h
    rw [fracDigits]
    split
    · subst_vars; exact fracValue_stop _
    · have h10 : n < 10 := by simpa using h
      have hd : n / 10 ^ 0 % 10 = n := by simp; omega
      rw [hd, List.cons_append, fracValue_cons _ _ _ h10]
      simp [fracDigits, fracValue_stop]
  | succ k ih =>
    intro n h
    rw [fracDigits]
    split
    · subst_vars; exact fracValue_stop _
    · have hw : 0 < 10 ^ (k + 1) := by positivity
      have hq : n / 10 ^ (k + 1) < 10 := by
        rw [Nat.div_lt_iff_lt_mul hw]
        calc n < 10 ^ (k + 1 + 1) := h
          _ = 10 * 10 ^ (k + 1) := by ring
      have hd : n / 10 ^ (k + 1) % 10 = n / 10 ^ (k + 1) := Nat.mod_eq_of_lt hq
      have hw10 : 10 ^ (k + 1) / 10 = 10 ^ k := by
        rw [pow_succ]; simp
      have hr := ih (n % 10 ^ (k + 1)) (Nat.mod_lt _ hw)
      rw [hd, List.cons_append, fracValue_cons _ _ _ hq, hw10, hr]
      congr 1
      exact Nat.div_add_mod' n (10 ^ (k + 1))

theorem daysIn_le (m y : Nat) : daysIn m y ≤ 31 := by
  unfold daysIn; split_ifs <;> omega

theorem daysBeforeYear_bound (y : Nat) (h : daysBeforeYear y < daysBeforeYear 10000) : y < 10000 := by
  have e : daysBeforeYear 10000 = 3652425 := by decide
  rw [e] at h
  unfold daysBeforeYear at h
  omega

theorem parseFraction_frac (frac : Nat) (h : frac < 1000000000) :
    parseFraction ((if frac = 0 then [] else '.' :: fracDigits 9 100000000 frac) ++ ['Z']) =
      (frac, ['Z']) := by
  split
  · subst_vars; rfl
  · rename_i h0
    have key := fracValue_fracDigits 8 frac (by norm_num; exact h)
    have e8 : (10 : Nat) ^ 8 = 100000000 := by norm_num
    rw [e8] at key
    have hq : frac / 100000000 % 10 < 10 := Nat.mod_lt _ (by decide)
    have hshape : fracDigits 9 100000000 frac =
        digitChar (frac / 100000000 % 10) :: fracDigits 8 (100000000 / 10) (frac % 100000000) := by
      rw [fracDigits]; simp [h0]
    rw [hshape] at key ⊢
    simp only [List.cons_append, parseFraction, isDigit_digitChar _ hq]
    simpa using key

theorem parseDate_format (y m d : Nat) (rest : List Char) (hy : y < 10000) (hm : m < 100)
    (hd : d < 100) :
    parseDate (pad4 y ++ ('-' :: (pad2 m ++ ('-' :: (pad2 d ++ ('T' :: rest)))))) =
      some ((y, m, d), rest) := by
  simp [parseDate, getnum4_pad4 y _ hy, expect, getnum2_pad2 m _ hm, getnum2_pad2 d _ hd]

theorem parseClock_format (h m s : Nat) (rest : List Char) (hh : h < 100) (hm : m < 100)
    (hs : s < 100) :
    parseClock (pad2 h ++ (':' :: (pad2 m ++ (':' :: (pad2 s ++ rest))))) =
      some ((h, m, s), rest) := by
  simp [parseClock, getnum_pad2 h _ hh, expect, getnum2_pad2 m _ hm, getnum2_pad2 s _ hs]

/-- Reading back the text of an instant gives the instant. -/
theorem parseRFC3339_format (t : Time) (ts : List Char) (h : formatRFC3339Nano t = some ts) :
    parseRFC3339 ts = some t := by
  unfold formatRFC3339Nano at h
  simp only at h
  split at h
  · exact absurd h (by simp)
  · rename_i hr
    push_neg at hr
    obtain ⟨hA0, hA1⟩ := hr
    have hts := Option.some.inj h
    clear h
    generalize ha : (t / (nsPerDay : Int) + 366).toNat = a at hts
    have haA : (a : Int) = t / (nsPerDay : Int) + 366 := by
      rw [← ha]; exact Int.toNat_of_nonneg hA0
    have hsy := splitYear_spec a 0 a (le_refl _)
    generalize splitYear a 0 a = yd at hts hsy
    obtain ⟨hyd2, hydsum⟩ := hsy
    have hb0 : daysBeforeYear 0 = 0 := by decide
    rw [hb0, Nat.zero_add] at hydsum
    have hy : yd.1 < 10000 := by
      apply daysBeforeYear_bound
      have : (a : Int) < daysBeforeYear 10000 := by rw [haA]; exact hA1
      have : a < daysBeforeYear 10000 := by exact_mod_cast this
      omega
    have hsm := splitMonth_spec yd.1 11 1 yd.2 (le_refl _) (by norm_num)
      (by simp [daysBeforeMonth]; exact hyd2)
    generalize splitMonth yd.1 11 1 yd.2 = md at hts hsm
    obtain ⟨hm1, hm12, hmd, hmsum⟩ := hsm
    have hbm1 : daysBeforeMonth yd.1 1 = 0 := rfl
    rw [hbm1, Nat.zero_add] at hmsum
    have hdl := daysIn_le md.1 yd.1
    have hrem0 : 0 ≤ t % (nsPerDay : Int) := Int.emod_nonneg _ (by decide)
    have hrem1 : t % (nsPerDay : Int) < nsPerDay := Int.emod_lt_of_pos _ (by decide)
    generalize hr : (t % (nsPerDay : Int)).toNat = rem at hts
    have hrR : (rem : Int) = t % (nsPerDay : Int) := by
      rw [← hr]; exact Int.toNat_of_nonneg hrem0
    have hremlt : rem < nsPerDay := by
      have : (rem : Int) < nsPerDay := by rw [hrR]; exact hrem1
      exact_mod_cast this
    have hns : nsPerSecond = 1000000000 := rfl
    have hnd : nsPerDay = 86400000000000 := by decide
    rw [hns] at hts
    rw [hnd] at hremlt
    have hsecs : rem / 1000000000 < 86400 := by omega
    have hcivil : parseCivil ts =
        some ⟨yd.1, md.1, md.2 + 1, rem / 1000000000 / 3600, rem / 1000000000 / 60 % 60,
          rem / 1000000000 % 60, rem % 1000000000, 0⟩ := by
      rw [← hts]
      unfold parseCivil
      simp only [List.append_assoc, List.cons_append]
      rw [parseDate_format yd.1 md.1 (md.2 + 1) _ hy (by omega) (by omega)]
      simp only [Option.bind_eq_bind, Option.some_bind]
      rw [parseClock_format (rem / 1000000000 / 3600) (rem / 1000000000 / 60 % 60)
        (rem / 1000000000 % 60) _ (by omega) (by omega) (by omega)]
      simp only [Option.some_bind]
      rw [parseFraction_frac _ (Nat.mod_lt _ (by decide))]
      rfl
    unfold parseRFC3339
    rw [hcivil]
    have hvalid : Civil.valid ⟨yd.1, md.1, md.2 + 1, rem / 1000000000 / 3600,
        rem / 1000000000 / 60 % 60, rem / 1000000000 % 60, rem % 1000000000, 0⟩ = true := by
      simp [Civil.valid]
      refine ⟨⟨⟨⟨⟨?_, ?_⟩, ?_⟩, ?_⟩, ?_⟩, ?_⟩ <;> omega
    simp only [hvalid, if_true]
    congr 1
    have e1 : rem / 1000000000 / 3600 * 3600 + rem / 1000000000 / 60 % 60 * 60 +
        rem / 1000000000 % 60 = rem / 1000000000 := by omega
    have e2 : ((rem / 1000000000 : Nat) : Int) * 1000000000 + ((rem % 1000000000 : Nat) : Int) =
        (rem : Int) := by
      exact_mod_cast Nat.div_add_mod' rem 1000000000
    have e3 : daysBeforeYear yd.1 + daysBeforeMonth yd.1 md.1 + (md.2 + 1 - 1) = a := by omega
    have hdiv := Int.emod_add_ediv t (nsPerDay : Int)
    rw [hnd] at hdiv hrR haA
    simp only [Civil.toTime, hns, e1, e3]
    push_cast at hdiv hrR haA e2 ⊢
    linarith

/-! ## Lemmas: JSON strings -/

theorem hexVal_hexDigit (d : Nat) (h : d < 16) : hexVal (hexDigit d) = some d := by
  interval_cases d <;> rfl

theorem unquoteAux_skip4 (p : Option Nat) (a b c d : Char) (rest : List Char) :
    unquoteAux 4 p (a :: b :: c :: d :: rest) = unquoteAux 0 p rest := rfl

theorem unquoteAux_simple (e : Char) (rest : List Char) (h : e ≠ 'u') :
    unquoteAux 0 none ('\\' :: e :: rest) = simpleEscape e :: unquoteAux 0 none rest := by
  rw [unquoteAux]
  simp [h, flush]

theorem unquoteAux_hex (a b c d : Char) (u : Nat) (rest : List Char)
    (h : getu4 [a, b, c, d] = some u) (hs : isSurrogate u = false) :
    unquoteAux 0 none ('\\' :: 'u' :: a :: b :: c :: d :: rest) =
      Char.ofNat u :: unquoteAux 0 none rest := by
  have hg : getu4 (a :: b :: c :: d :: rest) = some u := h
  rw [unquoteAux]
  simp only [if_true, hg, hs]
  simp [flush, unquoteAux_skip4]

theorem unquoteAux_escapeChar (c : Char) (rest : List Char) :
    unquoteAux 0 none (escapeChar c ++ rest) = c :: unquoteAux 0 none rest := by
  unfold escapeChar
  by_cases h1 : c = '"'
  · subst h1; exact unquoteAux_simple _ _ (by decide)
  by_cases h2 : c = '\\'
  · subst h2; exact unquoteAux_simple _ _ (by decide)
  by_cases h3 : c = '\n'
  · subst h3; exact unquoteAux_simple _ _ (by decide)
  by_cases h4 : c = '\r'
  · subst h4; exact unquoteAux_simple _ _ (by decide)
  by_cases h5 : c = '\t'
  · subst h5; exact unquoteAux_simple _ _ (by decide)
  by_cases h6 : c.toNat = 8
  · have : c = Char.ofNat 8 := by rw [← h6]; simp
    subst this; exact unquoteAux_simple _ _ (by decide)
  by_cases h7 : c.toNat = 12
  · have : c = Char.ofNat 12 := by rw [← h7]; simp
    subst this; exact unquoteAux_simple _ _ (by decide)
  simp only [h1, h2, h3, h4, h5, h6, h7, if_false]
  by_cases h8 : c.toNat < 32 ∨ c = '<' ∨ c = '>' ∨ c = '&'
  · have hn : c.toNat < 63 := by
      rcases h8 with h | h | h | h
      · omega
      · subst h; decide
      · subst h; decide
      · subst h; decide
    have hhi : c.toNat / 16 < 16 := by omega
    have hlo : c.toNat % 16 < 16 := Nat.mod_lt _ (by decide)
    have hg : getu4 ['0', '0', hexDigit (c.toNat / 16), hexDigit (c.toNat % 16)] =
        some c.toNat := by
      have h0 : hexVal '0' = some 0 := rfl
      simp only [getu4, hexVal_hexDigit _ hhi, hexVal_hexDigit _ hlo, h0]
      congr 1
      omega
    have hs : isSurrogate c.toNat = false := by
      simp [isSurrogate]; omega
    simp only [h8, if_true, List.cons_append, List.nil_append]
    rw [unquoteAux_hex _ _ _ _ _ _ hg hs]
    simp
  simp only [h8, if_false]
  by_cases h9 : c.toNat = 0x2028
  · have : c = Char.ofNat 0x2028 := by rw [← h9]; simp
    subst this
    exact unquoteAux_hex '2' '0' '2' '8' 0x2028 rest rfl rfl
  by_cases h10 : c.toNat = 0x2029
  · have : c = Char.ofNat 0x2029 := by rw [← h10]; simp
    subst this
    exact unquoteAux_hex '2' '0' '2' '9' 0x2029 rest rfl rfl
  simp only [h9, h10, if_false, List.cons_append, List.nil_append]
  rw [unquoteAux.eq_def]
  simp [h2, flush]

theorem unquote_escape (s : List Char) : unquote (escape s) = s := by
  unfold unquote
  induction s with
  | nil => rfl
  | cons c cs ih => rw [escape, unquoteAux_escapeChar, ih]

theorem scanString_quote (rest : List Char) : scanString ('"' :: rest) = some ([], rest) := by
  rw [scanString.eq_def]
  simp

theorem scanString_simple (e : Char) (rest : List Char) (h : isSimpleEscape e = true) :
    scanString ('\\' :: e :: rest) = (scanString rest).map fun r => ('\\' :: e :: r.1, r.2) := by
  rw [scanString]
  simp [h]

theorem scanString_char (c : Char) (rest : List Char) (h1 : c ≠ '"') (h2 : c ≠ '\\')
    (h3 : 32 ≤ c.toNat) :
    scanString (c :: rest) = (scanString rest).map fun r => (c :: r.1, r.2) := by
  rw [scanString.eq_def]
  simp [h1, h2, Nat.not_lt.mpr h3]

theorem hexDigit_plain (d : Nat) (h : d < 16) :
    hexDigit d ≠ '"' ∧ hexDigit d ≠ '\\' ∧ 32 ≤ (hexDigit d).toNat := by
  interval_cases d <;> decide

theorem scanString_hex (a b c d : Char) (rest : List Char)
    (ha : (hexVal a).isSome = true) (hb : (hexVal b).isSome = true)
    (hc : (hexVal c).isSome = true) (hd : (hexVal d).isSome = true)
    (pa : a ≠ '"' ∧ a ≠ '\\' ∧ 32 ≤ a.toNat) (pb : b ≠ '"' ∧ b ≠ '\\' ∧ 32 ≤ b.toNat)
    (pc : c ≠ '"' ∧ c ≠ '\\' ∧ 32 ≤ c.toNat) (pd : d ≠ '"' ∧ d ≠ '\\' ∧ 32 ≤ d.toNat) :
    scanString ('\\' :: 'u' :: a :: b :: c :: d :: rest) =
      (scanString rest).map fun r => ('\\' :: 'u' :: a :: b :: c :: d :: r.1, r.2) := by
  rw [scanString]
  have h4 : hex4 (a :: b :: c :: d :: rest) = true := by simp [hex4, ha, hb, hc, hd]
  simp only [h4]
  rw [scanString_char a _ pa.1 pa.2.1 pa.2.2, scanString_char b _ pb.1 pb.2.1 pb.2.2,
    scanString_char c _ pc.1 pc.2.1 pc.2.2, scanString_char d _ pd.1 pd.2.1 pd.2.2]
  cases scanString rest <;> simp

theorem scanString_escapeChar (c : Char) (rest : List Char) :
    scanString (escapeChar c ++ rest) =
      (scanString rest).map fun r => (escapeChar c ++ r.1, r.2) := by
  unfold escapeChar
  by_cases h1 : c = '"'
  · subst h1; exact scanString_simple _ _ (by decide)
  by_cases h2 : c = '\\'
  · subst h2; exact scanString_simple _ _ (by decide)
  by_cases h3 : c = '\n'
  · subst h3; exact scanString_simple _ _ (by decide)
  by_cases h4 : c = '\r'
  · subst h4; exact scanString_simple _ _ (by decide)
  by_cases h5 : c = '\t'
  · subst h5; exact scanString_simple _ _ (by decide)
  by_cases h6 : c.toNat = 8
  · simp only [h1, h2, h3, h4, h5, h6, if_true, if_false]
    exact scanString_simple _ _ (by decide)
  by_cases h7 : c.toNat = 12
  · simp only [h1, h2, h3, h4, h5, h6, h7, if_true, if_false]
    exact scanString_simple _ _ (by decide)
  simp only [h1, h2, h3, h4, h5, h6, h7, if_false]
  by_cases h8 : c.toNat < 32 ∨ c = '<' ∨ c = '>' ∨ c = '&'
  · have hn : c.toNat < 63 := by
      rcases h8 with h | h | h | h
      · omega
      · subst h; decide
      · subst h; decide
      · subst h; decide
    have hhi : c.toNat / 16 < 16 := by omega
    have hlo : c.toNat % 16 < 16 := Nat.mod_lt _ (by decide)
    simp only [h8, if_true, List.cons_append, List.nil_append]
    exact scanString_hex _ _ _ _ _ rfl rfl (by simp [hexVal_hexDigit _ hhi])
      (by simp [hexVal_hexDigit _ hlo]) (by decide) (by decide) (hexDigit_plain _ hhi)
      (hexDigit_plain _ hlo)
  simp only [h8, if_false]
  by_cases h9 : c.toNat = 0x2028
  · simp only [h9, if_true]
    exact scanString_hex _ _ _ _ _ rfl rfl rfl rfl (by decide) (by decide) (by decide) (by decide)
  by_cases h10 : c.toNat = 0x2029
  · simp only [h9, h10, if_true, if_false]
    exact scanString_hex _ _ _ _ _ rfl rfl rfl rfl (by decide) (by decide) (by decide) (by decide)
  simp only [h9, h10, if_false, List.cons_append, List.nil_append]
  exact scanString_char c rest h1 h2 (by
    by_contra hlt
    exact h8 (Or.inl (by omega)))

theorem scanString_escape (s rest : List Char) :
    scanString (escape s ++ '"' :: rest) = some (escape s, rest) := by
  induction s with
  | nil => exact scanString_quote rest
  | cons c cs ih =>
    rw [escape, List.append_assoc, scanString_escapeChar, ih]
    rfl

theorem scanString_plain (s rest : List Char)
    (h : ∀ c ∈ s, c ≠ '"' ∧ c ≠ '\\' ∧ 32 ≤ c.toNat) :
    scanString (s ++ '"' :: rest) = some (s, rest) := by
  induction s with
  | nil => exact scanString_quote rest
  | cons c cs ih =>
    obtain ⟨h1, h2, h3⟩ := h c (List.mem_cons_self _ _)
    have ih1 := ih fun d hd => h d (List.mem_cons_of_mem _ hd)
    rw [List.cons_append, scanString_char c _ h1 h2 h3, ih1]
    rfl

/-! ## Lemmas: the text of an instant holds no character a JSON string escapes -/

theorem digitChar_plain (d : Nat) (h : d < 10) :
    digitChar d ≠ '"' ∧ digitChar d ≠ '\\' ∧ 32 ≤ (digitChar d).toNat := by
  interval_cases d <;> decide

theorem pad2_plain (n : Nat) : ∀ c ∈ pad2 n, c ≠ '"' ∧ c ≠ '\\' ∧ 32 ≤ c.toNat := by
  intro c hc
  simp only [pad2, List.mem_cons, List.mem_singleton, List.not_mem_nil, or_false] at hc
  rcases hc with rfl | rfl <;> exact digitChar_plain _ (Nat.mod_lt _ (by decide))

theorem pad4_plain (n : Nat) : ∀ c ∈ pad4 n, c ≠ '"' ∧ c ≠ '\\' ∧ 32 ≤ c.toNat := by
  intro c hc
  simp only [pad4, List.mem_cons, List.mem_singleton, List.not_mem_nil, or_false] at hc
  rcases hc with rfl | rfl | rfl | rfl <;> exact digitChar_plain _ (Nat.mod_lt _ (by decide))

theorem fracDigits_plain (fuel : Nat) : ∀ w n, ∀ c ∈ fracDigits fuel w n,
    c ≠ '"' ∧ c ≠ '\\' ∧ 32 ≤ c.toNat := by
  induction fuel with
  | zero => intro w n c hc; simp [fracDigits] at hc
  | succ k ih =>
    intro w n c hc
    rw [fracDigits] at hc
    split at hc
    · simp at hc
    · rcases List.mem_cons.mp hc with rfl | h
      · exact digitChar_plain _ (Nat.mod_lt _ (by decide))
      · exact ih _ _ c h

theorem formatRFC3339Nano_plain (t : Time) (ts : List Char) (h : formatRFC3339Nano t = some ts) :
    ∀ c ∈ ts, c ≠ '"' ∧ c ≠ '\\' ∧ 32 ≤ c.toNat := by
  unfold formatRFC3339Nano at h
  simp only at h
  split at h
  · exact absurd h (by simp)
  · have hts := Option.some.inj h
    intro c hc
    rw [← hts] at hc
    simp only [List.mem_append, List.mem_cons, List.mem_singleton, List.not_mem_nil,
      or_false] at hc
    rcases hc with ((((((h | h | h) | h | h) | h | h) | h | h) | h | h) | h) | h
    · exact pad4_plain _ c h
    · subst h; decide
    · exact pad2_plain _ c h
    · subst h; decide
    · exact pad2_plain _ c h
    · subst h; decide
    · exact pad2_plain _ c h
    · subst h; decide
    · exact pad2_plain _ c h
    · subst h; decide
    · exact pad2_plain _ c h
    · split at h
      · simp at h
      · rcases List.mem_cons.mp h with rfl | h
        · decide
        · exact fracDigits_plain _ _ _ c h
    · subst h; decide

/-! ## Lemmas: parsing what MarshalIndent writes -/

theorem parseValue_string (fuel depth : Nat) (raw rest : List Char)
    (h : scanString (raw ++ '"' :: rest) = some (raw, rest)) :
    parseValue (fuel + 1) depth ('"' :: (raw ++ '"' :: rest)) = some (JSON.str raw, rest) := by
  rw [parseValue]
  simp [h]

/-- One `"key": "value"` line, and what its end decides. -/
theorem parseMembers_line (fuel depth : Nat) (k raw tail : List Char)
    (hk : ∀ r, scanString (k ++ '"' :: r) = some (k, r))
    (hraw : ∀ r, scanString (raw ++ '"' :: r) = some (raw, r)) :
    parseMembers (fuel + 2) depth ('"' :: (k ++ '"' :: ':' :: ' ' :: '"' :: (raw ++ '"' :: tail))) =
      match skipWS tail with
      | [] => none
      | d :: rest4 =>
        if d = '}' then some ([(k, JSON.str raw)], rest4)
        else if d = ',' then
          (parseMembers (fuel + 1) depth (skipWS rest4)).map fun r => ((k, JSON.str raw) :: r.1, r.2)
        else none := by
  rw [parseMembers]
  have hs1 : skipWS (':' :: ' ' :: '"' :: (raw ++ '"' :: tail)) =
      ':' :: ' ' :: '"' :: (raw ++ '"' :: tail) := rfl
  have hs2 : skipWS (' ' :: '"' :: (raw ++ '"' :: tail)) = '"' :: (raw ++ '"' :: tail) := rfl
  simp only [if_true, hk, hs1, hs2, parseValue_string fuel depth raw tail (hraw tail)]

theorem foldName_refresh : foldName "refreshToken".data ≠ foldName "accessToken".data := by
  decide

theorem foldName_expires :
    foldName "expiresAt".data ≠ foldName "accessToken".data ∧
      foldName "expiresAt".data ≠ foldName "refreshToken".data := by
  decide

theorem setField_access (tok : StoredToken) (raw : List Char) :
    setField tok (escape "accessToken".data) (JSON.str raw) =
      .ok ⟨String.mk (unquote raw), tok.RefreshToken, tok.ExpiresAt⟩ := by
  unfold setField
  rw [unquote_escape]
  simp only [if_pos]

theorem setField_refresh (tok : StoredToken) (raw : List Char) :
    setField tok (escape "refreshToken".data) (JSON.str raw) =
      .ok ⟨tok.AccessToken, String.mk (unquote raw), tok.ExpiresAt⟩ := by
  unfold setField
  rw [unquote_escape]
  simp only [if_neg foldName_refresh, if_pos]

theorem setField_expires (tok : StoredToken) (raw : List Char) (t : Time)
    (h : parseRFC3339 raw = some t) :
    setField tok (escape "expiresAt".data) (JSON.str raw) =
      .ok ⟨tok.AccessToken, tok.RefreshToken, t⟩ := by
  unfold setField
  rw [unquote_escape]
  simp only [if_neg foldName_expires.1, if_neg foldName_expires.2, if_pos, h]

/-- What MarshalIndent writes, Unmarshal reads back as the same token. -/
theorem Unmarshal_MarshalIndent (token : StoredToken) (data : List Char)
    (h : MarshalIndent token = .ok data) : Unmarshal data = .ok token := by
  unfold MarshalIndent at h
  split at h
  · exact absurd h (by simp)
  · rename_i ts hts
    have hdata := Except.ok.inj h
    clear h
    have hplain := fun r => scanString_plain ts r (formatRFC3339Nano_plain _ _ hts)
    have hparse : parseJSON data = some (JSON.obj
        [(escape "accessToken".data, JSON.str (escape token.AccessToken.data)),
         (escape "refreshToken".data, JSON.str (escape token.RefreshToken.data)),
         (escape "expiresAt".data, JSON.str ts)]) := by
      unfold parseJSON
      obtain ⟨n, hn⟩ : ∃ n, data.length + 1 = n + 5 := by
        refine ⟨data.length - 4, ?_⟩
        rw [← hdata]
        simp [member, quote]
      rw [hn, ← hdata]
      simp only [member, quote, List.append_assoc, List.cons_append, List.nil_append]
      have hs0 : ∀ r, skipWS ('\x7b' :: r) = '\x7b' :: r := fun _ => rfl
      have hs1 : ∀ r, skipWS ('\n' :: ' ' :: ' ' :: '"' :: r) = '"' :: r := fun _ => rfl
      have hs2 : ∀ r, skipWS (',' :: r) = ',' :: r := fun _ => rfl
      have hs3 : skipWS ['\n', '\x7d'] = ['\x7d'] := rfl
      rw [hs0, parseValue]
      simp only [hs1]
      rw [parseMembers_line _ _ _ _ _ (scanString_escape _) (scanString_escape _)]
      simp only [hs2, hs1]
      rw [parseMembers_line _ _ _ _ _ (scanString_escape _) (scanString_escape _)]
      simp only [hs2, hs1]
      rw [parseMembers_line _ _ _ _ _ (scanString_escape _) hplain]
      simp only [hs3]
      simp [maxNestingDepth, skipWS]
    unfold Unmarshal
    rw [hparse]
    have hr := parseRFC3339_format _ _ hts
    show setFields _ StoredToken.zero = _
    rw [setFields, setField_access]
    show setFields _ _ = _
    rw [setFields, setField_refresh]
    show setFields _ _ = _
    rw [setFields, setField_expires _ _ _ hr]
    show setFields [] _ = _
    rw [setFields, unquote_escape, unquote_escape]

/-- Save then Load gives back the token saved. -/
theorem Load_Save (fs fs1 : FS) (token : StoredToken) (h : Save fs token = (none, fs1)) :
    Load fs1 = .ok (some token) ∧
      ∃ mode data, MarshalIndent token = .ok data ∧ fs1.record = .present mode (String.mk data) := by
  unfold Save ensureConfigDir at h
  cases hm : MkdirAll fs dirPermission with
  | mk e fs2 =>
    rw [hm] at h
    cases e with
    | some e => simp at h
    | none =>
      simp only at h
      cases hmar : MarshalIndent token with
      | error err => rw [hmar] at h; simp at h
      | ok data =>
        rw [hmar] at h
        simp only at h
        cases hw : WriteFile fs2 (String.mk data) filePermission with
        | mk e2 fs3 =>
          rw [hw] at h
          cases e2 with
          | some e2 => simp at h
          | none =>
            simp only [Prod.mk.injEq, true_and] at h
            subst h
            unfold WriteFile at hw
            split at hw
            · simp at hw
            · rename_i d hd
              split at hw
              · simp at hw
              · simp at hw
              · simp only [Prod.mk.injEq, true_and] at hw
                have hrec : fs3.record =
                    .present (modeAfterWrite fs2 filePermission) (String.mk data) := by
                  rw [← hw]; rfl
                refine ⟨?_, _, data, rfl, hrec⟩
                unfold Load ReadFile
                rw [hrec]
                simp only [Unmarshal_MarshalIndent token data hmar]

/-! ## Lemmas: what a run adds to the trace -/

theorem emit_trace (w : World) (e : Event) : (w.emit e).trace = w.trace ++ [e] := rfl

theorem emit_fs (w : World) (e : Event) : (w.emit e).fs = w.fs := rfl

theorem emit_inbound (w : World) (e : Event) : (w.emit e).inbound = w.inbound := rfl

theorem emit_now (w : World) (e : Event) : (w.emit e).now = w.now := rfl

theorem readJSON_world (m : Inbound) (rest : List Inbound) (w : World) :
    (readJSON m rest w).2.fs = w.fs ∧ (readJSON m rest w).2.inbound = rest ∧
      (readJSON m rest w).2.trace = w.trace ++ [Event.read] := by
  unfold readJSON
  cases m.result <;> exact ⟨rfl, rfl, rfl⟩

theorem readLoop_world (env : Env) : ∀ (ms : List Inbound) (w : World),
    (readLoop env ms w).2.fs = w.fs ∧
      ∃ ev, (readLoop env ms w).2.trace = w.trace ++ ev ∧ ∀ e ∈ ev, e = Event.read := by
  intro ms
  induction ms with
  | nil =>
    intro w
    rw [readLoop]
    cases env.ctxErr w.now with
    | some err => exact ⟨rfl, [], by simp, by simp⟩
    | none => exact ⟨rfl, [Event.read], rfl, by simp⟩
  | cons m rest ih =>
    intro w
    rw [readLoop]
    cases env.ctxErr w.now with
    | some err => exact ⟨rfl, [], by simp, by simp⟩
    | none =>
      obtain ⟨hfs, -, htr⟩ := readJSON_world m rest w
      simp only
      cases hrj : readJSON m rest w with
      | mk r w1 =>
        rw [hrj] at hfs htr
        simp only at hfs htr
        cases r with
        | error err => exact ⟨hfs, [Event.read], htr, by simp⟩
        | ok msg =>
          simp only
          cases handleMessage env w1.now msg with
          | some r => exact ⟨hfs, [Event.read], htr, by simp⟩
          | none =>
            obtain ⟨hfs2, ev, htr2, hev⟩ := ih w1
            refine ⟨hfs2.trans hfs, Event.read :: ev, ?_, ?_⟩
            · rw [htr2, htr]; simp
            · intro e he
              rcases List.mem_cons.mp he with rfl | h
              · rfl
              · exact hev e h

theorem readFrame_world (w : World) :
    (readFrame w).2.fs = w.fs ∧ (readFrame w).2.trace = w.trace ++ [Event.read] := by
  unfold readFrame
  cases w.inbound with
  | nil => exact ⟨rfl, rfl⟩
  | cons m rest =>
    obtain ⟨h1, -, h3⟩ := readJSON_world m rest w
    exact ⟨h1, h3⟩

theorem converse_world (env : Env) (requestID : String) (w : World) :
    (converse env requestID w).2.fs = w.fs ∧
      ∃ ev, (converse env requestID w).2.trace = w.trace ++ ev ∧
        ∀ e ∈ ev, e.isWire = true ∧ e.isDial = false := by
  unfold converse
  simp only
  cases env.sendFault 0 with
  | some err => exact ⟨rfl, [Event.send initMsg], rfl, by simp [Event.isWire, Event.isDial]⟩
  | none =>
    simp only
    obtain ⟨hfs, htr⟩ := readFrame_world (w.emit (Event.send initMsg))
    cases hrf : readFrame (w.emit (Event.send initMsg)) with
    | mk r w1 =>
      rw [hrf] at hfs htr
      simp only [emit_trace, emit_fs] at hfs htr
      cases r with
      | error err =>
        exact ⟨hfs, [Event.send initMsg, Event.read], by simp [htr],
          by simp [Event.isWire, Event.isDial]⟩
      | ok msg =>
        simp only
        cases env.sendFault 1 with
        | some err =>
          refine ⟨hfs, [Event.send initMsg, Event.read, Event.send (subMsg requestID)], ?_, ?_⟩
          · simp [emit_trace, htr]
          · simp [Event.isWire, Event.isDial]
        | none =>
          simp only
          obtain ⟨hfs2, ev, htr2, hev⟩ := readLoop_world env
            (w1.emit (Event.send (subMsg requestID))).inbound
            (w1.emit (Event.send (subMsg requestID)))
          refine ⟨hfs2.trans hfs,
            [Event.send initMsg, Event.read, Event.send (subMsg requestID)] ++ ev, ?_, ?_⟩
          · rw [htr2, emit_trace, htr]; simp
          · intro e he
            rcases List.mem_append.mp he with h | h
            · simp at h
              rcases h with rfl | rfl | rfl <;> simp [Event.isWire, Event.isDial]
            · rw [hev e h]; simp [Event.isWire, Event.isDial]

theorem waitForToken_world (env : Env) (requestID : String) (w : World) :
    (waitForToken env requestID w).2.fs = w.fs ∧
      ∃ ev, (waitForToken env requestID w).2.trace = w.trace ++ ev ∧
        (∀ e ∈ ev, e.isWire = true) ∧ ev.countP Event.isDial ≤ 1 ∧
        ∀ token, (waitForToken env requestID w).1 = .ok token → ev.countP Event.isDial = 1 := by
  unfold waitForToken
  cases WebSocketEndpoint env.endpoint with
  | none => exact ⟨rfl, [], by simp, by simp, by simp, by simp⟩
  | some wsEndpoint =>
    simp only
    cases env.urlParse wsEndpoint with
    | error err => exact ⟨rfl, [], by simp, by simp, by simp, by simp⟩
    | ok u =>
      simp only
      cases env.dial with
      | some err =>
        exact ⟨rfl, [Event.dial wsEndpoint _], rfl, by simp [Event.isWire],
          by simp [Event.isDial], by simp⟩
      | none =>
        simp only
        generalize hd : (w.emit (Event.dial wsEndpoint
          [("Origin", (if u.Scheme = "wss" then "https" else "http") ++ "://" ++ u.Host),
            ("Sec-WebSocket-Protocol", "graphql-transport-ws")])) = wd
        have hwd : wd.fs = w.fs ∧ ∃ d, Event.isDial d = true ∧ Event.isWire d = true ∧
            wd.trace = w.trace ++ [d] := by
          rw [← hd]; exact ⟨rfl, Event.dial wsEndpoint _, rfl, rfl, rfl⟩
        obtain ⟨hwfs, d, hd1, hd2, hwtr⟩ := hwd
        obtain ⟨hfs, ev, htr, hev⟩ := converse_world env requestID wd
        have hcount : (d :: ev ++ [Event.close]).countP Event.isDial = 1 := by
          have h0 : ev.countP Event.isDial = 0 := by
            rw [List.countP_eq_zero]
            intro e he
            simp [(hev e he).2]
          have hclose : Event.isDial Event.close = false := rfl
          simp [List.countP_cons, List.countP_append, hd1, h0, hclose]
        have hwire : ∀ e ∈ d :: ev ++ [Event.close], e.isWire = true := by
          intro e he
          simp only [List.cons_append, List.mem_cons, List.mem_append, List.mem_singleton,
            List.not_mem_nil, or_false] at he
          rcases he with rfl | h | rfl
          · exact hd2
          · exact (hev e h).1
          · rfl
        cases hc : converse env requestID wd with
        | mk r w2 =>
          rw [hc] at hfs htr
          simp only at hfs htr
          cases r with
          | error err =>
            refine ⟨hfs.trans hwfs, d :: ev ++ [Event.close], ?_, hwire, by omega, by simp⟩
            simp [emit_trace, htr, hwtr]
          | ok token =>
            refine ⟨hfs.trans hwfs, d :: ev ++ [Event.close], ?_, hwire, by omega,
              fun _ _ => hcount⟩
            simp [emit_trace, htr, hwtr]

/-! ## Lemmas: where a returned token comes from -/

theorem readLoop_token (env : Env) : ∀ (ms : List Inbound) (w w1 : World)
    (token : AuthenticationToken), readLoop env ms w = (.ok token, w1) → issues env ms token := by
  intro ms
  induction ms with
  | nil =>
    intro w w1 token h
    rw [readLoop] at h
    cases hc : env.ctxErr w.now <;> rw [hc] at h <;> simp at h
  | cons m rest ih =>
    intro w w1 token h
    rw [readLoop] at h
    cases hc : env.ctxErr w.now with
    | some err => rw [hc] at h; simp at h
    | none =>
      rw [hc] at h
      simp only at h
      cases hr : m.result with
      | error err =>
        simp [readJSON, hr] at h
      | ok v =>
        cases hm : asMap v with
        | error err => simp [readJSON, hr, hm] at h
        | ok msg =>
          simp only [readJSON, hr, hm] at h
          cases hh : handleMessage env
              ({ w with now := w.now + m.elapsed, inbound := rest }.emit Event.read).now msg with
          | some r =>
            rw [hh] at h
            simp only [Prod.mk.injEq] at h
            exact ⟨m, List.mem_cons_self _ _, v, msg, _, hr, hm, by rw [hh, h.1]⟩
          | none =>
            rw [hh] at h
            obtain ⟨m1, hm1, rest1⟩ := ih _ _ _ h
            exact ⟨m1, List.mem_cons_of_mem _ hm1, rest1⟩

theorem readFrame_inbound (w : World) : ∀ m ∈ (readFrame w).2.inbound, m ∈ w.inbound := by
  unfold readFrame
  cases hw : w.inbound with
  | nil => intro m hm; simp [emit_inbound, hw] at hm
  | cons m0 rest =>
    intro m hm
    rw [(readJSON_world m0 rest w).2.1] at hm
    exact List.mem_cons_of_mem _ hm

theorem issues_mono (env : Env) (ms ms1 : List Inbound) (token : AuthenticationToken)
    (hsub : ∀ m ∈ ms, m ∈ ms1) (h : issues env ms token) : issues env ms1 token := by
  obtain ⟨m, hm, rest⟩ := h
  exact ⟨m, hsub m hm, rest⟩

theorem converse_token (env : Env) (requestID : String) (w w1 : World)
    (token : AuthenticationToken) (h : converse env requestID w = (.ok token, w1)) :
    issues env w.inbound token := by
  unfold converse at h
  simp only at h
  cases hs0 : env.sendFault 0 with
  | some err => rw [hs0] at h; simp at h
  | none =>
    rw [hs0] at h
    simp only at h
    have hin := readFrame_inbound (w.emit (Event.send initMsg))
    cases hrf : readFrame (w.emit (Event.send initMsg)) with
    | mk r w2 =>
      rw [hrf] at h hin
      cases r with
      | error err => simp at h
      | ok msg =>
        simp only at h hin
        cases hs1 : env.sendFault 1 with
        | some err => rw [hs1] at h; simp at h
        | none =>
          rw [hs1] at h
          simp only at h
          exact issues_mono env _ _ token hin (readLoop_token env _ _ _ token h)

theorem waitForToken_token (env : Env) (requestID : String) (w : World)
    (token : AuthenticationToken) (h : (waitForToken env requestID w).1 = .ok token) :
    issues env w.inbound token := by
  unfold waitForToken at h
  cases hws : WebSocketEndpoint env.endpoint with
  | none => rw [hws] at h; simp at h
  | some wsEndpoint =>
    rw [hws] at h
    simp only at h
    cases hu : env.urlParse wsEndpoint with
    | error err => rw [hu] at h; simp at h
    | ok u =>
      rw [hu] at h
      simp only at h
      cases hd : env.dial with
      | some err => rw [hd] at h; simp at h
      | none =>
        rw [hd] at h
        simp only at h
        cases hc : converse env requestID (w.emit (Event.dial wsEndpoint
          [("Origin", (if u.Scheme = "wss" then "https" else "http") ++ "://" ++ u.Host),
            ("Sec-WebSocket-Protocol", "graphql-transport-ws")])) with
        | mk r w2 =>
          rw [hc] at h
          cases r with
          | error err => simp at h
          | ok tok =>
            simp only [Res.ok.injEq] at h
            subst h
            have hi := converse_token env requestID (w.emit (Event.dial wsEndpoint
              [("Origin", (if u.Scheme = "wss" then "https" else "http") ++ "://" ++ u.Host),
                ("Sec-WebSocket-Protocol", "graphql-transport-ws")])) w2 tok hc
            exact hi

theorem adds_refl (K : Event → Bool) (w : World) : w.adds K w :=
  ⟨rfl, rfl, [], by simp, by simp⟩

theorem adds_emit (K : Event → Bool) (w w1 : World) (e : Event) (h : w.adds K w1)
    (he : K e = true) : w.adds K (w1.emit e) := by
  obtain ⟨hfs, hin, ev, htr, hev⟩ := h
  refine ⟨hfs, hin, ev ++ [e], by simp [emit_trace, htr], ?_⟩
  intro x hx
  rcases List.mem_append.mp hx with h | h
  · exact hev x h
  · simp at h; subst h; exact he

theorem openBrowser_adds (env : Env) (url : String) (w w1 : World)
    (h : w.adds Event.isNote w1) : w.adds Event.isNote (openBrowser env url w1).2 := by
  unfold openBrowser
  split_ifs
  · exact adds_emit _ _ _ _ h rfl
  · exact adds_emit _ _ _ _ h rfl
  · exact adds_emit _ _ _ _ h rfl
  · exact h

theorem showInstructions_adds (env : Env) (authReq : AuthenticationRequest) (w : World) :
    w.adds Event.isNote (showInstructions env authReq w) := by
  unfold showInstructions
  simp only
  have h5 := adds_emit _ _ _ (Event.stderr "Waiting for authentication (expires at %s)...\n\n"
      [Arg.time authReq.ExpiresAt])
    (adds_emit _ _ _ (Event.stderr "And enter this code: %s\n\n" [Arg.str authReq.UserCode])
      (adds_emit _ _ _ (Event.stderr "  %s\n\n" [Arg.str authReq.VerificationURL])
        (adds_emit _ _ _ (Event.stderr "Please open the following URL in your browser:\n" [])
          (adds_emit _ _ _ (Event.stderr "\n=== Caido Authentication Required ===\n" [])
            (adds_refl Event.isNote w) rfl) rfl) rfl) rfl) rfl
  have hb := openBrowser_adds env authReq.VerificationURL w _ h5
  generalize hw5 : ((((w.emit (Event.stderr "\n=== Caido Authentication Required ===\n" [])).emit
    (Event.stderr "Please open the following URL in your browser:\n" [])).emit
    (Event.stderr "  %s\n\n" [Arg.str authReq.VerificationURL])).emit
    (Event.stderr "And enter this code: %s\n\n" [Arg.str authReq.UserCode])).emit
    (Event.stderr "Waiting for authentication (expires at %s)...\n\n" [Arg.time authReq.ExpiresAt])
    = w5 at hb h5 ⊢
  cases hob : openBrowser env authReq.VerificationURL w5 with
  | mk r wb =>
    rw [hob] at hb
    cases r with
    | none => exact hb
    | some err => exact adds_emit _ _ _ _ hb rfl

/-! ## Lemmas: the device flow as a whole -/

theorem countP_kind (K p : Event → Bool) (h : ∀ e, K e = true → p e = false) (ev : List Event)
    (hev : ∀ e ∈ ev, K e = true) : ev.countP p = 0 := by
  rw [List.countP_eq_zero]
  intro e he
  simp [h e (hev e he)]

theorem not_save_of_kind (K : Event → Bool) (h : ∀ e, K e = true → e.isSave = false)
    (ev : List Event) (hev : ∀ e ∈ ev, K e = true) (tok : StoredToken) :
    Event.save tok ∉ ev := by
  intro hmem
  have := h _ (hev _ hmem)
  simp [Event.isSave] at this

theorem note_kinds (e : Event) (h : e.isNote = true) :
    e.isStartFlow = false ∧ e.isRefresh = false ∧ e.isLoad = false ∧ e.isDial = false ∧
      e.isSave = false := by
  cases e <;> simp [Event.isNote] at h <;> exact ⟨rfl, rfl, rfl, rfl, rfl⟩

theorem wire_kinds (e : Event) (h : e.isWire = true) :
    e.isStartFlow = false ∧ e.isRefresh = false ∧ e.isLoad = false ∧ e.isSave = false := by
  cases e <;> simp [Event.isWire] at h <;> exact ⟨rfl, rfl, rfl, rfl⟩

theorem startAuthFlow_world (env : Env) (w : World) :
    ∃ ev, (startAuthFlow env w).2.trace = w.trace ++ ev ∧
      ev.countP Event.isStartFlow = 1 ∧ ev.countP Event.isRefresh = 0 ∧
      ev.countP Event.isLoad = 0 ∧ ev.countP Event.isDial ≤ 1 ∧
      (∀ tok, Event.save tok ∈ ev → ∃ token, issues env w.inbound token ∧
        tok = ⟨token.AccessToken, token.RefreshToken, token.ExpiresAt⟩) ∧
      (∀ v, (startAuthFlow env w).1 = .ok v → ∃ token, issues env w.inbound token ∧
        v = token.AccessToken) ∧
      (∀ e, (startAuthFlow env w).1 = .error e → ∃ c,
        e = .wrap "failed to start authentication flow: %w" c ∨
        e = .wrap "failed to get authentication token: %w" c ∨
        e = .wrap "failed to save token: %w" c) := by
  unfold startAuthFlow
  simp only
  cases StartAuthenticationFlow env.startFlow with
  | error err =>
    refine ⟨[Event.startFlow], rfl, rfl, rfl, rfl, by simp [Event.isDial], by simp, by simp, ?_⟩
    intro e he
    simp only [Res.error.injEq] at he
    exact ⟨err, Or.inl he.symm⟩
  | ok request =>
    cases request with
    | none =>
      refine ⟨[Event.startFlow, Event.stderr "\n=== Caido Authentication Required ===\n" [],
        Event.stderr "Please open the following URL in your browser:\n" []],
        by simp [emit_trace], rfl, rfl, rfl, by simp [Event.isDial], by simp, by simp, by simp⟩
    | some authReq =>
      simp only
      obtain ⟨-, hin, nev, ntr, nhev⟩ := showInstructions_adds env authReq (w.emit Event.startFlow)
      generalize showInstructions env authReq (w.emit Event.startFlow) = ws at hin ntr ⊢
      obtain ⟨-, wev, wtr, whev, wdial, -⟩ := waitForToken_world env authReq.ID ws
      have htok := waitForToken_token env authReq.ID ws
      rw [hin] at htok
      have hn := fun p (hp : ∀ e, e.isNote = true → p e = false) => countP_kind _ p hp nev nhev
      have hw := fun p (hp : ∀ e, e.isWire = true → p e = false) => countP_kind _ p hp wev whev
      have hns := not_save_of_kind _ (fun e h => (note_kinds e h).2.2.2.2) nev nhev
      have hws := not_save_of_kind _ (fun e h => (wire_kinds e h).2.2.2) wev whev
      have c1 : (Event.startFlow :: nev ++ wev).countP Event.isStartFlow = 1 := by
        simp [List.countP_cons, List.countP_append, hn _ fun e h => (note_kinds e h).1,
          hw _ fun e h => (wire_kinds e h).1, Event.isStartFlow]
      have c2 : (Event.startFlow :: nev ++ wev).countP Event.isRefresh = 0 := by
        simp [List.countP_cons, List.countP_append, hn _ fun e h => (note_kinds e h).2.1,
          hw _ fun e h => (wire_kinds e h).2.1, Event.isRefresh]
      have c3 : (Event.startFlow :: nev ++ wev).countP Event.isLoad = 0 := by
        simp [List.countP_cons, List.countP_append, hn _ fun e h => (note_kinds e h).2.2.1,
          hw _ fun e h => (wire_kinds e h).2.2.1, Event.isLoad]
      have c4 : (Event.startFlow :: nev ++ wev).countP Event.isDial ≤ 1 := by
        simp [List.countP_cons, List.countP_append, hn _ fun e h => (note_kinds e h).2.2.2.1,
          Event.isDial]
        exact wdial
      have c5 : ∀ tok, Event.save tok ∉ Event.startFlow :: nev ++ wev := by
        intro tok hmem
        simp only [List.cons_append, List.mem_cons, List.mem_append] at hmem
        rcases hmem with h | h | h
        · cases h
        · exact hns tok h
        · exact hws tok h
      have htr0 : ws.trace ++ wev = w.trace ++ (Event.startFlow :: nev ++ wev) := by
        rw [ntr, emit_trace]; simp
      cases hwt : waitForToken env authReq.ID ws with
      | mk r w2 =>
        rw [hwt] at wtr htok
        simp only at wtr htok
        rw [htr0] at wtr
        cases r with
        | fault =>
          exact ⟨_, wtr, c1, c2, c3, c4, fun tok h => absurd h (c5 tok), by simp, by simp⟩
        | error err =>
          refine ⟨_, wtr, c1, c2, c3, c4, fun tok h => absurd h (c5 tok), by simp, ?_⟩
          intro e he
          simp only [Res.error.injEq] at he
          exact ⟨err, Or.inr (Or.inl he.symm)⟩
        | ok token =>
          have hiss := htok token rfl
          simp only
          have hsv : ∀ tok, Event.save tok ∈ (Event.startFlow :: nev ++ wev) ++
              [Event.save ⟨token.AccessToken, token.RefreshToken, token.ExpiresAt⟩] →
              ∃ t, issues env w.inbound t ∧ tok = ⟨t.AccessToken, t.RefreshToken, t.ExpiresAt⟩ := by
            intro tok hmem
            rcases List.mem_append.mp hmem with h | h
            · exact absurd h (c5 tok)
            · simp only [List.mem_singleton, Event.save.injEq] at h
              exact ⟨token, hiss, h⟩
          have hsave : Event.isSave (Event.save ⟨token.AccessToken, token.RefreshToken,
              token.ExpiresAt⟩) = true := rfl
          cases hs : saveToken ⟨token.AccessToken, token.RefreshToken, token.ExpiresAt⟩ w2 with
          | mk r2 w3 =>
            have h3 : w3.trace = w2.trace ++
                [Event.save ⟨token.AccessToken, token.RefreshToken, token.ExpiresAt⟩] := by
              have : w3 = (saveToken ⟨token.AccessToken, token.RefreshToken,
                token.ExpiresAt⟩ w2).2 := by rw [hs]
              rw [this]; rfl
            rw [wtr] at h3
            cases r2 with
            | some err =>
              refine ⟨(Event.startFlow :: nev ++ wev) ++
                [Event.save ⟨token.AccessToken, token.RefreshToken, token.ExpiresAt⟩],
                by simp [h3], ?_, ?_, ?_, ?_, hsv, by simp, ?_⟩
              · rw [List.countP_append, c1]; rfl
              · rw [List.countP_append, c2]; rfl
              · rw [List.countP_append, c3]; rfl
              · rw [List.countP_append]; simpa [Event.isDial] using c4
              · intro e he
                simp only [Res.error.injEq] at he
                exact ⟨err, Or.inr (Or.inr he.symm)⟩
            | none =>
              refine ⟨(Event.startFlow :: nev ++ wev) ++
                [Event.save ⟨token.AccessToken, token.RefreshToken, token.ExpiresAt⟩] ++
                [Event.stderr "Authentication successful!\n\n" []], ?_, ?_, ?_, ?_, ?_, ?_, ?_,
                by simp⟩
              · simp only [emit_trace, h3]; simp
              · rw [List.countP_append, List.countP_append, c1]; rfl
              · rw [List.countP_append, List.countP_append, c2]; rfl
              · rw [List.countP_append, List.countP_append, c3]; rfl
              · rw [List.countP_append, List.countP_append]; simpa [Event.isDial] using c4
              · intro tok hmem
                rcases List.mem_append.mp hmem with h | h
                · exact hsv tok h
                · simp at h
              · intro v hv
                simp only [Res.ok.injEq] at hv
                exact ⟨token, hiss, hv.symm⟩

/-! ## The claims -/

/-- C1: when the store holds a credential that is not expired, EnsureAuthenticated
returns its access value with no error, and the run is one Load and nothing else: no
gateway call, no subscription, no Save, the files unchanged. -/
theorem ensureAuthenticated_valid (env : Env) (w : World) (c : StoredToken)
    (hload : Load w.fs = .ok (some c)) (hfresh : IsExpired w.now (some c) = false) :
    EnsureAuthenticated env w =
      (.ok c.AccessToken, { w with trace := w.trace ++ [Event.load] }) := by
  unfold EnsureAuthenticated
  simp only [emit_fs, emit_now, hload, hfresh]
  rfl

theorem ensureAuthenticated_valid_witness :
    Load (sampleWorld (storeWith freshText) []).fs = .ok (some freshToken) ∧
      IsExpired (sampleWorld (storeWith freshText) []).now (some freshToken) = false ∧
      EnsureAuthenticated sampleEnv (sampleWorld (storeWith freshText) []) =
        (.ok "access-0", ⟨storeWith freshText, sampleNow, [], [Event.load]⟩) :=
  ⟨by decide, by decide,
    ensureAuthenticated_valid sampleEnv (sampleWorld (storeWith freshText) []) freshToken
      (by decide) (by decide)⟩

/-- C2: when the stored credential is expired and has a refresh value, the refresh
call succeeds with `n` and Save succeeds, EnsureAuthenticated returns the access value
of `n`, the run is a Load, the refresh call and a Save (the device flow is not started),
and a Load afterwards returns `n` in all three fields. -/
theorem ensureAuthenticated_refreshed (env : Env) (w : World) (c : StoredToken)
    (n : AuthenticationToken) (fs1 : FS)
    (hload : Load w.fs = .ok (some c)) (hexp : IsExpired w.now (some c) = true)
    (hrt : c.RefreshToken ≠ "") (hgw : env.refresh c.RefreshToken = .resp (some n) none)
    (hsave : Save w.fs ⟨n.AccessToken, n.RefreshToken, n.ExpiresAt⟩ = (none, fs1)) :
    EnsureAuthenticated env w =
        (.ok n.AccessToken, { w with fs := fs1, trace := w.trace ++
          [Event.load, Event.refresh c.RefreshToken,
            Event.save ⟨n.AccessToken, n.RefreshToken, n.ExpiresAt⟩] }) ∧
      Load fs1 = .ok (some ⟨n.AccessToken, n.RefreshToken, n.ExpiresAt⟩) := by
  refine ⟨?_, (Load_Save _ _ _ hsave).1⟩
  unfold EnsureAuthenticated
  simp only [emit_fs, emit_now, hload, hexp, not_true_eq_false, if_false]
  rw [if_pos hrt]
  simp only [refreshToken, RefreshToken, hgw, saveToken, emit_fs, hsave]
  simp [World.emit]

set_option maxRecDepth 100000 in
theorem ensureAuthenticated_refreshed_witness :
    Load (sampleWorld (storeWith staleText) []).fs = .ok (some staleToken) ∧
      IsExpired sampleNow (some staleToken) = true ∧
      (EnsureAuthenticated sampleEnv (sampleWorld (storeWith staleText) [])).1 = .ok "access-1" ∧
      Load (Save (storeWith staleText) ⟨"access-1", "refresh-1", 63852796800000000000⟩).2 =
        .ok (some ⟨"access-1", "refresh-1", 63852796800000000000⟩) :=
  have h := ensureAuthenticated_refreshed sampleEnv (sampleWorld (storeWith staleText) [])
    staleToken renewedToken (Save (storeWith staleText) ⟨"access-1", "refresh-1",
      63852796800000000000⟩).2 (by decide) (by decide) (by decide) rfl (by decide)
  ⟨by decide, by decide, by rw [h.1]; rfl, h.2⟩

theorem refreshToken_error_shape (reply : Reply AuthenticationToken) (err : Error)
    (h : RefreshToken reply = .error err) :
    (∃ c, err = .wrap "failed to refresh token: %w" c) ∨ ∃ s, err = .leaf s := by
  unfold RefreshToken at h
  split at h
  · exact Or.inl ⟨_, (Except.error.inj h).symm⟩
  · exact Or.inr ⟨_, (Except.error.inj h).symm⟩
  · exact absurd h (by simp)

/-- C3: when the stored credential is expired and has a refresh value and the refresh
call fails, whatever the error, EnsureAuthenticated goes on to the device flow: its
result is the result of startAuthFlow, it is not the refresh error, and
startDeviceFlow is called exactly once. -/
theorem ensureAuthenticated_refresh_failed (env : Env) (w : World) (c : StoredToken)
    (err : Error)
    (hload : Load w.fs = .ok (some c)) (hexp : IsExpired w.now (some c) = true)
    (hrt : c.RefreshToken ≠ "")
    (hgw : RefreshToken (env.refresh c.RefreshToken) = .error err) :
    EnsureAuthenticated env w =
        startAuthFlow env (((w.emit Event.load).emit (Event.refresh c.RefreshToken)).emit
          (Event.stderr "Token refresh failed: %v. Starting new authentication flow...\n"
            [Arg.err err])) ∧
      (EnsureAuthenticated env w).1 ≠ .error err ∧
      (EnsureAuthenticated env w).2.trace.countP Event.isStartFlow =
        w.trace.countP Event.isStartFlow + 1 := by
  have h1 : EnsureAuthenticated env w =
      startAuthFlow env (((w.emit Event.load).emit (Event.refresh c.RefreshToken)).emit
        (Event.stderr "Token refresh failed: %v. Starting new authentication flow...\n"
          [Arg.err err])) := by
    unfold EnsureAuthenticated
    simp only [emit_fs, emit_now, hload, hexp, not_true_eq_false, if_false]
    rw [if_pos hrt]
    simp only [refreshToken, hgw]
  refine ⟨h1, ?_, ?_⟩
  · rw [h1]
    obtain ⟨ev, -, -, -, -, -, -, -, herr⟩ := startAuthFlow_world env
      (((w.emit Event.load).emit (Event.refresh c.RefreshToken)).emit
        (Event.stderr "Token refresh failed: %v. Starting new authentication flow...\n"
          [Arg.err err]))
    intro hres
    obtain ⟨c1, hc1⟩ := herr err hres
    rcases refreshToken_error_shape _ _ hgw with ⟨c2, hc2⟩ | ⟨s, hs⟩
    · rw [hc2] at hc1
      rcases hc1 with h | h | h <;> simp at h
    · rw [hs] at hc1
      rcases hc1 with h | h | h <;> simp at h
  · rw [h1]
    obtain ⟨ev, htr, hcount, -⟩ := startAuthFlow_world env
      (((w.emit Event.load).emit (Event.refresh c.RefreshToken)).emit
        (Event.stderr "Token refresh failed: %v. Starting new authentication flow...\n"
          [Arg.err err]))
    rw [htr]
    simp [emit_trace, List.countP_append, hcount, Event.isStartFlow]

set_option maxRecDepth 100000 in
theorem ensureAuthenticated_refresh_failed_witness :
    RefreshToken (rejectingEnv.refresh staleToken.RefreshToken) =
        .error (.leaf "refresh error: InvalidTokenUserError") ∧
      (EnsureAuthenticated rejectingEnv
        (sampleWorld (storeWith staleText) [ackFrame, tokenFrame])).1 ≠
          .error (.leaf "refresh error: InvalidTokenUserError") ∧
      (EnsureAuthenticated rejectingEnv
        (sampleWorld (storeWith staleText) [ackFrame, tokenFrame])).2.trace.countP
          Event.isStartFlow = 1 :=
  have h := ensureAuthenticated_refresh_failed rejectingEnv
    (sampleWorld (storeWith staleText) [ackFrame, tokenFrame]) staleToken
    (.leaf "refresh error: InvalidTokenUserError") (by decide) (by decide) (by decide) (by decide)
  ⟨by decide, h.2.1, h.2.2⟩

theorem refreshToken_ok_reply (reply : Reply AuthenticationToken) (n : AuthenticationToken)
    (h : RefreshToken reply = .ok (some n)) : reply = .resp (some n) none := by
  unfold RefreshToken at h
  split at h
  · exact absurd h (by simp)
  · exact absurd h (by simp)
  · rw [Except.ok.inj h]

theorem startAuthFlow_access (env : Env) (w0 w : World) (hinb : w0.inbound = w.inbound)
    (hissued : ∀ token, issues env w.inbound token → token.AccessToken ≠ "")
    (hprev : ∀ tok, Event.save tok ∈ w0.trace → Event.save tok ∈ w.trace ∨ tok.AccessToken ≠ "") :
    (∀ v, (startAuthFlow env w0).1 = .ok v → v ≠ "") ∧
      ∀ tok, Event.save tok ∈ (startAuthFlow env w0).2.trace →
        Event.save tok ∈ w.trace ∨ tok.AccessToken ≠ "" := by
  obtain ⟨ev, htr, -, -, -, -, hsave, hok, -⟩ := startAuthFlow_world env w0
  rw [hinb] at hsave hok
  constructor
  · intro v hv
    obtain ⟨token, hi, rfl⟩ := hok v hv
    exact hissued token hi
  · intro tok hmem
    rw [htr] at hmem
    rcases List.mem_append.mp hmem with h | h
    · exact hprev tok h
    · obtain ⟨token, hi, rfl⟩ := hsave tok h
      exact Or.inr (hissued token hi)

set_option maxRecDepth 100000 in
/-- C5, as stated, fails: a stored record that is not expired and has no access token
is returned as the empty access value with no error, and an issued token without an
`accessToken` field is returned and persisted with the empty access value. -/
theorem empty_access_value_counterexample :
    (Load (storeWith blankText) = .ok (some ⟨"", "refresh-0", 94607740800000000000⟩) ∧
      (EnsureAuthenticated sampleEnv (sampleWorld (storeWith blankText) [])).1 = .ok "") ∧
    ((EnsureAuthenticated sampleEnv (sampleWorld emptyStore [ackFrame, blankFrame])).1 = .ok "" ∧
      Load (EnsureAuthenticated sampleEnv (sampleWorld emptyStore [ackFrame, blankFrame])).2.fs =
        .ok (some ⟨"", "refresh-1", 63852796800000000000⟩)) := by
  decide

theorem saves_emit (w w1 : World) (e : Event)
    (h : ∀ tok, Event.save tok ∈ w1.trace → Event.save tok ∈ w.trace ∨ tok.AccessToken ≠ "")
    (he : ∀ tok, e = Event.save tok → tok.AccessToken ≠ "") :
    ∀ tok, Event.save tok ∈ (w1.emit e).trace →
      Event.save tok ∈ w.trace ∨ tok.AccessToken ≠ "" := by
  intro tok hmem
  rw [emit_trace] at hmem
  rcases List.mem_append.mp hmem with h1 | h1
  · exact h tok h1
  · simp only [List.mem_singleton] at h1
    exact Or.inr (he tok h1.symm)

/-- C5, amended: EnsureAuthenticated checks no access value for emptiness and passes
on what it is given.  When the stored record, if it is not expired, every token a
refresh call can return and every token a subscription message can issue carry a
non-empty access token, it never returns an empty access value with no error and
never calls Save with an empty access value. -/
theorem ensureAuthenticated_access_value (env : Env) (w : World)
    (hstored : ∀ c, Load w.fs = .ok (some c) → IsExpired w.now (some c) = false →
      c.AccessToken ≠ "")
    (hrefresh : ∀ rt n, env.refresh rt = .resp (some n) none → n.AccessToken ≠ "")
    (hissued : ∀ token, issues env w.inbound token → token.AccessToken ≠ "") :
    (∀ v, (EnsureAuthenticated env w).1 = .ok v → v ≠ "") ∧
      ∀ tok, Event.save tok ∈ (EnsureAuthenticated env w).2.trace →
        Event.save tok ∈ w.trace ∨ tok.AccessToken ≠ "" := by
  have h0 : ∀ tok, Event.save tok ∈ w.trace → Event.save tok ∈ w.trace ∨ tok.AccessToken ≠ "" :=
    fun _ h => Or.inl h
  have hload := saves_emit w w Event.load h0 (fun _ h => by cases h)
  unfold EnsureAuthenticated
  simp only [emit_fs, emit_now]
  cases hl : Load w.fs with
  | error err => exact ⟨by simp, hload⟩
  | ok stored =>
    cases stored with
    | none => exact startAuthFlow_access env (w.emit Event.load) w rfl hissued hload
    | some c =>
      by_cases hexp : IsExpired w.now (some c) = true
      · simp only [hexp, not_true_eq_false, if_false]
        by_cases hrt : c.RefreshToken ≠ ""
        · rw [if_pos hrt]
          have hrefr := saves_emit w _ (Event.refresh c.RefreshToken) hload (fun _ h => by cases h)
          unfold refreshToken
          simp only
          cases hr : RefreshToken (env.refresh c.RefreshToken) with
          | error err =>
            exact startAuthFlow_access env _ w rfl hissued
              (saves_emit w _ _ hrefr (fun _ h => by cases h))
          | ok reply =>
            cases reply with
            | none => exact ⟨by simp, hrefr⟩
            | some n =>
              have hn := hrefresh _ n (refreshToken_ok_reply _ n hr)
              have hsv := saves_emit w _
                (Event.save ⟨n.AccessToken, n.RefreshToken, n.ExpiresAt⟩) hrefr
                (fun tok h => by
                  simp only [Event.save.injEq] at h
                  rw [← h]
                  exact hn)
              simp only [saveToken, emit_fs]
              cases hs : Save w.fs ⟨n.AccessToken, n.RefreshToken, n.ExpiresAt⟩ with
              | mk r fs1 =>
                cases r with
                | none =>
                  refine ⟨?_, hsv⟩
                  intro v hv
                  simp only [Res.ok.injEq] at hv
                  rw [← hv]
                  exact hn
                | some err =>
                  exact startAuthFlow_access env _ w rfl hissued
                    (saves_emit w ⟨fs1, w.now, w.inbound, _⟩ _ hsv (fun _ h => by cases h))
        · rw [if_neg hrt]
          exact startAuthFlow_access env (w.emit Event.load) w rfl hissued hload
      · simp only [hexp, not_false_eq_true, if_true]
        refine ⟨?_, hload⟩
        intro v hv
        rw [← Res.ok.inj hv]
        exact hstored c hl (by simpa using hexp)

set_option maxRecDepth 100000 in
theorem ensureAuthenticated_access_value_witness :
    (EnsureAuthenticated sampleEnv (sampleWorld (storeWith staleText) [])).1 = .ok "access-1" ∧
      ((∀ v, (EnsureAuthenticated sampleEnv (sampleWorld (storeWith staleText) [])).1 = .ok v →
        v ≠ "") ∧
      ∀ tok, Event.save tok ∈
        (EnsureAuthenticated sampleEnv (sampleWorld (storeWith staleText) [])).2.trace →
        Event.save tok ∈ (sampleWorld (storeWith staleText) []).trace ∨ tok.AccessToken ≠ "") :=
  ⟨by decide,
    ensureAuthenticated_access_value sampleEnv (sampleWorld (storeWith staleText) [])
      (fun c h1 h2 => by
        have hl : Load (sampleWorld (storeWith staleText) []).fs = .ok (some staleToken) := by
          decide
        rw [hl] at h1
        simp only [Except.ok.injEq, Option.some.injEq] at h1
        subst h1
        exact absurd h2 (by decide))
      (fun rt n h => by
        have hn : n = renewedToken := by
          simp only [sampleEnv, Reply.resp.injEq, Option.some.injEq, and_true] at h
          exact h.symm
        subst hn
        decide)
      (fun token h => by
        obtain ⟨m, hm, -⟩ := h
        simp [sampleWorld] at hm)⟩

/-- C6, as stated, fails at the boundary: a credential whose expiry is exactly five
minutes after the current time is not expired. -/
theorem isExpired_boundary_counterexample :
    (⟨"access-0", "refresh-0", sampleNow + 5 * Minute⟩ : StoredToken).ExpiresAt ≤
        sampleNow + 5 * Minute ∧
      IsExpired sampleNow (some ⟨"access-0", "refresh-0", sampleNow + 5 * Minute⟩) = false := by
  decide

/-- C6, amended: a credential whose expiry is strictly earlier than the current time
plus five minutes is expired; one whose expiry is exactly the current time plus five
minutes is not. -/
theorem isExpired_before_margin (now : Time) (c : StoredToken) :
    (c.ExpiresAt < now + 5 * Minute → IsExpired now (some c) = true) ∧
      (c.ExpiresAt = now + 5 * Minute → IsExpired now (some c) = false) := by
  constructor
  · intro h
    simp [IsExpired, h]
  · intro h
    simp [IsExpired, h]

theorem isExpired_before_margin_witness :
    IsExpired sampleNow (some staleToken) = true ∧
      IsExpired sampleNow (some ⟨"access-0", "refresh-0", sampleNow + 5 * Minute⟩) = false :=
  ⟨(isExpired_before_margin sampleNow staleToken).1 (by decide),
    (isExpired_before_margin sampleNow ⟨"access-0", "refresh-0", sampleNow + 5 * Minute⟩).2 rfl⟩

/-- C7: a credential whose expiry is strictly later than the current time plus five
minutes is not expired. -/
theorem isExpired_after_margin (now : Time) (c : StoredToken)
    (h : now + 5 * Minute < c.ExpiresAt) : IsExpired now (some c) = false := by
  simp only [IsExpired, decide_eq_false_iff_not, not_lt]
  exact le_of_lt h

theorem isExpired_after_margin_witness :
    sampleNow + 5 * Minute < freshToken.ExpiresAt ∧ IsExpired sampleNow (some freshToken) = false :=
  ⟨by decide, isExpired_after_margin sampleNow freshToken (by decide)⟩

/-- C8: whatever the store held before, after a successful Save of a credential
(with an empty access token or not) Load returns that credential, equal in access
token, refresh token and expiry; the record is exactly the text written for it. -/
theorem save_load_roundtrip (fs fs1 : FS) (c : StoredToken)
    (hsave : Save fs c = (none, fs1)) :
    Load fs1 = .ok (some c) ∧
      ∃ mode data, MarshalIndent c = .ok data ∧ fs1.record = .present mode (String.mk data) :=
  Load_Save fs fs1 c hsave

set_option maxRecDepth 100000 in
theorem save_load_roundtrip_witness :
    freshToken.AccessToken ≠ "" ∧
      (Save (storeWith staleText) freshToken).1 = none ∧
      Load (Save (storeWith staleText) freshToken).2 = .ok (some freshToken) :=
  ⟨by decide, by decide,
    (save_load_roundtrip (storeWith staleText) (Save (storeWith staleText) freshToken).2
      freshToken (by decide)).1⟩

/-- C9: when no record file exists, Load returns no credential and no error; so it
does after a Delete that meets no failure. -/
theorem load_absent (fs : FS) :
    (fs.record = .absent → Load fs = .ok none) ∧
      (fs.removeFault = none → Load (Delete fs).2 = .ok none) := by
  have habs : ∀ g : FS, g.record = .absent → Load g = .ok none := by
    intro g h
    simp [Load, ReadFile, h, IsNotExist]
  refine ⟨habs fs, ?_⟩
  intro hrf
  apply habs
  unfold Delete
  cases hd : fs.dir with
  | none => simp [FS.record, hd]
  | some d =>
    simp only
    cases hr : d.record with
    | absent => simp [FS.record, hd, hr]
    | present mode data => simp [FS.record, hrf]
    | faulty mode err => simp [FS.record, hrf]

theorem load_absent_witness :
    Load emptyStore = .ok none ∧ Load (Delete (storeWith freshText)).2 = .ok none :=
  ⟨(load_absent emptyStore).1 rfl, (load_absent (storeWith freshText)).2 rfl⟩

/-- C10, as stated, fails: a record file that is read successfully and does not hold a
JSON document makes Load fail. -/
theorem load_undecodable_counterexample :
    (storeWith "\x7b").record = .present 0o600 "\x7b" ∧
      Load (storeWith "\x7b") = .error (.wrap "failed to unmarshal token: %w"
        (.leaf "invalid character or unexpected end of JSON input")) := by
  decide

/-- C10, amended: when the record file is present and read successfully, Load returns
without error exactly when its bytes decode as the record (json.Unmarshal accepts
them); on other bytes it fails with the decoding error wrapped. -/
theorem load_present (fs : FS) (mode : Nat) (data : String)
    (h : fs.record = .present mode data) :
    (∀ token, Unmarshal data.data = .ok token → Load fs = .ok (some token)) ∧
      (∀ err, Unmarshal data.data = .error err →
        Load fs = .error (.wrap "failed to unmarshal token: %w" err)) := by
  constructor
  · intro token hu
    simp [Load, ReadFile, h, hu]
  · intro err hu
    simp [Load, ReadFile, h, hu]

theorem load_present_witness :
    Load (storeWith freshText) = .ok (some freshToken) ∧
      Load (storeWith "[]") = .error (.wrap "failed to unmarshal token: %w"
        (.leaf "json: cannot unmarshal into Go value of type auth.StoredToken")) :=
  ⟨(load_present (storeWith freshText) 0o600 freshText rfl).1 freshToken (by decide),
    (load_present (storeWith "[]") 0o600 "[]" rfl).2 _ (by decide)⟩

/-! ## Lemmas: permission bits -/

theorem and_xor_disjoint (p u q : Nat) (h : p &&& q = 0) : (p ^^^ (p &&& u)) &&& q = 0 := by
  apply Nat.eq_of_testBit_eq
  intro i
  have hi : (p &&& q).testBit i = false := by rw [h]; simp
  simp only [Nat.testBit_and, Nat.testBit_xor, Nat.zero_testBit] at hi ⊢
  cases hp : p.testBit i <;> cases hq : q.testBit i <;> cases hu : u.testBit i <;> simp_all

theorem and_of_and_sub (p r u : Nat) (hpr : p &&& r = p) (h : u &&& r = 0) : p &&& u = 0 := by
  apply Nat.eq_of_testBit_eq
  intro i
  have h1 : (p &&& r).testBit i = p.testBit i := by rw [hpr]
  have h2 : (u &&& r).testBit i = false := by rw [h]; simp
  simp only [Nat.testBit_and, Nat.zero_testBit] at h1 h2 ⊢
  cases hp : p.testBit i <;> cases hq : r.testBit i <;> cases hu : u.testBit i <;> simp_all

theorem applyUmask_private (perm umask : Nat) (h : perm &&& 0o077 = 0) :
    applyUmask perm umask &&& 0o077 = 0 :=
  and_xor_disjoint perm umask 0o077 h

theorem applyUmask_owner (perm umask : Nat) (hp : perm &&& 0o700 = perm)
    (h : umask &&& 0o700 = 0) : applyUmask perm umask = perm := by
  unfold applyUmask
  rw [and_of_and_sub perm 0o700 umask hp h]
  simp

theorem Save_modes (fs fs1 : FS) (c : StoredToken) (hsave : Save fs c = (none, fs1)) :
    fs1.dirMode = some (fs.dirMode.getD (applyUmask dirPermission fs.umask)) ∧
      fs1.fileMode = some (fs.fileMode.getD (applyUmask filePermission fs.umask)) := by
  unfold Save ensureConfigDir MkdirAll at hsave
  cases hd : fs.dir with
  | none =>
    rw [hd] at hsave
    simp only at hsave
    cases hm : fs.mkdirFault with
    | some e => rw [hm] at hsave; simp at hsave
    | none =>
      rw [hm] at hsave
      simp only at hsave
      cases hj : MarshalIndent c with
      | error e => rw [hj] at hsave; simp at hsave
      | ok data =>
        rw [hj] at hsave
        simp only [WriteFile] at hsave
        cases hw : fs.writeFault with
        | some f =>
          rw [hw] at hsave
          obtain ⟨e, wr⟩ := f
          cases wr <;> simp at hsave
        | none =>
          rw [hw] at hsave
          simp only [Prod.mk.injEq, true_and] at hsave
          subst hsave
          simp [FS.dirMode, FS.fileMode, FS.record, hd, modeAfterWrite]
  | some d =>
    rw [hd] at hsave
    simp only at hsave
    cases hj : MarshalIndent c with
    | error e => rw [hj] at hsave; simp at hsave
    | ok data =>
      rw [hj] at hsave
      simp only [WriteFile, hd] at hsave
      cases hw : fs.writeFault with
      | some f =>
        rw [hw] at hsave
        obtain ⟨e, wr⟩ := f
        cases wr <;> simp at hsave
      | none =>
        rw [hw] at hsave
        simp only [Prod.mk.injEq, true_and] at hsave
        subst hsave
        cases hr : d.record <;>
          simp [FS.dirMode, FS.fileMode, FS.record, hd, modeAfterWrite, hr]

set_option maxRecDepth 100000 in
/-- C11, as stated, fails: a Save into a directory with mode 0755 that holds a record
with mode 0644 succeeds and leaves both modes as they were. -/
theorem save_keeps_modes_counterexample :
    (looseStore.dirMode = some 0o755 ∧ looseStore.fileMode = some 0o644) ∧
      (Save looseStore freshToken).1 = none ∧
      (Save looseStore freshToken).2.dirMode = some 0o755 ∧
      (Save looseStore freshToken).2.fileMode = some 0o644 := by
  decide

/-- C11, amended: after a successful Save a directory that was there keeps its
permission bits and so does a record that was there; a directory that was absent is
created with 0700 and a record that was absent with 0600, less the bits of the umask:
neither has a bit for group or others, and they are exactly 0700 and 0600 when the
umask masks no owner bit. -/
theorem save_permissions (fs fs1 : FS) (c : StoredToken) (hsave : Save fs c = (none, fs1)) :
    fs1.dirMode = some (fs.dirMode.getD (applyUmask dirPermission fs.umask)) ∧
      fs1.fileMode = some (fs.fileMode.getD (applyUmask filePermission fs.umask)) ∧
      applyUmask dirPermission fs.umask &&& 0o077 = 0 ∧
      applyUmask filePermission fs.umask &&& 0o077 = 0 ∧
      (fs.umask &&& 0o700 = 0 → applyUmask dirPermission fs.umask = 0o700 ∧
        applyUmask filePermission fs.umask = 0o600) :=
  ⟨(Save_modes fs fs1 c hsave).1, (Save_modes fs fs1 c hsave).2,
    applyUmask_private _ _ (by decide), applyUmask_private _ _ (by decide),
    fun h => ⟨applyUmask_owner _ _ (by decide) h, applyUmask_owner _ _ (by decide) h⟩⟩

set_option maxRecDepth 100000 in
theorem save_permissions_witness :
    (Save emptyStore freshToken).1 = none ∧
      (Save emptyStore freshToken).2.dirMode = some 0o700 ∧
      (Save emptyStore freshToken).2.fileMode = some 0o600 ∧
      (Save looseStore freshToken).2.fileMode = some 0o644 :=
  have h := save_permissions emptyStore (Save emptyStore freshToken).2 freshToken (by decide)
  have h2 := save_permissions looseStore (Save looseStore freshToken).2 freshToken (by decide)
  ⟨by decide, h.1.trans (by decide), h.2.1.trans (by decide), h2.2.1.trans (by decide)⟩

/-! ## Lemmas: how a run reaches the device flow -/

theorem flowEntry_run (env : Env) (w w0 : World) (h : flowEntry env w = some w0) :
    EnsureAuthenticated env w = startAuthFlow env w0 := by
  unfold flowEntry at h
  unfold EnsureAuthenticated
  simp only at h ⊢
  cases hl : Load (w.emit Event.load).fs with
  | error err => rw [hl] at h; simp at h
  | ok stored =>
    rw [hl] at h
    cases stored with
    | none =>
      simp only [Option.some.injEq] at h
      rw [← h]
    | some c =>
      simp only at h ⊢
      by_cases hexp : IsExpired (w.emit Event.load).now (some c) = true
      · simp only [hexp, not_true_eq_false, if_false] at h ⊢
        by_cases hrt : c.RefreshToken ≠ ""
        · rw [if_pos hrt] at h ⊢
          cases hr : refreshToken env c.RefreshToken (w.emit Event.load) with
          | mk r w1 =>
            rw [hr] at h
            cases r with
            | ok v => simp at h
            | fault => simp at h
            | error err =>
              simp only [Option.some.injEq] at h
              rw [← h]
        · rw [if_neg hrt] at h ⊢
          simp only [Option.some.injEq] at h
          rw [← h]
      · simp only [hexp, not_false_eq_true, if_true] at h
        simp at h

/-- The three ways into the device flow: nothing usable is stored, the refresh call
fails, or the refreshed token cannot be saved. -/
theorem flowEntry_world (env : Env) (w w0 : World) (h : flowEntry env w = some w0) :
    w0 = w.emit Event.load ∨
    (∃ c err, Load w.fs = .ok (some c) ∧
      RefreshToken (env.refresh c.RefreshToken) = .error err ∧
      w0 = ((w.emit Event.load).emit (Event.refresh c.RefreshToken)).emit
        (Event.stderr "Token refresh failed: %v. Starting new authentication flow...\n"
          [Arg.err err])) ∨
    (∃ c n e, Load w.fs = .ok (some c) ∧
      RefreshToken (env.refresh c.RefreshToken) = .ok (some n) ∧
      (Save w.fs ⟨n.AccessToken, n.RefreshToken, n.ExpiresAt⟩).1 = some e ∧
      w0 = { w with
        fs := (Save w.fs ⟨n.AccessToken, n.RefreshToken, n.ExpiresAt⟩).2,
        trace := w.trace ++ [Event.load, Event.refresh c.RefreshToken,
          Event.save ⟨n.AccessToken, n.RefreshToken, n.ExpiresAt⟩,
          Event.stderr "Token refresh failed: %v. Starting new authentication flow...\n"
            [Arg.err (.wrap "failed to save refreshed token: %w" e)]] }) := by
  unfold flowEntry at h
  simp only [emit_fs, emit_now] at h
  cases hl : Load w.fs with
  | error err => rw [hl] at h; simp at h
  | ok stored =>
    rw [hl] at h
    cases stored with
    | none =>
      simp only [Option.some.injEq] at h
      exact Or.inl h.symm
    | some c =>
      simp only at h
      by_cases hexp : IsExpired w.now (some c) = true
      · simp only [hexp, not_true_eq_false, if_false] at h
        by_cases hrt : c.RefreshToken ≠ ""
        · rw [if_pos hrt] at h
          unfold refreshToken at h
          simp only at h
          cases hr : RefreshToken (env.refresh c.RefreshToken) with
          | error err =>
            rw [hr] at h
            simp only [Option.some.injEq] at h
            exact Or.inr (Or.inl ⟨c, err, rfl, hr, h.symm⟩)
          | ok reply =>
            rw [hr] at h
            cases reply with
            | none => simp at h
            | some n =>
              simp only [saveToken, emit_fs] at h
              cases hs : Save w.fs ⟨n.AccessToken, n.RefreshToken, n.ExpiresAt⟩ with
              | mk r fs1 =>
                rw [hs] at h
                cases r with
                | none => simp at h
                | some e =>
                  simp only [Option.some.injEq] at h
                  refine Or.inr (Or.inr ⟨c, n, e, rfl, hr, by rw [hs], ?_⟩)
                  rw [← h, hs]
                  simp [World.emit]
        · rw [if_neg hrt] at h
          simp only [Option.some.injEq] at h
          exact Or.inl h.symm
      · simp only [hexp, not_false_eq_true, if_true] at h
        simp at h

/-- Up to the device flow a run opens no connection and starts no flow, and a Save it
has attempted has failed. -/
theorem flowEntry_trace (env : Env) (w w0 : World) (h : flowEntry env w = some w0) :
    w0.inbound = w.inbound ∧ w0.now = w.now ∧
      ∃ ev, w0.trace = w.trace ++ ev ∧ ev.countP Event.isDial = 0 ∧
        ev.countP Event.isStartFlow = 0 ∧
        ∀ tok, Event.save tok ∈ ev → (Save w.fs tok).1 ≠ none := by
  rcases flowEntry_world env w w0 h with h1 | ⟨c, err, -, -, h1⟩ | ⟨c, n, e, -, -, hs, h1⟩
  · subst h1
    exact ⟨rfl, rfl, [Event.load], rfl, rfl, rfl, by simp⟩
  · subst h1
    refine ⟨rfl, rfl, [Event.load, Event.refresh c.RefreshToken,
      Event.stderr "Token refresh failed: %v. Starting new authentication flow...\n"
        [Arg.err err]], ?_, rfl, rfl, by simp⟩
    simp [emit_trace]
  · subst h1
    refine ⟨rfl, rfl, _, rfl, rfl, rfl, ?_⟩
    intro tok htok
    simp only [List.mem_cons, Event.save.injEq, List.mem_singleton, List.not_mem_nil,
      or_false, false_or, reduceCtorEq] at htok
    rw [htok, hs]
    simp

/-- When no refresh has returned a token, the run reaches the device flow with the
files as they were and without a Save. -/
theorem flowEntry_untouched (env : Env) (w w0 : World) (h : flowEntry env w = some w0)
    (hno : ∀ c n, Load w.fs = .ok (some c) →
      RefreshToken (env.refresh c.RefreshToken) ≠ .ok (some n)) :
    w0.fs = w.fs ∧ w0.trace.countP Event.isSave = w.trace.countP Event.isSave := by
  rcases flowEntry_world env w w0 h with h1 | ⟨c, err, -, -, h1⟩ | ⟨c, n, e, hl, hr, -, -⟩
  · subst h1
    simp [emit_fs, emit_trace, List.countP_append, Event.isSave]
  · subst h1
    simp [emit_fs, emit_trace, List.countP_append, Event.isSave]
  · exact absurd hr (hno c n hl)

/-- A device flow whose wait fails returns the failure wrapped and saves nothing. -/
theorem startAuthFlow_wait_failed (env : Env) (w : World) (authReq : AuthenticationRequest)
    (err : Error) (hstart : StartAuthenticationFlow env.startFlow = .ok (some authReq))
    (hwait : (waitForToken env authReq.ID
      (showInstructions env authReq (w.emit Event.startFlow))).1 = .error err) :
    (startAuthFlow env w).1 = .error (.wrap "failed to get authentication token: %w" err) ∧
      (startAuthFlow env w).2.fs = w.fs ∧
      ∃ ev, (startAuthFlow env w).2.trace = w.trace ++ ev ∧ ev.countP Event.isSave = 0 := by
  obtain ⟨hnfs, -, nev, ntr, nhev⟩ := showInstructions_adds env authReq (w.emit Event.startFlow)
  obtain ⟨wfs, wev, wtr, whev, -, -⟩ := waitForToken_world env authReq.ID
    (showInstructions env authReq (w.emit Event.startFlow))
  unfold startAuthFlow
  simp only [hstart]
  cases hwt : waitForToken env authReq.ID
      (showInstructions env authReq (w.emit Event.startFlow)) with
  | mk r w2 =>
    rw [hwt] at hwait wfs wtr
    simp only at hwait wfs wtr
    subst hwait
    refine ⟨rfl, by rw [wfs, hnfs]; rfl, Event.startFlow :: nev ++ wev, ?_, ?_⟩
    · simp only
      rw [wtr, ntr, emit_trace]
      simp
    · have h1 := countP_kind _ Event.isSave (fun e h => (note_kinds e h).2.2.2.2) nev nhev
      have h2 := countP_kind _ Event.isSave (fun e h => (wire_kinds e h).2.2.2) wev whev
      simp [List.countP_cons, List.countP_append, h1, h2, Event.isSave]

set_option maxRecDepth 100000 in
/-- C12, as stated, fails: with an expired credential, a refresh that returns a token
and a disk too full to write it, the Save of the refreshed token fails after truncating
the record, the run falls back to the device flow, and the channel completes without a
token: the call has performed a Save and the store is not as it was. -/
theorem wait_failed_after_save_counterexample :
    (EnsureAuthenticated sampleEnv (sampleWorld fullDiskStore [ackFrame, completeFrame])).1 =
        .error (.wrap "failed to get authentication token: %w"
          (.leaf "subscription completed without token")) ∧
      (EnsureAuthenticated sampleEnv
        (sampleWorld fullDiskStore [ackFrame, completeFrame])).2.trace.countP Event.isSave = 1 ∧
      fullDiskStore.record = .present 0o600 staleText ∧
      (EnsureAuthenticated sampleEnv
        (sampleWorld fullDiskStore [ackFrame, completeFrame])).2.fs.record = .present 0o600 "" := by
  decide

/-- C12, amended: in every run of EnsureAuthenticated that reaches the device flow
and in which waitForToken fails, the call returns that error wrapped as the cause of
"failed to get authentication token", and from the start of the device flow on no Save
is performed and the files stay as they were.  They are as they were before the call,
and the call has performed no Save at all, unless a refresh before the device flow had
returned a token (whose Save then failed). -/
theorem ensureAuthenticated_wait_failed (env : Env) (w w0 : World)
    (authReq : AuthenticationRequest) (err : Error)
    (hflow : flowEntry env w = some w0)
    (hstart : StartAuthenticationFlow env.startFlow = .ok (some authReq))
    (hwait : (waitForToken env authReq.ID
      (showInstructions env authReq (w0.emit Event.startFlow))).1 = .error err) :
    (EnsureAuthenticated env w).1 =
        .error (.wrap "failed to get authentication token: %w" err) ∧
      (EnsureAuthenticated env w).2.fs = w0.fs ∧
      (∃ ev, (EnsureAuthenticated env w).2.trace = w0.trace ++ ev ∧
        ev.countP Event.isSave = 0) ∧
      ((∀ c n, Load w.fs = .ok (some c) →
          RefreshToken (env.refresh c.RefreshToken) ≠ .ok (some n)) →
        (EnsureAuthenticated env w).2.fs = w.fs ∧
        (EnsureAuthenticated env w).2.trace.countP Event.isSave =
          w.trace.countP Event.isSave) := by
  rw [flowEntry_run env w w0 hflow]
  obtain ⟨h1, h2, ev, h3, h4⟩ := startAuthFlow_wait_failed env w0 authReq err hstart hwait
  refine ⟨h1, h2, ⟨ev, h3, h4⟩, ?_⟩
  intro hno
  obtain ⟨h5, h6⟩ := flowEntry_untouched env w w0 hflow hno
  refine ⟨h2.trans h5, ?_⟩
  rw [h3, List.countP_append, h4, h6]
  rfl

set_option maxRecDepth 100000 in
theorem ensureAuthenticated_wait_failed_witness :
    (EnsureAuthenticated sampleEnv (sampleWorld emptyStore [ackFrame, completeFrame])).1 =
        .error (.wrap "failed to get authentication token: %w"
          (.leaf "subscription completed without token")) ∧
      (EnsureAuthenticated sampleEnv (sampleWorld emptyStore [ackFrame, completeFrame])).2.fs =
        emptyStore ∧
      (EnsureAuthenticated sampleEnv
        (sampleWorld emptyStore [ackFrame, completeFrame])).2.trace.countP Event.isSave = 0 :=
  have h := ensureAuthenticated_wait_failed sampleEnv
    (sampleWorld emptyStore [ackFrame, completeFrame])
    ((sampleWorld emptyStore [ackFrame, completeFrame]).emit Event.load) sampleRequest
    (.leaf "subscription completed without token") rfl rfl (by decide)
  have hno := h.2.2.2 (fun c n hl => by
    have h0 : Load (sampleWorld emptyStore [ackFrame, completeFrame]).fs = .ok none := by decide
    rw [h0] at hl
    simp at hl)
  ⟨h.1, hno.1, hno.2⟩

set_option maxRecDepth 100000 in
/-- C13, as stated, fails: with an expired credential, a refresh that returns a token
and a write that reports an error after the bytes have reached the record, the run falls
back to the device flow, startDeviceFlow fails, and the store holds the refreshed
credential in place of the one it held; on a full disk it holds an empty record. -/
theorem start_failed_after_save_counterexample :
    ((EnsureAuthenticated renewOnlyEnv (sampleWorld unsyncedStore [])).1 =
        .error (.wrap "failed to start authentication flow: %w"
          (.wrap "failed to start authentication flow: %w" (.leaf "connection refused"))) ∧
      Load unsyncedStore = .ok (some staleToken) ∧
      Load (EnsureAuthenticated renewOnlyEnv (sampleWorld unsyncedStore [])).2.fs =
        .ok (some ⟨"access-1", "refresh-1", 63852796800000000000⟩)) ∧
    ((EnsureAuthenticated renewOnlyEnv (sampleWorld fullDiskStore [])).1 =
        .error (.wrap "failed to start authentication flow: %w"
          (.wrap "failed to start authentication flow: %w" (.leaf "connection refused"))) ∧
      fullDiskStore.record = .present 0o600 staleText ∧
      (EnsureAuthenticated renewOnlyEnv (sampleWorld fullDiskStore [])).2.fs.record =
        .present 0o600 "") := by
  decide

/-- C13, amended: in every run of EnsureAuthenticated that reaches the device flow,
when startDeviceFlow fails the call returns that failure wrapped as the cause of "failed
to start authentication flow" and ends there: the run has opened no subscription
connection, and from the start of the device flow on no Save is performed and the files
stay as they were.  They are as they were before the call, and the call has performed
no Save at all, unless a refresh before the device flow had returned a token; the Save
of that token, the only one of the run, has failed. -/
theorem ensureAuthenticated_start_failed (env : Env) (w w0 : World) (err : Error)
    (hflow : flowEntry env w = some w0)
    (hstart : StartAuthenticationFlow env.startFlow = .error err) :
    EnsureAuthenticated env w =
        (.error (.wrap "failed to start authentication flow: %w" err),
          w0.emit Event.startFlow) ∧
      (EnsureAuthenticated env w).2.trace.countP Event.isDial = w.trace.countP Event.isDial ∧
      (EnsureAuthenticated env w).2.fs = w0.fs ∧
      (∃ ev, (EnsureAuthenticated env w).2.trace = w0.trace ++ ev ∧
        ev.countP Event.isSave = 0) ∧
      (∃ ev, (EnsureAuthenticated env w).2.trace = w.trace ++ ev ∧
        ∀ tok, Event.save tok ∈ ev → (Save w.fs tok).1 ≠ none) ∧
      ((∀ c n, Load w.fs = .ok (some c) →
          RefreshToken (env.refresh c.RefreshToken) ≠ .ok (some n)) →
        (EnsureAuthenticated env w).2.fs = w.fs ∧
        (EnsureAuthenticated env w).2.trace.countP Event.isSave =
          w.trace.countP Event.isSave) := by
  have hrun : EnsureAuthenticated env w =
      (.error (.wrap "failed to start authentication flow: %w" err),
        w0.emit Event.startFlow) := by
    rw [flowEntry_run env w w0 hflow]
    unfold startAuthFlow
    simp only [hstart]
  obtain ⟨-, -, ev, htr, hdial, -, hsave⟩ := flowEntry_trace env w w0 hflow
  rw [hrun]
  refine ⟨rfl, ?_, rfl, ⟨[Event.startFlow], rfl, rfl⟩, ⟨ev ++ [Event.startFlow], ?_, ?_⟩, ?_⟩
  · simp [emit_trace, htr, List.countP_append, hdial, Event.isDial]
  · simp [emit_trace, htr]
  · intro tok htok
    rcases List.mem_append.mp htok with h | h
    · exact hsave tok h
    · simp at h
  · intro hno
    obtain ⟨h5, h6⟩ := flowEntry_untouched env w w0 hflow hno
    refine ⟨h5, ?_⟩
    simp [emit_trace, List.countP_append, h6, Event.isSave]

set_option maxRecDepth 100000 in
theorem ensureAuthenticated_start_failed_witness :
    (EnsureAuthenticated offlineEnv (sampleWorld emptyStore [])).1 =
        .error (.wrap "failed to start authentication flow: %w"
          (.wrap "failed to start authentication flow: %w" (.leaf "connection refused"))) ∧
      (EnsureAuthenticated offlineEnv (sampleWorld emptyStore [])).2.trace.countP Event.isDial
        = 0 ∧
      (EnsureAuthenticated offlineEnv (sampleWorld emptyStore [])).2.fs = emptyStore :=
  have h := ensureAuthenticated_start_failed offlineEnv (sampleWorld emptyStore [])
    ((sampleWorld emptyStore []).emit Event.load)
    (.wrap "failed to start authentication flow: %w" (.leaf "connection refused")) rfl rfl
  have hno := h.2.2.2.2.2 (fun c n hl => by
    have h0 : Load (sampleWorld emptyStore []).fs = .ok none := by decide
    rw [h0] at hl
    simp at hl)
  ⟨by rw [h.1], h.2.1, hno.1⟩

/-! ## Lemmas: the accessor of the server -/

/-- What getToken does is a Load, at most one refresh call, at most one Save and at
most one warning. -/
theorem getToken_trace (env : Env) (homeErr : Option Error) (w : World) :
    ∃ ev, (getToken env homeErr w).2.trace = w.trace ++ ev ∧
      ∀ e ∈ ev, e.isStartFlow = false ∧ e.isWire = false ∧
        (e.isLoad = true ∨ e.isRefresh = true ∨ e.isSave = true ∨ e.isNote = true) := by
  unfold getToken NewTokenStore
  cases homeErr with
  | some err => exact ⟨[], by simp, by simp⟩
  | none =>
    simp only [emit_fs, emit_now]
    cases Load w.fs with
    | error err => exact ⟨[Event.load], rfl, by simp [Event.isStartFlow, Event.isWire, Event.isLoad]⟩
    | ok stored =>
      cases stored with
      | none => exact ⟨[Event.load], rfl, by simp [Event.isStartFlow, Event.isWire, Event.isLoad]⟩
      | some c =>
        simp only
        split_ifs with hexp hrt
        · exact ⟨[Event.load], rfl, by simp [Event.isStartFlow, Event.isWire, Event.isLoad]⟩
        · cases RefreshToken (env.refresh c.RefreshToken) with
          | error err =>
            exact ⟨[Event.load, Event.refresh c.RefreshToken], by simp [emit_trace],
              by simp [Event.isStartFlow, Event.isWire, Event.isLoad, Event.isRefresh]⟩
          | ok reply =>
            cases reply with
            | none =>
              exact ⟨[Event.load, Event.refresh c.RefreshToken], by simp [emit_trace],
                by simp [Event.isStartFlow, Event.isWire, Event.isLoad, Event.isRefresh]⟩
            | some n =>
              simp only [saveToken, emit_fs]
              cases Save w.fs ⟨n.AccessToken, n.RefreshToken, n.ExpiresAt⟩ with
              | mk r fs1 =>
                cases r with
                | none =>
                  exact ⟨[Event.load, Event.refresh c.RefreshToken,
                    Event.save ⟨n.AccessToken, n.RefreshToken, n.ExpiresAt⟩],
                    by simp [emit_trace],
                    by simp [Event.isStartFlow, Event.isWire, Event.isLoad, Event.isRefresh,
                      Event.isSave]⟩
                | some e =>
                  exact ⟨[Event.load, Event.refresh c.RefreshToken,
                    Event.save ⟨n.AccessToken, n.RefreshToken, n.ExpiresAt⟩,
                    Event.stderr "Warning: failed to save refreshed token: %v\n" [Arg.err e]],
                    by simp [emit_trace],
                    by simp [Event.isStartFlow, Event.isWire, Event.isLoad, Event.isRefresh,
                      Event.isSave, Event.isNote]⟩
        · exact ⟨[Event.load], rfl, by simp [Event.isStartFlow, Event.isWire, Event.isLoad]⟩

theorem getToken_load_failed (env : Env) (homeErr : Option Error) (w : World) (e : Error)
    (hload : Load w.fs = .error e) : ∃ e1, (getToken env homeErr w).1 = .error e1 := by
  unfold getToken NewTokenStore
  cases homeErr with
  | some err => exact ⟨_, rfl⟩
  | none =>
    simp only [emit_fs, hload]
    exact ⟨_, rfl⟩

theorem getToken_absent (env : Env) (homeErr : Option Error) (w : World)
    (hload : Load w.fs = .ok none) : ∃ e1, (getToken env homeErr w).1 = .error e1 := by
  unfold getToken NewTokenStore
  cases homeErr with
  | some err => exact ⟨_, rfl⟩
  | none =>
    simp only [emit_fs, hload]
    exact ⟨_, rfl⟩

theorem getToken_expired (env : Env) (homeErr : Option Error) (w : World) (c : StoredToken)
    (hload : Load w.fs = .ok (some c)) (hexp : IsExpired w.now (some c) = true)
    (h : c.RefreshToken = "" ∨ ∃ e, RefreshToken (env.refresh c.RefreshToken) = .error e) :
    ∃ e1, (getToken env homeErr w).1 = .error e1 := by
  unfold getToken NewTokenStore
  cases homeErr with
  | some err => exact ⟨_, rfl⟩
  | none =>
    simp only [emit_fs, emit_now, hload, hexp, if_true]
    by_cases hrt : c.RefreshToken = ""
    · rw [if_pos hrt]
      exact ⟨_, rfl⟩
    · rw [if_neg hrt]
      rcases h with h | ⟨e, he⟩
      · exact absurd h hrt
      · rw [he]
        exact ⟨_, rfl⟩

theorem getToken_valid (env : Env) (w : World) (c : StoredToken)
    (hload : Load w.fs = .ok (some c)) (hexp : IsExpired w.now (some c) = false) :
    getToken env none w = (.ok c.AccessToken, w.emit Event.load) := by
  unfold getToken NewTokenStore
  simp [emit_fs, emit_now, hload, hexp]

theorem getToken_refreshed (env : Env) (w : World) (c : StoredToken) (n : AuthenticationToken)
    (hload : Load w.fs = .ok (some c)) (hexp : IsExpired w.now (some c) = true)
    (hrt : c.RefreshToken ≠ "")
    (hgw : RefreshToken (env.refresh c.RefreshToken) = .ok (some n)) :
    (getToken env none w).1 = .ok n.AccessToken ∧
      (getToken env none w).2.fs = (Save w.fs ⟨n.AccessToken, n.RefreshToken, n.ExpiresAt⟩).2 ∧
      ∀ e, (Save w.fs ⟨n.AccessToken, n.RefreshToken, n.ExpiresAt⟩).1 = some e →
        (getToken env none w).2.trace = w.trace ++ [Event.load, Event.refresh c.RefreshToken,
          Event.save ⟨n.AccessToken, n.RefreshToken, n.ExpiresAt⟩,
          Event.stderr "Warning: failed to save refreshed token: %v\n" [Arg.err e]] := by
  unfold getToken NewTokenStore
  simp only [emit_fs, emit_now, hload, hexp, if_true, if_neg hrt, hgw, saveToken]
  cases hs : Save w.fs ⟨n.AccessToken, n.RefreshToken, n.ExpiresAt⟩ with
  | mk r fs1 =>
    cases r with
    | none => exact ⟨rfl, rfl, by simp⟩
    | some e =>
      refine ⟨rfl, rfl, ?_⟩
      intro e1 he1
      simp only [Option.some.injEq] at he1
      subst he1
      simp [emit_trace]

theorem startAuthFlow_save_failed (env : Env) (w : World) (authReq : AuthenticationRequest)
    (token : AuthenticationToken) (e : Error)
    (hstart : StartAuthenticationFlow env.startFlow = .ok (some authReq))
    (hwait : (waitForToken env authReq.ID
      (showInstructions env authReq (w.emit Event.startFlow))).1 = .ok token)
    (hsave : (Save w.fs ⟨token.AccessToken, token.RefreshToken, token.ExpiresAt⟩).1 = some e) :
    (startAuthFlow env w).1 = .error (.wrap "failed to save token: %w" e) := by
  have hnfs := (showInstructions_adds env authReq (w.emit Event.startFlow)).1
  have wfs := (waitForToken_world env authReq.ID
    (showInstructions env authReq (w.emit Event.startFlow))).1
  unfold startAuthFlow
  simp only [hstart]
  cases hwt : waitForToken env authReq.ID
      (showInstructions env authReq (w.emit Event.startFlow)) with
  | mk r w2 =>
    rw [hwt] at hwait wfs
    simp only at hwait wfs
    subst hwait
    have hfs2 : w2.fs = w.fs := by rw [wfs, hnfs]; rfl
    simp only [saveToken, emit_fs, hfs2, hsave]

theorem flowEntry_save_failed (env : Env) (w : World) (c : StoredToken)
    (n : AuthenticationToken) (e : Error)
    (hload : Load w.fs = .ok (some c)) (hexp : IsExpired w.now (some c) = true)
    (hrt : c.RefreshToken ≠ "")
    (hgw : RefreshToken (env.refresh c.RefreshToken) = .ok (some n))
    (hsave : (Save w.fs ⟨n.AccessToken, n.RefreshToken, n.ExpiresAt⟩).1 = some e) :
    flowEntry env w = some { w with
      fs := (Save w.fs ⟨n.AccessToken, n.RefreshToken, n.ExpiresAt⟩).2,
      trace := w.trace ++ [Event.load, Event.refresh c.RefreshToken,
        Event.save ⟨n.AccessToken, n.RefreshToken, n.ExpiresAt⟩,
        Event.stderr "Token refresh failed: %v. Starting new authentication flow...\n"
          [Arg.err (.wrap "failed to save refreshed token: %w" e)]] } := by
  unfold flowEntry
  simp only [emit_fs, emit_now, hload, hexp, not_true_eq_false, if_false]
  rw [if_pos hrt]
  simp only [refreshToken, hgw, saveToken, emit_fs, hsave]
  simp [World.emit]

/-- The refresh of getToken on a reply that carries neither a token nor an error: the
nil token is dereferenced. -/
theorem getToken_nil_reply (env : Env) (w : World) (c : StoredToken)
    (hload : Load w.fs = .ok (some c)) (hexp : IsExpired w.now (some c) = true)
    (hrt : c.RefreshToken ≠ "")
    (hgw : RefreshToken (env.refresh c.RefreshToken) = .ok none) :
    getToken env none w = (.fault, (w.emit Event.load).emit (Event.refresh c.RefreshToken)) := by
  unfold getToken NewTokenStore
  simp only [emit_fs, emit_now, hload, hexp, if_true, if_neg hrt, hgw]

theorem getToken_unreadable (env : Env) (w : World) :
    (∀ e, (getToken env (some e) w).1 =
      .error (.wrap "failed to create token store: %w"
        (.wrap "failed to get home directory: %w" e))) ∧
    (∀ e, Load w.fs = .error e →
      (getToken env none w).1 = .error (.wrap "failed to load token: %w" e)) := by
  refine ⟨fun e => rfl, fun e hload => ?_⟩
  unfold getToken NewTokenStore
  simp only [emit_fs, hload]

/-- C14: getToken never calls startDeviceFlow and never touches a subscription
connection, whatever the store holds and the gateway answers.  It returns an error when
no credential is stored, when the store cannot be found or read, and when the stored
credential is expired and has an empty refresh value or the refresh call fails; it
returns the stored access value when the credential is not expired, and the access
value of the refreshed token when the credential is expired and the refresh call
returns one.  In the one case left, an expired credential with a refresh value and a
reply of the gateway that carries neither a token nor an error, getToken dereferences
the nil token: it panics and returns neither an error nor an access value. -/
theorem getToken_non_interactive (env : Env) (homeErr : Option Error) (w : World) :
    (∃ ev, (getToken env homeErr w).2.trace = w.trace ++ ev ∧
      ev.countP Event.isStartFlow = 0 ∧ ev.countP Event.isWire = 0) ∧
    (Load w.fs = .ok none → ∃ e, (getToken env homeErr w).1 = .error e) ∧
    (∀ c, Load w.fs = .ok (some c) → IsExpired w.now (some c) = true →
      (c.RefreshToken = "" ∨ ∃ e, RefreshToken (env.refresh c.RefreshToken) = .error e) →
      ∃ e, (getToken env homeErr w).1 = .error e) ∧
    (∀ c, homeErr = none → Load w.fs = .ok (some c) → IsExpired w.now (some c) = false →
      (getToken env homeErr w).1 = .ok c.AccessToken) ∧
    (∀ c n, homeErr = none → Load w.fs = .ok (some c) → IsExpired w.now (some c) = true →
      c.RefreshToken ≠ "" → RefreshToken (env.refresh c.RefreshToken) = .ok (some n) →
      (getToken env homeErr w).1 = .ok n.AccessToken) ∧
    (∀ c, homeErr = none → Load w.fs = .ok (some c) → IsExpired w.now (some c) = true →
      c.RefreshToken ≠ "" → RefreshToken (env.refresh c.RefreshToken) = .ok none →
      (getToken env homeErr w).1 = .fault) ∧
    ((homeErr ≠ none ∨ ∃ e, Load w.fs = .error e) →
      ∃ e, (getToken env homeErr w).1 = .error e) := by
  refine ⟨?_, getToken_absent env homeErr w, fun c => getToken_expired env homeErr w c, ?_, ?_,
    ?_, ?_⟩
  · obtain ⟨ev, htr, hev⟩ := getToken_trace env homeErr w
    refine ⟨ev, htr, ?_, ?_⟩
    · rw [List.countP_eq_zero]
      intro e he
      simp [(hev e he).1]
    · rw [List.countP_eq_zero]
      intro e he
      simp [(hev e he).2.1]
  · intro c hh hload hexp
    subst hh
    rw [getToken_valid env w c hload hexp]
  · intro c n hh hload hexp hrt hgw
    subst hh
    exact (getToken_refreshed env w c n hload hexp hrt hgw).1
  · intro c hh hload hexp hrt hgw
    subst hh
    rw [getToken_nil_reply env w c hload hexp hrt hgw]
  · intro h
    cases homeErr with
    | some e => exact ⟨_, (getToken_unreadable env w).1 e⟩
    | none =>
      rcases h with h | ⟨e, he⟩
      · exact absurd rfl h
      · exact ⟨_, (getToken_unreadable env w).2 e he⟩

set_option maxRecDepth 100000 in
theorem getToken_non_interactive_witness :
    (∃ e, (getToken offlineEnv none (sampleWorld emptyStore [])).1 = .error e) ∧
      (∃ e, (getToken offlineEnv none (sampleWorld (storeWith staleText) [])).1 = .error e) ∧
      (getToken offlineEnv none (sampleWorld (storeWith freshText) [])).1 = .ok "access-0" ∧
      (getToken sampleEnv none (sampleWorld (storeWith staleText) [])).1 = .ok "access-1" ∧
      blankEnv.refresh "refresh-0" = .resp none none ∧
      (getToken blankEnv none (sampleWorld (storeWith staleText) [])).1 = .fault :=
  ⟨(getToken_non_interactive offlineEnv none (sampleWorld emptyStore [])).2.1 (by decide),
    (getToken_non_interactive offlineEnv none (sampleWorld (storeWith staleText) [])).2.2.1
      staleToken (by decide) (by decide) (Or.inr ⟨_, rfl⟩),
    (getToken_non_interactive offlineEnv none (sampleWorld (storeWith freshText) [])).2.2.2.1
      freshToken rfl (by decide) (by decide),
    (getToken_non_interactive sampleEnv none (sampleWorld (storeWith staleText) [])).2.2.2.2.1
      staleToken renewedToken rfl (by decide) (by decide) (by decide) rfl,
    rfl,
    (getToken_non_interactive blankEnv none
      (sampleWorld (storeWith staleText) [])).2.2.2.2.2.1
      staleToken rfl (by decide) (by decide) (by decide) rfl⟩

set_option maxRecDepth 100000 in
/-- C15, as stated, fails: with an expired credential, a refresh that returns a token
and a record that cannot be opened for writing, the Save in getToken fails and getToken
returns the refreshed access value with no error. -/
theorem getToken_save_failed_counterexample :
    (Save lockedStore ⟨"access-1", "refresh-1", 63852796800000000000⟩).1 =
        some (.wrap "failed to write token file: %w" (.leaf "permission denied")) ∧
      (getToken sampleEnv none (sampleWorld lockedStore [])).1 = .ok "access-1" ∧
      (getToken sampleEnv none (sampleWorld lockedStore [])).2.trace.countP Event.isSave = 1 ∧
      (getToken sampleEnv none (sampleWorld lockedStore [])).2.fs = lockedStore := by
  decide

/-- C15, amended: a Load that fails for another reason than an absent record makes
EnsureAuthenticated and getToken return the failure, wrapped; a Save that fails in the
device flow makes EnsureAuthenticated return the failure, wrapped.  A Save that fails
after a refresh has returned a token is not returned: EnsureAuthenticated reports it on
stderr as a failed refresh and goes on to the device flow, whose result it returns, and
getToken reports it on stderr as a warning and returns the refreshed access value. -/
theorem storage_errors (env : Env) (w : World) :
    (∀ e, Load w.fs = .error e →
      (EnsureAuthenticated env w).1 = .error (.wrap "failed to load token: %w" e) ∧
      (getToken env none w).1 = .error (.wrap "failed to load token: %w" e) ∧
      ∀ homeErr, ∃ e1, (getToken env homeErr w).1 = .error e1) ∧
    (∀ w0 authReq token e, flowEntry env w = some w0 →
      StartAuthenticationFlow env.startFlow = .ok (some authReq) →
      (waitForToken env authReq.ID
        (showInstructions env authReq (w0.emit Event.startFlow))).1 = .ok token →
      (Save w0.fs ⟨token.AccessToken, token.RefreshToken, token.ExpiresAt⟩).1 = some e →
      (EnsureAuthenticated env w).1 = .error (.wrap "failed to save token: %w" e)) ∧
    (∀ c n e, Load w.fs = .ok (some c) → IsExpired w.now (some c) = true →
      c.RefreshToken ≠ "" → RefreshToken (env.refresh c.RefreshToken) = .ok (some n) →
      (Save w.fs ⟨n.AccessToken, n.RefreshToken, n.ExpiresAt⟩).1 = some e →
      EnsureAuthenticated env w = startAuthFlow env { w with
        fs := (Save w.fs ⟨n.AccessToken, n.RefreshToken, n.ExpiresAt⟩).2,
        trace := w.trace ++ [Event.load, Event.refresh c.RefreshToken,
          Event.save ⟨n.AccessToken, n.RefreshToken, n.ExpiresAt⟩,
          Event.stderr "Token refresh failed: %v. Starting new authentication flow...\n"
            [Arg.err (.wrap "failed to save refreshed token: %w" e)]] } ∧
      (getToken env none w).1 = .ok n.AccessToken ∧
      (getToken env none w).2.trace = w.trace ++ [Event.load, Event.refresh c.RefreshToken,
        Event.save ⟨n.AccessToken, n.RefreshToken, n.ExpiresAt⟩,
        Event.stderr "Warning: failed to save refreshed token: %v\n" [Arg.err e]]) := by
  refine ⟨?_, ?_, ?_⟩
  · intro e hload
    refine ⟨?_, ?_, fun homeErr => getToken_load_failed env homeErr w e hload⟩
    · unfold EnsureAuthenticated
      simp only [emit_fs, hload]
    · unfold getToken NewTokenStore
      simp only [emit_fs, hload]
  · intro w0 authReq token e hflow hstart hwait hsave
    rw [flowEntry_run env w w0 hflow]
    exact startAuthFlow_save_failed env w0 authReq token e hstart hwait hsave
  · intro c n e hload hexp hrt hgw hsave
    have hg := getToken_refreshed env w c n hload hexp hrt hgw
    exact ⟨flowEntry_run env w _ (flowEntry_save_failed env w c n e hload hexp hrt hgw hsave),
      hg.1, hg.2.2 e hsave⟩

set_option maxRecDepth 100000 in
theorem storage_errors_witness :
    (EnsureAuthenticated sampleEnv (sampleWorld (storeWith "[]") [])).1 =
        .error (.wrap "failed to load token: %w" (.wrap "failed to unmarshal token: %w"
          (.leaf "json: cannot unmarshal into Go value of type auth.StoredToken"))) ∧
      (EnsureAuthenticated sampleEnv (sampleWorld readOnlyStore [ackFrame, tokenFrame])).1 =
        .error (.wrap "failed to save token: %w" (.wrap "failed to create config directory: %w"
          (.leaf "read-only file system"))) ∧
      (getToken sampleEnv none (sampleWorld lockedStore [])).1 = .ok "access-1" :=
  ⟨((storage_errors sampleEnv (sampleWorld (storeWith "[]") [])).1 _ (by decide)).1,
    (storage_errors sampleEnv (sampleWorld readOnlyStore [ackFrame, tokenFrame])).2.1
      ((sampleWorld readOnlyStore [ackFrame, tokenFrame]).emit Event.load) sampleRequest
      renewedToken
      (.wrap "failed to create config directory: %w" (.leaf "read-only file system"))
      rfl rfl (by decide) (by decide),
    ((storage_errors sampleEnv (sampleWorld lockedStore [])).2.2 staleToken renewedToken
      (.wrap "failed to write token file: %w" (.leaf "permission denied"))
      (by decide) (by decide) (by decide) rfl (by decide)).2.1⟩

/-! ## Lemmas: the subscription, message by message -/

theorem readJSON_eq (m : Inbound) (rest : List Inbound) (w : World) :
    (readJSON m rest w).2 =
      { w with now := w.now + m.elapsed, inbound := rest, trace := w.trace ++ [Event.read] } := by
  unfold readJSON
  cases m.result <;> rfl

/-- One turn of the read loop on a message it does not ignore. -/
theorem readLoop_step (env : Env) (m : Inbound) (rest : List Inbound) (w : World) (v : Value)
    (msg : List (String × Value)) (r : Except Error AuthenticationToken)
    (hctx : env.ctxErr w.now = none) (hres : m.result = .ok v) (hmap : asMap v = .ok msg)
    (hmsg : handleMessage env (w.now + m.elapsed) msg = some r) :
    readLoop env (m :: rest) w =
      (r, { w with
        now := w.now + m.elapsed, inbound := rest, trace := w.trace ++ [Event.read] }) := by
  rw [readLoop]
  simp only [hctx, readJSON, hres, hmap, World.emit, hmsg]

/-- One turn of the read loop on a message it ignores. -/
theorem readLoop_skip (env : Env) (m : Inbound) (rest : List Inbound) (w : World) (v : Value)
    (msg : List (String × Value))
    (hctx : env.ctxErr w.now = none) (hres : m.result = .ok v) (hmap : asMap v = .ok msg)
    (hmsg : handleMessage env (w.now + m.elapsed) msg = none) :
    readLoop env (m :: rest) w =
      readLoop env rest { w with
        now := w.now + m.elapsed, inbound := rest, trace := w.trace ++ [Event.read] } := by
  rw [readLoop]
  simp only [hctx, readJSON, hres, hmap, World.emit, hmsg]

theorem isSubscribe_subMsg (requestID : String) :
    Event.isSubscribe (Event.send (subMsg requestID)) = true := by
  simp [Event.isSubscribe, subMsg, index, asString]

theorem isSubscribe_initMsg : Event.isSubscribe (Event.send initMsg) = false := by
  simp [Event.isSubscribe, initMsg, index, asString]

theorem readLoop_subscribe (env : Env) (ms : List Inbound) (w : World) :
    (readLoop env ms w).2.trace.countP Event.isSubscribe = w.trace.countP Event.isSubscribe := by
  obtain ⟨-, ev, htr, hev⟩ := readLoop_world env ms w
  rw [htr, List.countP_append]
  have h0 : ev.countP Event.isSubscribe = 0 := by
    rw [List.countP_eq_zero]
    intro e he
    rw [hev e he]
    simp [Event.isSubscribe]
  omega

theorem readFrame_result (w : World) :
    (w.inbound = [] → (readFrame w).1 = .error ErrClosed) ∧
    (∀ m rest, w.inbound = m :: rest →
      (∀ e, m.result = .error e → (readFrame w).1 = .error e) ∧
      (∀ v, m.result = .ok v → (readFrame w).1 = asMap v)) := by
  unfold readFrame
  refine ⟨fun h => by rw [h], ?_⟩
  intro m rest h
  rw [h]
  refine ⟨fun e he => ?_, fun v hv => ?_⟩
  · simp only [readJSON, he]
  · simp only [readJSON, hv]

/-- What the exchange on an open connection does with the first inbound message. -/
theorem converse_subscribe (env : Env) (requestID : String) (wd : World)
    (hinit : env.sendFault 0 = none) :
    (∀ e, (readFrame (wd.emit (Event.send initMsg))).1 = .error e →
      (converse env requestID wd).1 = .error (.wrap "failed to read ack: %w" e) ∧
      (converse env requestID wd).2.trace.countP Event.isSubscribe =
        wd.trace.countP Event.isSubscribe) ∧
    (∀ msg, (readFrame (wd.emit (Event.send initMsg))).1 = .ok msg →
      (converse env requestID wd).2.trace.countP Event.isSubscribe =
        wd.trace.countP Event.isSubscribe + 1) := by
  have hsub := isSubscribe_subMsg requestID
  have hini := isSubscribe_initMsg
  have hread : Event.isSubscribe Event.read = false := rfl
  obtain ⟨-, htr⟩ := readFrame_world (wd.emit (Event.send initMsg))
  unfold converse
  simp only [hinit]
  cases hrf : readFrame (wd.emit (Event.send initMsg)) with
  | mk r w1 =>
    rw [hrf] at htr
    simp only [emit_trace] at htr
    have hc1 : w1.trace.countP Event.isSubscribe = wd.trace.countP Event.isSubscribe := by
      rw [htr]
      simp [List.countP_append, List.countP_cons, hini, hread]
    cases r with
    | error err =>
      refine ⟨fun e he => ?_, fun msg hm => by simp at hm⟩
      simp only [Except.error.injEq] at he
      subst he
      exact ⟨rfl, hc1⟩
    | ok msg =>
      refine ⟨fun e he => by simp at he, fun _ _ => ?_⟩
      simp only
      cases env.sendFault 1 with
      | some err => simp [emit_trace, List.countP_append, List.countP_cons, hsub, hc1]
      | none =>
        simp only
        rw [readLoop_subscribe]
        simp [emit_trace, List.countP_append, List.countP_cons, hsub, hc1]

/-- waitForToken on a gateway that accepts the connection: the exchange, then the
connection closed. -/
theorem waitForToken_open (env : Env) (requestID : String) (w : World)
    (wsEndpoint : String) (u : URL)
    (hws : WebSocketEndpoint env.endpoint = some wsEndpoint)
    (hurl : env.urlParse wsEndpoint = .ok u) (hdial : env.dial = none) :
    ∃ wd, wd.inbound = w.inbound ∧
      wd.trace.countP Event.isSubscribe = w.trace.countP Event.isSubscribe ∧
      (waitForToken env requestID w).2 = (converse env requestID wd).2.emit Event.close ∧
      (∀ e, (converse env requestID wd).1 = .error e →
        (waitForToken env requestID w).1 = .error e) := by
  refine ⟨w.emit (Event.dial wsEndpoint
    [("Origin", (if u.Scheme = "wss" then "https" else "http") ++ "://" ++ u.Host),
      ("Sec-WebSocket-Protocol", "graphql-transport-ws")]), rfl, ?_, ?_, ?_⟩
  · simp [emit_trace, List.countP_append, List.countP_cons, Event.isSubscribe]
  · unfold waitForToken
    simp only [hws, hurl, hdial]
    cases converse env requestID (w.emit (Event.dial wsEndpoint
      [("Origin", (if u.Scheme = "wss" then "https" else "http") ++ "://" ++ u.Host),
        ("Sec-WebSocket-Protocol", "graphql-transport-ws")])) with
    | mk r w2 => cases r <;> rfl
  · intro e he
    unfold waitForToken
    simp only [hws, hurl, hdial]
    cases hc : converse env requestID (w.emit (Event.dial wsEndpoint
      [("Origin", (if u.Scheme = "wss" then "https" else "http") ++ "://" ++ u.Host),
        ("Sec-WebSocket-Protocol", "graphql-transport-ws")])) with
    | mk r w2 =>
      rw [hc] at he
      simp only at he
      subst he
      rfl

set_option maxRecDepth 100000 in
/-- C16, the failing input: a first inbound message of type ping, which is no
acknowledgment, does not end the wait; the subscribe message is sent and the token
that follows is returned, where the comment of the code says "Wait for connection_ack"
and the error of that step says "failed to read ack". -/
theorem unchecked_ack_counterexample :
    pingFrame.msgType = some "ping" ∧
      (waitForToken sampleEnv "req-1" (sampleWorld emptyStore [pingFrame, tokenFrame])).1 =
        .ok renewedToken ∧
      (waitForToken sampleEnv "req-1"
        (sampleWorld emptyStore [pingFrame, tokenFrame])).2.trace.countP Event.isSubscribe = 1 := by
  decide

/-- C16: what the code does with the first inbound message.  Once the connection is
open and the init message is sent, waitForToken reads one message into `ackResp` and
never inspects it: when a first message is read (a JSON object or null), whatever its
type, the subscribe message is sent, so a message that is no connection_ack does not
end the wait.  The wait fails before any subscribe message is sent, with the cause
wrapped in "failed to read ack", only when the connection drops before the first
message arrives or the first read fails or delivers no JSON object. -/
theorem waitForToken_first_message (env : Env) (requestID : String) (w : World)
    (wsEndpoint : String) (u : URL)
    (hws : WebSocketEndpoint env.endpoint = some wsEndpoint)
    (hurl : env.urlParse wsEndpoint = .ok u) (hdial : env.dial = none)
    (hinit : env.sendFault 0 = none) :
    (∀ m rest v msg, w.inbound = m :: rest → m.result = .ok v → asMap v = .ok msg →
      (waitForToken env requestID w).2.trace.countP Event.isSubscribe =
        w.trace.countP Event.isSubscribe + 1) ∧
    (w.inbound = [] →
      (waitForToken env requestID w).1 = .error (.wrap "failed to read ack: %w" ErrClosed) ∧
      (waitForToken env requestID w).2.trace.countP Event.isSubscribe =
        w.trace.countP Event.isSubscribe) ∧
    (∀ m rest e, w.inbound = m :: rest →
      (m.result = .error e ∨ ∃ v, m.result = .ok v ∧ asMap v = .error e) →
      (waitForToken env requestID w).1 = .error (.wrap "failed to read ack: %w" e) ∧
      (waitForToken env requestID w).2.trace.countP Event.isSubscribe =
        w.trace.countP Event.isSubscribe) := by
  obtain ⟨wd, hin, hcnt, hw2, herr⟩ := waitForToken_open env requestID w wsEndpoint u hws hurl hdial
  obtain ⟨hbad, hgood⟩ := converse_subscribe env requestID wd hinit
  obtain ⟨hnil, hcons⟩ := readFrame_result (wd.emit (Event.send initMsg))
  rw [emit_inbound, hin] at hnil hcons
  have hclose : ∀ x : World, (x.emit Event.close).trace.countP Event.isSubscribe =
      x.trace.countP Event.isSubscribe := by
    intro x
    simp [emit_trace, List.countP_append, List.countP_cons, Event.isSubscribe]
  refine ⟨?_, ?_, ?_⟩
  · intro m rest v msg hw hres hmap
    have h1 := ((hcons m rest hw).2 v hres).trans hmap
    rw [hw2, hclose, hgood msg h1, hcnt]
  · intro hw
    obtain ⟨h1, h2⟩ := hbad _ (hnil hw)
    exact ⟨herr _ h1, by rw [hw2, hclose, h2, hcnt]⟩
  · intro m rest e hw hb
    have h0 : (readFrame (wd.emit (Event.send initMsg))).1 = .error e := by
      rcases hb with hres | ⟨v, hres, hmap⟩
      · exact (hcons m rest hw).1 e hres
      · exact ((hcons m rest hw).2 v hres).trans hmap
    obtain ⟨h1, h2⟩ := hbad _ h0
    exact ⟨herr _ h1, by rw [hw2, hclose, h2, hcnt]⟩

set_option maxRecDepth 100000 in
theorem waitForToken_first_message_witness :
    (waitForToken sampleEnv "req-1" (sampleWorld emptyStore [])).1 =
        .error (.wrap "failed to read ack: %w" ErrClosed) ∧
      (waitForToken sampleEnv "req-1" (sampleWorld emptyStore [])).2.trace.countP
        Event.isSubscribe = 0 ∧
      (waitForToken sampleEnv "req-1"
        (sampleWorld emptyStore [errorFrame, tokenFrame])).2.trace.countP Event.isSubscribe = 1 :=
  have h := waitForToken_first_message sampleEnv "req-1" (sampleWorld emptyStore [])
    "ws://localhost:8080/ws/graphql" ⟨"ws", "localhost:8080"⟩ (by decide) rfl rfl rfl
  have h2 := waitForToken_first_message sampleEnv "req-1"
    (sampleWorld emptyStore [errorFrame, tokenFrame])
    "ws://localhost:8080/ws/graphql" ⟨"ws", "localhost:8080"⟩ (by decide) rfl rfl rfl
  ⟨(h.2.1 rfl).1, (h.2.1 rfl).2, h2.1 errorFrame [tokenFrame] _ _ rfl rfl rfl⟩

/-- C17: a next message whose createdAuthenticationToken carries an error object ends
the read loop with a failure that carries the `__typename` of that object (the empty
text when it has none) and with no credential, whether or not the same object carries
a token; nothing more is read. -/
theorem readLoop_issuance_failed (env : Env) (m : Inbound) (rest : List Inbound) (w : World)
    (v : Value) (msg payload data created errData : List (String × Value))
    (hctx : env.ctxErr w.now = none) (hres : m.result = .ok v) (hmap : asMap v = .ok msg)
    (htype : asString (index msg "type") = some "next")
    (hpayload : asObject (index msg "payload") = some payload)
    (hdata : asObject (index payload "data") = some data)
    (hcreated : asObject (index data "createdAuthenticationToken") = some created)
    (herror : asObject (index created "error") = some errData) :
    readLoop env (m :: rest) w =
        (.error (.leaf ("authentication failed: " ++
          (asString (index errData "__typename")).getD "")),
          { w with
            now := w.now + m.elapsed, inbound := rest, trace := w.trace ++ [Event.read] }) ∧
      ∀ typename, asString (index errData "__typename") = some typename →
        (readLoop env (m :: rest) w).1 = .error (.leaf ("authentication failed: " ++ typename)) := by
  have h := readLoop_step env m rest w v msg _ hctx hres hmap
    (by simp only [handleMessage, htype, hpayload, hdata, hcreated, herror, if_true]; rfl)
  refine ⟨h, ?_⟩
  intro typename ht
  rw [h, ht]
  rfl

set_option maxRecDepth 100000 in
theorem readLoop_issuance_failed_witness :
    (readLoop sampleEnv [deniedFrame, tokenFrame] (sampleWorld emptyStore [])).1 =
        .error (.leaf "authentication failed: AuthenticationUserError") ∧
      (readLoop sampleEnv [deniedFrame, tokenFrame] (sampleWorld emptyStore [])).2.inbound.length
        = 1 :=
  have h := readLoop_issuance_failed sampleEnv deniedFrame [tokenFrame]
    (sampleWorld emptyStore []) _ _ _ _
    [("token", .object [("accessToken", .string "access-1"),
        ("refreshToken", .string "refresh-1"), ("expiresAt", .string "2024-06-01T00:00:00Z")]),
      ("error", .object [("__typename", .string "AuthenticationUserError")])]
    [("__typename", .string "AuthenticationUserError")] rfl rfl rfl rfl rfl rfl rfl rfl
  ⟨h.2 "AuthenticationUserError" rfl, by rw [h.1]; rfl⟩

/-- C18: a next message whose createdAuthenticationToken carries no error object and
a token object with string fields accessToken, refreshToken and expiresAt, the last a
text that `time.Parse(time.RFC3339, ·)` reads as the instant `t`, ends the read loop
with the credential made of these: the two values and the expiry `t`.  In particular
the expiry is `t` when the text is the RFC 3339 text of `t`. -/
theorem readLoop_token_issued (env : Env) (m : Inbound) (rest : List Inbound) (w : World)
    (v : Value) (msg payload data created tokenData : List (String × Value))
    (accessToken refreshToken expiresAt : String) (t : Time)
    (hctx : env.ctxErr w.now = none) (hres : m.result = .ok v) (hmap : asMap v = .ok msg)
    (htype : asString (index msg "type") = some "next")
    (hpayload : asObject (index msg "payload") = some payload)
    (hdata : asObject (index payload "data") = some data)
    (hcreated : asObject (index data "createdAuthenticationToken") = some created)
    (herror : asObject (index created "error") = none)
    (htoken : asObject (index created "token") = some tokenData)
    (haccess : asString (index tokenData "accessToken") = some accessToken)
    (hrefresh : asString (index tokenData "refreshToken") = some refreshToken)
    (hexpires : asString (index tokenData "expiresAt") = some expiresAt)
    (htime : parseRFC3339 expiresAt.data = some t ∨
      formatRFC3339Nano t = some expiresAt.data) :
    readLoop env (m :: rest) w =
      (.ok ⟨accessToken, refreshToken, t⟩,
        { w with
          now := w.now + m.elapsed, inbound := rest, trace := w.trace ++ [Event.read] }) := by
  have ht : parseRFC3339 expiresAt.data = some t := by
    rcases htime with h | h
    · exact h
    · exact parseRFC3339_format t _ h
  exact readLoop_step env m rest w v msg _ hctx hres hmap
    (by simp only [handleMessage, htype, hpayload, hdata, hcreated, herror, htoken, tokenOf,
      haccess, hrefresh, hexpires, ht, if_true, Option.getD_some])

set_option maxRecDepth 100000 in
theorem readLoop_token_issued_witness :
    parseRFC3339 "2024-06-01T00:00:00Z".data = some 63852796800000000000 ∧
      (readLoop sampleEnv [tokenFrame, errorFrame] (sampleWorld emptyStore [])).1 =
        .ok ⟨"access-1", "refresh-1", 63852796800000000000⟩ :=
  have h := readLoop_token_issued sampleEnv tokenFrame [errorFrame] (sampleWorld emptyStore [])
    _ _ _ _ _
    [("accessToken", .string "access-1"), ("refreshToken", .string "refresh-1"),
      ("expiresAt", .string "2024-06-01T00:00:00Z")]
    "access-1" "refresh-1" "2024-06-01T00:00:00Z" 63852796800000000000
    rfl rfl rfl rfl rfl rfl rfl rfl rfl rfl rfl rfl (Or.inl (by decide))
  ⟨by decide, by rw [h]⟩

/-- C19: a message of type error and a message of type complete each end the read
loop at once with an error and no credential, the complete message with the reason
"subscription completed without token"; the messages behind it stay unread. -/
theorem readLoop_terminal (env : Env) (m : Inbound) (rest : List Inbound) (w : World)
    (v : Value) (msg : List (String × Value))
    (hctx : env.ctxErr w.now = none) (hres : m.result = .ok v) (hmap : asMap v = .ok msg) :
    (asString (index msg "type") = some "error" →
      readLoop env (m :: rest) w =
        (.error (.leaf ("subscription error: " ++
          env.sprint ((asArray (index msg "payload")).getD []))),
          { w with
            now := w.now + m.elapsed, inbound := rest, trace := w.trace ++ [Event.read] })) ∧
    (asString (index msg "type") = some "complete" →
      readLoop env (m :: rest) w =
        (.error (.leaf "subscription completed without token"),
          { w with
            now := w.now + m.elapsed, inbound := rest, trace := w.trace ++ [Event.read] })) := by
  constructor
  · intro htype
    exact readLoop_step env m rest w v msg _ hctx hres hmap
      (by simp [handleMessage, htype])
  · intro htype
    exact readLoop_step env m rest w v msg _ hctx hres hmap
      (by simp [handleMessage, htype])

set_option maxRecDepth 100000 in
theorem readLoop_terminal_witness :
    (readLoop sampleEnv [errorFrame, tokenFrame] (sampleWorld emptyStore [])).1 =
        .error (.leaf "subscription error: []") ∧
      (readLoop sampleEnv [completeFrame, tokenFrame] (sampleWorld emptyStore [])).1 =
        .error (.leaf "subscription completed without token") ∧
      (readLoop sampleEnv [completeFrame, tokenFrame]
        (sampleWorld emptyStore [])).2.inbound.length = 1 :=
  have h1 := (readLoop_terminal sampleEnv errorFrame [tokenFrame] (sampleWorld emptyStore [])
    _ _ rfl rfl rfl).1 rfl
  have h2 := (readLoop_terminal sampleEnv completeFrame [tokenFrame] (sampleWorld emptyStore [])
    _ _ rfl rfl rfl).2 rfl
  ⟨by rw [h1]; rfl, by rw [h2], by rw [h2]; rfl⟩

/-! ## Lemmas: messages the read loop ignores -/

/-- The messages called unrecognized are the messages the loop body passes over. -/
theorem unrecognized_iff (env : Env) (now : Time) (msg : List (String × Value)) :
    unrecognized msg = true ↔ handleMessage env now msg = none := by
  unfold unrecognized handleMessage
  cases asString (index msg "type") with
  | none => simp
  | some msgType =>
    simp only
    by_cases h1 : msgType = "next"
    · simp only [h1, if_true]
      cases asObject (index msg "payload") with
      | none => simp
      | some payload =>
        simp only
        cases asObject (index payload "data") with
        | none => simp
        | some data =>
          simp only
          cases asObject (index data "createdAuthenticationToken") with
          | none => simp
          | some created =>
            simp only
            cases asObject (index created "error") with
            | some errData => simp
            | none =>
              cases asObject (index created "token") with
              | none => simp
              | some tokenData => simp
    · simp only [h1, if_false]
      by_cases h2 : msgType = "error"
      · simp [h2]
      · by_cases h3 : msgType = "complete"
        · simp [h3]
        · simp [h2, h3]

theorem readLoop_read_failed (env : Env) (m : Inbound) (rest : List Inbound) (w : World)
    (err : Error) (hctx : env.ctxErr w.now = none)
    (hbad : m.result = .error err ∨ ∃ v, m.result = .ok v ∧ asMap v = .error err) :
    (readLoop env (m :: rest) w).1 = .error (.wrap "failed to read message: %w" err) := by
  rw [readLoop]
  rcases hbad with hres | ⟨v, hres, hmap⟩
  · simp only [hctx, readJSON, hres]
  · simp only [hctx, readJSON, hres, hmap]

theorem readLoop_closed (env : Env) (w : World) (hctx : env.ctxErr w.now = none) :
    (readLoop env [] w).1 = .error (.wrap "failed to read message: %w" ErrClosed) := by
  rw [readLoop]
  simp only [hctx]

/-- The read loop on a sequence and on the sequence pruned, started `carry` earlier,
while the context is not cancelled. -/
theorem readLoop_pruneFrom (env : Env) : ∀ (ms : List Inbound) (w w1 : World) (carry : Nat),
    w1.now = w.now + carry →
    (∀ t : Time, w.now ≤ t → t ≤ w.now + carry + span ms → env.ctxErr t = none) →
    (readLoop env ms w1).1 = (readLoop env (pruneFrom carry ms) w).1 := by
  intro ms
  induction ms with
  | nil =>
    intro w w1 carry hnow hctx
    have hc : (0 : Int) ≤ (carry : Int) := Nat.cast_nonneg _
    have hs : (0 : Int) ≤ (span [] : Nat) := Nat.cast_nonneg _
    have h0 := hctx w.now (le_refl _) (by linarith)
    have h1 : env.ctxErr w1.now = none := by
      rw [hnow]; exact hctx _ (by linarith) (by linarith)
    rw [pruneFrom, readLoop_closed env w h0, readLoop_closed env w1 h1]
  | cons m rest ih =>
    intro w w1 carry hnow hctx
    have hc : (0 : Int) ≤ (carry : Int) := Nat.cast_nonneg _
    have hs : (0 : Int) ≤ (span (m :: rest) : Nat) := Nat.cast_nonneg _
    have h0 := hctx w.now (le_refl _) (by linarith)
    have h1 : env.ctxErr w1.now = none := by
      rw [hnow]; exact hctx _ (by linarith) (by linarith)
    have hkeep : ∀ err, (m.result = .error err ∨ ∃ v, m.result = .ok v ∧ asMap v = .error err) →
        (readLoop env (m :: rest) w1).1 = (readLoop env (pruneFrom carry (m :: rest)) w).1 := by
      intro err hbad
      have hig : m.ignored = false := by
        rcases hbad with hres | ⟨v, hres, hmap⟩
        · simp [Inbound.ignored, hres]
        · simp [Inbound.ignored, hres, hmap]
      rw [pruneFrom, hig]
      simp only [Bool.false_eq_true, if_false]
      rw [readLoop_read_failed env m rest w1 err h1 hbad,
        readLoop_read_failed env ⟨carry + m.elapsed, m.result⟩ _ w err h0 hbad]
    cases hres : m.result with
    | error err => exact hkeep err (Or.inl hres)
    | ok v =>
      cases hmap : asMap v with
      | error err => exact hkeep err (Or.inr ⟨v, hres, hmap⟩)
      | ok msg =>
        have hig : m.ignored = unrecognized msg := by simp [Inbound.ignored, hres, hmap]
        have hnow2 : w.now + ((carry + m.elapsed : Nat) : Int) = w1.now + m.elapsed := by
          rw [hnow]; push_cast; ring
        cases hm : handleMessage env (w1.now + m.elapsed) msg with
        | none =>
          have hu := (unrecognized_iff env _ msg).mpr hm
          rw [pruneFrom, hig, hu]
          simp only [if_true]
          rw [readLoop_skip env m rest w1 v msg h1 hres hmap hm]
          apply ih
          · simp only [hnow]; push_cast; ring
          · intro t ht1 ht2
            apply hctx t ht1
            simp only [span]
            push_cast at ht2 ⊢
            linarith
        | some r =>
          have hu : unrecognized msg = false := by
            cases hx : unrecognized msg with
            | false => rfl
            | true => rw [(unrecognized_iff env _ msg).mp hx] at hm; cases hm
          rw [pruneFrom, hig, hu]
          simp only [Bool.false_eq_true, if_false]
          rw [readLoop_step env m rest w1 v msg r h1 hres hmap hm,
            readLoop_step env ⟨carry + m.elapsed, m.result⟩ _ w v msg r h0 hres hmap
              (by rw [hnow2]; exact hm)]

theorem pruneFrom_results : ∀ (ms : List Inbound) (carry : Nat),
    (pruneFrom carry ms).map Inbound.result =
      (ms.filter fun m => !m.ignored).map Inbound.result := by
  intro ms
  induction ms with
  | nil => intro carry; rfl
  | cons m rest ih =>
    intro carry
    rw [pruneFrom]
    cases hig : m.ignored with
    | true => simp [List.filter, hig, ih]
    | false => simp [List.filter, hig, ih]

set_option maxRecDepth 100000 in
/-- C20, as stated, fails: the caller gives up after five minutes, a message of type
ping arrives after six and the token right behind it.  The loop ignores the ping, finds
the context cancelled and returns the cancellation; on the sequence without the ping
it blocks until the token arrives and returns the token. -/
theorem unrecognized_cancel_counterexample :
    pingFrame.ignored = true ∧ tokenFrame.ignored = false ∧
      (readLoop deadlineEnv [pingFrame, tokenFrame]
        (sampleWorld emptyStore [pingFrame, tokenFrame])).1 =
          .error (.leaf "context deadline exceeded") ∧
      (readLoop deadlineEnv (prune [pingFrame, tokenFrame])
        (sampleWorld emptyStore (prune [pingFrame, tokenFrame]))).1 = .ok renewedToken ∧
      (readLoop deadlineEnv [tokenFrame] (sampleWorld emptyStore [tokenFrame])).1 =
        .ok renewedToken := by
  decide

/-- C20, amended: as long as the caller's context is not cancelled before the last
message of the sequence has arrived, the outcome of the read loop equals its outcome
on the sequence with every unrecognized message removed and the other messages
arriving when they did.  (The context is looked at between two reads only, so an
unrecognized message is an occasion to notice a cancellation.) -/
theorem readLoop_prune (env : Env) (ms : List Inbound) (w : World)
    (hctx : ∀ t : Time, w.now ≤ t → t ≤ w.now + span ms → env.ctxErr t = none) :
    (readLoop env ms w).1 = (readLoop env (prune ms) w).1 ∧
      (prune ms).map Inbound.result = (ms.filter fun m => !m.ignored).map Inbound.result ∧
      ∀ now msg, unrecognized msg = true ↔ handleMessage env now msg = none :=
  ⟨readLoop_pruneFrom env ms w w 0 (by simp) (by simpa using hctx), pruneFrom_results ms 0,
    fun now msg => unrecognized_iff env now msg⟩

set_option maxRecDepth 100000 in
theorem readLoop_prune_witness :
    (readLoop sampleEnv [pingFrame, tokenFrame] (sampleWorld emptyStore [])).1 =
        .ok renewedToken ∧
      (readLoop sampleEnv [pingFrame, tokenFrame] (sampleWorld emptyStore [])).1 =
        (readLoop sampleEnv (prune [pingFrame, tokenFrame]) (sampleWorld emptyStore [])).1 :=
  ⟨by decide,
    (readLoop_prune sampleEnv [pingFrame, tokenFrame] (sampleWorld emptyStore [])
      (fun _ _ _ => rfl)).1⟩

/-! ## Lemmas: the wait as a whole -/

/-- C21: a turn of the read loop that begins with the caller's context cancelled or
past its deadline returns the error of the context and does nothing else: no message
is read, whatever is waiting, and the world is left as it is. -/
theorem readLoop_cancelled (env : Env) (ms : List Inbound) (w : World) (err : Error)
    (hctx : env.ctxErr w.now = some err) : readLoop env ms w = (.error err, w) := by
  cases ms with
  | nil => rw [readLoop]; simp only [hctx]
  | cons m rest => rw [readLoop]; simp only [hctx]

set_option maxRecDepth 100000 in
theorem readLoop_cancelled_witness :
    tokenFrame.ignored = false ∧
      (readLoop deadlineEnv [tokenFrame]
        ⟨emptyStore, sampleNow + 6 * Minute, [tokenFrame], []⟩).1 =
          .error (.leaf "context deadline exceeded") ∧
      (readLoop deadlineEnv [tokenFrame]
        ⟨emptyStore, sampleNow + 6 * Minute, [tokenFrame], []⟩).2.trace.length = 0 :=
  have h := readLoop_cancelled deadlineEnv [tokenFrame]
    ⟨emptyStore, sampleNow + 6 * Minute, [tokenFrame], []⟩ (.leaf "context deadline exceeded")
    (by decide)
  ⟨by decide, by rw [h], by rw [h]; rfl⟩

theorem parseRFC3339_nil : parseRFC3339 [] = none := by decide

theorem tokenOf_default (now : Time) (tokenData : List (String × Value))
    (hexp : ∀ s, asString (index tokenData "expiresAt") = some s → parseRFC3339 s.data = none) :
    tokenOf now tokenData =
      ⟨(asString (index tokenData "accessToken")).getD "",
        (asString (index tokenData "refreshToken")).getD "", now + 7 * 24 * Hour⟩ := by
  unfold tokenOf
  cases he : asString (index tokenData "expiresAt") with
  | none => simp [parseRFC3339_nil]
  | some s => simp [hexp s he]

/-- A turn of the read loop on a token message whose expiry cannot be read. -/
theorem readLoop_default_expiry (env : Env) (m : Inbound) (rest : List Inbound) (w : World)
    (v : Value) (msg payload data created tokenData : List (String × Value))
    (hctx : env.ctxErr w.now = none) (hres : m.result = .ok v) (hmap : asMap v = .ok msg)
    (htype : asString (index msg "type") = some "next")
    (hpayload : asObject (index msg "payload") = some payload)
    (hdata : asObject (index payload "data") = some data)
    (hcreated : asObject (index data "createdAuthenticationToken") = some created)
    (herror : asObject (index created "error") = none)
    (htoken : asObject (index created "token") = some tokenData)
    (hexp : ∀ s, asString (index tokenData "expiresAt") = some s → parseRFC3339 s.data = none) :
    readLoop env (m :: rest) w =
      (.ok ⟨(asString (index tokenData "accessToken")).getD "",
        (asString (index tokenData "refreshToken")).getD "",
        w.now + m.elapsed + 7 * 24 * Hour⟩,
        { w with
          now := w.now + m.elapsed, inbound := rest, trace := w.trace ++ [Event.read] }) :=
  readLoop_step env m rest w v msg _ hctx hres hmap
    (by simp only [handleMessage, htype, hpayload, hdata, hcreated, herror, htoken, if_true,
      tokenOf_default _ tokenData hexp])

theorem openBrowser_now (env : Env) (url : String) (w : World) :
    (openBrowser env url w).2.now = w.now := by
  unfold openBrowser
  split_ifs <;> rfl

theorem showInstructions_now (env : Env) (authReq : AuthenticationRequest) (w : World) :
    (showInstructions env authReq w).now = w.now := by
  unfold showInstructions
  simp only
  generalize hw5 : ((((w.emit (Event.stderr "\n=== Caido Authentication Required ===\n" [])).emit
    (Event.stderr "Please open the following URL in your browser:\n" [])).emit
    (Event.stderr "  %s\n\n" [Arg.str authReq.VerificationURL])).emit
    (Event.stderr "And enter this code: %s\n\n" [Arg.str authReq.UserCode])).emit
    (Event.stderr "Waiting for authentication (expires at %s)...\n\n" [Arg.time authReq.ExpiresAt])
    = w5
  have h5 : w5.now = w.now := by rw [← hw5]; rfl
  have hb := openBrowser_now env authReq.VerificationURL w5
  cases hob : openBrowser env authReq.VerificationURL w5 with
  | mk r wb =>
    rw [hob] at hb
    cases r with
    | none => exact hb.trans h5
    | some err => exact hb.trans h5

/-- The exchange up to the read loop, when nothing fails: the result of waitForToken is
the result of the loop on the messages behind the first. -/
theorem waitForToken_handshake (env : Env) (requestID : String) (w : World)
    (wsEndpoint : String) (u : URL) (first : Inbound) (rest : List Inbound) (v0 : Value)
    (msg0 : List (String × Value))
    (hws : WebSocketEndpoint env.endpoint = some wsEndpoint)
    (hurl : env.urlParse wsEndpoint = .ok u) (hdial : env.dial = none)
    (hs0 : env.sendFault 0 = none) (hs1 : env.sendFault 1 = none)
    (hin : w.inbound = first :: rest) (hfirst : first.result = .ok v0)
    (hmap0 : asMap v0 = .ok msg0) :
    ∃ wl, wl.now = w.now + first.elapsed ∧ wl.fs = w.fs ∧
      (∀ t wl1, readLoop env rest wl = (.ok t, wl1) →
        waitForToken env requestID w = (.ok t, wl1.emit Event.close)) ∧
      (∀ e wl1, readLoop env rest wl = (.error e, wl1) →
        waitForToken env requestID w = (.error e, wl1.emit Event.close)) := by
  refine ⟨(({ (w.emit (Event.dial wsEndpoint
      [("Origin", (if u.Scheme = "wss" then "https" else "http") ++ "://" ++ u.Host),
        ("Sec-WebSocket-Protocol", "graphql-transport-ws")])).emit (Event.send initMsg) with
      now := w.now + first.elapsed, inbound := rest }).emit Event.read).emit
        (Event.send (subMsg requestID)), rfl, rfl, ?_, ?_⟩
  · intro t wl1 h
    unfold waitForToken
    simp only [hws, hurl, hdial, converse, hs0, readFrame, emit_inbound, hin, readJSON, hfirst,
      hmap0, hs1]
    erw [h]
  · intro e wl1 h
    unfold waitForToken
    simp only [hws, hurl, hdial, converse, hs0, readFrame, emit_inbound, hin, readJSON, hfirst,
      hmap0, hs1]
    erw [h]

/-- A device flow whose wait delivers a token calls Save with it; when the Save
succeeds the flow returns the access token and the files are those Save left. -/
theorem startAuthFlow_saved (env : Env) (w : World) (authReq : AuthenticationRequest)
    (token : AuthenticationToken)
    (hstart : StartAuthenticationFlow env.startFlow = .ok (some authReq))
    (hwait : (waitForToken env authReq.ID
      (showInstructions env authReq (w.emit Event.startFlow))).1 = .ok token) :
    Event.save ⟨token.AccessToken, token.RefreshToken, token.ExpiresAt⟩ ∈
        (startAuthFlow env w).2.trace ∧
      ∀ fs1, Save w.fs ⟨token.AccessToken, token.RefreshToken, token.ExpiresAt⟩ = (none, fs1) →
        (startAuthFlow env w).1 = .ok token.AccessToken ∧ (startAuthFlow env w).2.fs = fs1 := by
  have hnfs := (showInstructions_adds env authReq (w.emit Event.startFlow)).1
  have wfs := (waitForToken_world env authReq.ID
    (showInstructions env authReq (w.emit Event.startFlow))).1
  unfold startAuthFlow
  simp only [hstart]
  cases hwt : waitForToken env authReq.ID
      (showInstructions env authReq (w.emit Event.startFlow)) with
  | mk r w2 =>
    rw [hwt] at hwait wfs
    simp only at hwait wfs
    subst hwait
    have hfs2 : w2.fs = w.fs := by rw [wfs, hnfs]; rfl
    simp only [saveToken, emit_fs, hfs2]
    constructor
    · cases Save w.fs ⟨token.AccessToken, token.RefreshToken, token.ExpiresAt⟩ with
      | mk r fs1 => cases r <;> simp [emit_trace]
    · intro fs1 hsave
      simp only [hsave]
      exact ⟨trivial, rfl⟩

/-- The files a device flow leaves once the wait has delivered a token are those its
Save leaves, whether the Save succeeds or fails. -/
theorem startAuthFlow_files (env : Env) (w : World) (authReq : AuthenticationRequest)
    (token : AuthenticationToken)
    (hstart : StartAuthenticationFlow env.startFlow = .ok (some authReq))
    (hwait : (waitForToken env authReq.ID
      (showInstructions env authReq (w.emit Event.startFlow))).1 = .ok token) :
    (startAuthFlow env w).2.fs =
      (Save w.fs ⟨token.AccessToken, token.RefreshToken, token.ExpiresAt⟩).2 := by
  have hnfs := (showInstructions_adds env authReq (w.emit Event.startFlow)).1
  have wfs := (waitForToken_world env authReq.ID
    (showInstructions env authReq (w.emit Event.startFlow))).1
  unfold startAuthFlow
  simp only [hstart]
  cases hwt : waitForToken env authReq.ID
      (showInstructions env authReq (w.emit Event.startFlow)) with
  | mk r w2 =>
    rw [hwt] at hwait wfs
    simp only at hwait wfs
    subst hwait
    have hfs2 : w2.fs = w.fs := by rw [wfs, hnfs]; rfl
    simp only [saveToken, emit_fs, hfs2]
    cases Save w.fs ⟨token.AccessToken, token.RefreshToken, token.ExpiresAt⟩ with
    | mk r2 fs2 => cases r2 <;> rfl

set_option maxRecDepth 100000 in
/-- C22, as stated, fails: a token message whose expiresAt is no timestamp follows the
acknowledgment, waitForToken returns its credential with the default expiry, and the
configuration directory cannot be created: EnsureAuthenticated returns the error of the
Save and the store holds no credential. -/
theorem default_expiry_not_persisted_counterexample :
    parseRFC3339 "next week".data = none ∧
      (waitForToken sampleEnv sampleRequest.ID (showInstructions sampleEnv sampleRequest
        (((sampleWorld readOnlyStore [ackFrame, undatedFrame]).emit Event.load).emit
          Event.startFlow))).1 =
        .ok ⟨"access-1", "refresh-1", sampleNow + 1000000 + 2000000 + 7 * 24 * Hour⟩ ∧
      (EnsureAuthenticated sampleEnv (sampleWorld readOnlyStore [ackFrame, undatedFrame])).1 =
        .error (.wrap "failed to save token: %w" (.wrap "failed to create config directory: %w"
          (.leaf "read-only file system"))) ∧
      Load (EnsureAuthenticated sampleEnv
        (sampleWorld readOnlyStore [ackFrame, undatedFrame])).2.fs = .ok none := by
  decide

/-- C22, amended: a token message whose expiresAt is missing, is no string or is a text
that `time.Parse(time.RFC3339, ·)` rejects does not make the wait fail.  The read loop
returns the credential with the access and refresh values of the message and the
expiry seven days, 168 hours, after the time the message was read; and when such a
message follows the acknowledgment in a run of EnsureAuthenticated that has reached
the device flow, waitForToken returns that credential and EnsureAuthenticated calls
Save with it.  When the Save succeeds the call returns the access value and the store
holds the credential; when the Save fails the call returns the error of the Save
wrapped in "failed to save token" and the files are as the failed Save left them. -/
theorem ensureAuthenticated_default_expiry (env : Env) (w w0 : World)
    (authReq : AuthenticationRequest) (wsEndpoint : String) (u : URL) (first m : Inbound)
    (rest : List Inbound) (v0 v : Value)
    (msg0 msg payload data created tokenData : List (String × Value))
    (hres : m.result = .ok v) (hmap : asMap v = .ok msg)
    (htype : asString (index msg "type") = some "next")
    (hpayload : asObject (index msg "payload") = some payload)
    (hdata : asObject (index payload "data") = some data)
    (hcreated : asObject (index data "createdAuthenticationToken") = some created)
    (herror : asObject (index created "error") = none)
    (htoken : asObject (index created "token") = some tokenData)
    (hexp : ∀ s, asString (index tokenData "expiresAt") = some s → parseRFC3339 s.data = none) :
    (∀ wl : World, env.ctxErr wl.now = none →
      (readLoop env (m :: rest) wl).1 =
        .ok ⟨(asString (index tokenData "accessToken")).getD "",
          (asString (index tokenData "refreshToken")).getD "",
          wl.now + m.elapsed + 7 * 24 * Hour⟩) ∧
    (flowEntry env w = some w0 →
      StartAuthenticationFlow env.startFlow = .ok (some authReq) →
      WebSocketEndpoint env.endpoint = some wsEndpoint → env.urlParse wsEndpoint = .ok u →
      env.dial = none → env.sendFault 0 = none → env.sendFault 1 = none →
      w.inbound = first :: m :: rest → first.result = .ok v0 → asMap v0 = .ok msg0 →
      env.ctxErr (w.now + first.elapsed) = none →
      (waitForToken env authReq.ID (showInstructions env authReq (w0.emit Event.startFlow))).1 =
        .ok ⟨(asString (index tokenData "accessToken")).getD "",
          (asString (index tokenData "refreshToken")).getD "",
          w.now + first.elapsed + m.elapsed + 7 * 24 * Hour⟩ ∧
      Event.save ⟨(asString (index tokenData "accessToken")).getD "",
          (asString (index tokenData "refreshToken")).getD "",
          w.now + first.elapsed + m.elapsed + 7 * 24 * Hour⟩ ∈
        (EnsureAuthenticated env w).2.trace ∧
      (EnsureAuthenticated env w).2.fs =
        (Save w0.fs ⟨(asString (index tokenData "accessToken")).getD "",
          (asString (index tokenData "refreshToken")).getD "",
          w.now + first.elapsed + m.elapsed + 7 * 24 * Hour⟩).2 ∧
      (∀ fs1, Save w0.fs ⟨(asString (index tokenData "accessToken")).getD "",
          (asString (index tokenData "refreshToken")).getD "",
          w.now + first.elapsed + m.elapsed + 7 * 24 * Hour⟩ = (none, fs1) →
        (EnsureAuthenticated env w).1 =
          .ok ((asString (index tokenData "accessToken")).getD "") ∧
        Load (EnsureAuthenticated env w).2.fs =
          .ok (some ⟨(asString (index tokenData "accessToken")).getD "",
            (asString (index tokenData "refreshToken")).getD "",
            w.now + first.elapsed + m.elapsed + 7 * 24 * Hour⟩)) ∧
      (∀ e, (Save w0.fs ⟨(asString (index tokenData "accessToken")).getD "",
          (asString (index tokenData "refreshToken")).getD "",
          w.now + first.elapsed + m.elapsed + 7 * 24 * Hour⟩).1 = some e →
        (EnsureAuthenticated env w).1 = .error (.wrap "failed to save token: %w" e))) := by
  constructor
  · intro wl hctx
    rw [readLoop_default_expiry env m rest wl v msg payload data created tokenData hctx hres hmap
      htype hpayload hdata hcreated herror htoken hexp]
  · intro hflow hstart hws hurl hdial hs0 hs1 hin hfirst hmap0 hctx
    obtain ⟨hin0, hnow0, -⟩ := flowEntry_trace env w w0 hflow
    have hsin : (showInstructions env authReq (w0.emit Event.startFlow)).inbound =
        first :: m :: rest := by
      rw [(showInstructions_adds env authReq (w0.emit Event.startFlow)).2.1, emit_inbound, hin0,
        hin]
    have hsnow : (showInstructions env authReq (w0.emit Event.startFlow)).now = w.now := by
      rw [showInstructions_now, emit_now, hnow0]
    obtain ⟨wl, hlnow, -, hok, -⟩ := waitForToken_handshake env authReq.ID
      (showInstructions env authReq (w0.emit Event.startFlow)) wsEndpoint u first (m :: rest)
      v0 msg0 hws hurl hdial hs0 hs1 hsin hfirst hmap0
    rw [hsnow] at hlnow
    have hloop := readLoop_default_expiry env m rest wl v msg payload data created tokenData
      (by rw [hlnow]; exact hctx) hres hmap htype hpayload hdata hcreated herror htoken hexp
    rw [hlnow] at hloop
    have hwait := congrArg Prod.fst (hok _ _ hloop)
    simp only at hwait
    obtain ⟨hsave, hdone⟩ := startAuthFlow_saved env w0 authReq _ hstart hwait
    have hfs := startAuthFlow_files env w0 authReq _ hstart hwait
    rw [flowEntry_run env w w0 hflow]
    refine ⟨hwait, hsave, hfs, ?_, ?_⟩
    · intro fs1 hs
      obtain ⟨h1, h2⟩ := hdone fs1 hs
      exact ⟨h1, by rw [h2]; exact (Load_Save _ _ _ hs).1⟩
    · intro e he
      exact startAuthFlow_save_failed env w0 authReq _ e hstart hwait he

set_option maxRecDepth 100000 in
theorem ensureAuthenticated_default_expiry_witness :
    parseRFC3339 "next week".data = none ∧
      (EnsureAuthenticated sampleEnv (sampleWorld emptyStore [ackFrame, undatedFrame])).1 =
        .ok "access-1" ∧
      Load (EnsureAuthenticated sampleEnv
        (sampleWorld emptyStore [ackFrame, undatedFrame])).2.fs =
          .ok (some ⟨"access-1", "refresh-1", sampleNow + 1000000 + 2000000 + 7 * 24 * Hour⟩) :=
  have h := (ensureAuthenticated_default_expiry sampleEnv
    (sampleWorld emptyStore [ackFrame, undatedFrame])
    ((sampleWorld emptyStore [ackFrame, undatedFrame]).emit Event.load) sampleRequest
    "ws://localhost:8080/ws/graphql" ⟨"ws", "localhost:8080"⟩ ackFrame undatedFrame [] _ _
    [("type", .string "connection_ack")] _ _ _ _
    [("accessToken", .string "access-1"), ("refreshToken", .string "refresh-1"),
      ("expiresAt", .string "next week")]
    rfl rfl rfl rfl rfl rfl rfl rfl
    (fun s hs => by
      have h0 : s = "next week" := by
        simp only [index, asString] at hs
        simpa using hs.symm
      subst h0
      decide)).2 rfl rfl (by decide) rfl rfl rfl rfl rfl rfl rfl rfl
  have h2 := h.2.2.2.1 (Save emptyStore ⟨"access-1", "refresh-1",
    sampleNow + 1000000 + 2000000 + 7 * 24 * Hour⟩).2 (by decide)
  ⟨by decide, h2.1, h2.2⟩

/-! ## Lemmas: what goes over the connection -/

theorem sent_append (a b : List Event) : sent (a ++ b) = sent a ++ sent b := by
  induction a with
  | nil => rfl
  | cons e rest ih => cases e <;> simp [sent, ih]

theorem sent_reads (reads : List Event) (h : ∀ e ∈ reads, e = Event.read) : sent reads = [] := by
  induction reads with
  | nil => rfl
  | cons e rest ih =>
    have he := h e (List.mem_cons_self _ _)
    subst he
    simp only [sent]
    exact ih fun x hx => h x (List.mem_cons_of_mem _ hx)

theorem countP_isClose_reads (reads : List Event) (h : ∀ e ∈ reads, e = Event.read) :
    reads.countP Event.isClose = 0 := by
  rw [List.countP_eq_zero]
  intro e he
  rw [h e he]
  simp [Event.isClose]

/-- The events of the exchange on an open connection: the init message, the read of
the first inbound message, the subscribe message, the reads of the loop. -/
theorem converse_events (env : Env) (requestID : String) (wd : World) :
    ∃ ev, (converse env requestID wd).2.trace = wd.trace ++ ev ∧
      ((env.sendFault 0 ≠ none ∧ ev = [Event.send initMsg]) ∨
      (env.sendFault 0 = none ∧ (∃ e, (readFrame (wd.emit (Event.send initMsg))).1 = .error e) ∧
        ev = [Event.send initMsg, Event.read]) ∨
      (env.sendFault 0 = none ∧ (∃ msg, (readFrame (wd.emit (Event.send initMsg))).1 = .ok msg) ∧
        ∃ reads, (∀ e ∈ reads, e = Event.read) ∧
          ev = [Event.send initMsg, Event.read, Event.send (subMsg requestID)] ++ reads)) := by
  unfold converse
  simp only
  cases hs0 : env.sendFault 0 with
  | some err => exact ⟨[Event.send initMsg], rfl, Or.inl ⟨by simp, rfl⟩⟩
  | none =>
    simp only
    obtain ⟨-, htr⟩ := readFrame_world (wd.emit (Event.send initMsg))
    cases hrf : readFrame (wd.emit (Event.send initMsg)) with
    | mk r w1 =>
      rw [hrf] at htr
      simp only [emit_trace] at htr
      cases r with
      | error err =>
        exact ⟨[Event.send initMsg, Event.read], by simp [htr],
          Or.inr (Or.inl ⟨trivial, ⟨err, rfl⟩, rfl⟩)⟩
      | ok msg =>
        simp only
        cases env.sendFault 1 with
        | some err =>
          refine ⟨[Event.send initMsg, Event.read, Event.send (subMsg requestID)], ?_,
            Or.inr (Or.inr ⟨trivial, ⟨msg, rfl⟩, [], by simp, by simp⟩)⟩
          simp [emit_trace, htr]
        | none =>
          simp only
          obtain ⟨-, reads, htr2, hreads⟩ := readLoop_world env
            (w1.emit (Event.send (subMsg requestID))).inbound
            (w1.emit (Event.send (subMsg requestID)))
          refine ⟨[Event.send initMsg, Event.read, Event.send (subMsg requestID)] ++ reads, ?_,
            Or.inr (Or.inr ⟨trivial, ⟨msg, rfl⟩, reads, hreads, rfl⟩)⟩
          rw [htr2, emit_trace, htr]
          simp

/-- waitForToken on a connection that opens: the dial, the exchange, the close. -/
theorem waitForToken_opened (env : Env) (requestID : String) (w : World)
    (wsEndpoint : String) (u : URL)
    (hws : WebSocketEndpoint env.endpoint = some wsEndpoint)
    (hurl : env.urlParse wsEndpoint = .ok u) (hdial : env.dial = none) :
    ∃ wd header, wd.trace = w.trace ++ [Event.dial wsEndpoint header] ∧
      wd.inbound = w.inbound ∧
      (waitForToken env requestID w).2.trace =
        (converse env requestID wd).2.trace ++ [Event.close] := by
  refine ⟨w.emit (Event.dial wsEndpoint
    [("Origin", (if u.Scheme = "wss" then "https" else "http") ++ "://" ++ u.Host),
      ("Sec-WebSocket-Protocol", "graphql-transport-ws")]), _, rfl, rfl, ?_⟩
  unfold waitForToken
  simp only [hws, hurl, hdial]
  cases converse env requestID (w.emit (Event.dial wsEndpoint
    [("Origin", (if u.Scheme = "wss" then "https" else "http") ++ "://" ++ u.Host),
      ("Sec-WebSocket-Protocol", "graphql-transport-ws")])) with
  | mk r w2 => cases r <;> rfl

/-- waitForToken on a connection that does not open: at most the dial. -/
theorem waitForToken_unopened (env : Env) (requestID : String) (w : World) :
    (WebSocketEndpoint env.endpoint = none → (waitForToken env requestID w).2 = w) ∧
    (∀ wsEndpoint e, WebSocketEndpoint env.endpoint = some wsEndpoint →
      env.urlParse wsEndpoint = .error e → (waitForToken env requestID w).2 = w) ∧
    (∀ wsEndpoint u err, WebSocketEndpoint env.endpoint = some wsEndpoint →
      env.urlParse wsEndpoint = .ok u → env.dial = some err →
      ∃ header, (waitForToken env requestID w).2.trace =
        w.trace ++ [Event.dial wsEndpoint header]) := by
  refine ⟨?_, ?_, ?_⟩
  · intro h
    unfold waitForToken
    simp only [h]
  · intro wsEndpoint e h1 h2
    unfold waitForToken
    simp only [h1, h2]
  · intro wsEndpoint u err h1 h2 h3
    unfold waitForToken
    simp only [h1, h2, h3]
    exact ⟨_, rfl⟩

/-- The events waitForToken adds to the trace, by the way it ends. -/
theorem waitForToken_events (env : Env) (requestID : String) (w : World) :
    ∃ ev, (waitForToken env requestID w).2.trace = w.trace ++ ev ∧
      ((¬ (∃ wsEndpoint u, WebSocketEndpoint env.endpoint = some wsEndpoint ∧
          env.urlParse wsEndpoint = .ok u ∧ env.dial = none) ∧
        (ev = [] ∨ ∃ url header, ev = [Event.dial url header])) ∨
      ((∃ wsEndpoint u, WebSocketEndpoint env.endpoint = some wsEndpoint ∧
          env.urlParse wsEndpoint = .ok u ∧ env.dial = none) ∧
        ∃ url header, (ev = [Event.dial url header, Event.send initMsg, Event.close] ∧
            env.sendFault 0 ≠ none) ∨
          (ev = [Event.dial url header, Event.send initMsg, Event.read, Event.close] ∧
            env.sendFault 0 = none ∧
            ∀ m rest v msg, w.inbound = m :: rest → m.result = .ok v → asMap v = .ok msg →
              False) ∨
          ∃ reads, (∀ e ∈ reads, e = Event.read) ∧
            ev = [Event.dial url header, Event.send initMsg, Event.read,
              Event.send (subMsg requestID)] ++ reads ++ [Event.close])) := by
  cases hws : WebSocketEndpoint env.endpoint with
  | none =>
    refine ⟨[], by rw [(waitForToken_unopened env requestID w).1 hws]; simp, Or.inl ⟨?_, Or.inl rfl⟩⟩
    rintro ⟨ws, u, h, -⟩
    cases h
  | some wsEndpoint =>
    cases hurl : env.urlParse wsEndpoint with
    | error e =>
      refine ⟨[], by rw [(waitForToken_unopened env requestID w).2.1 _ e hws hurl]; simp,
        Or.inl ⟨?_, Or.inl rfl⟩⟩
      rintro ⟨ws, u, h1, h2, -⟩
      cases h1
      rw [hurl] at h2
      cases h2
    | ok u =>
      cases hdial : env.dial with
      | some err =>
        obtain ⟨header, htr⟩ := (waitForToken_unopened env requestID w).2.2 _ u err hws hurl hdial
        refine ⟨_, htr, Or.inl ⟨?_, Or.inr ⟨_, _, rfl⟩⟩⟩
        rintro ⟨ws, u1, -, -, h3⟩
        cases h3
      | none =>
        obtain ⟨wd, header, hwd, hin, htr⟩ :=
          waitForToken_opened env requestID w wsEndpoint u hws hurl hdial
        obtain ⟨cev, hc, hforms⟩ := converse_events env requestID wd
        refine ⟨Event.dial wsEndpoint header :: cev ++ [Event.close], ?_,
          Or.inr ⟨⟨wsEndpoint, u, rfl, hurl, rfl⟩, wsEndpoint, header, ?_⟩⟩
        · rw [htr, hc, hwd]; simp
        · rcases hforms with ⟨h0, rfl⟩ | ⟨h0, ⟨e, he⟩, rfl⟩ | ⟨h0, -, reads, hreads, rfl⟩
          · exact Or.inl ⟨rfl, h0⟩
          · refine Or.inr (Or.inl ⟨rfl, h0, ?_⟩)
            intro m rest v msg hw hres hmap
            have h1 := ((readFrame_result (wd.emit (Event.send initMsg))).2 m rest
              (by rw [emit_inbound, hin, hw])).2 v hres
            rw [h1, hmap] at he
            cases he
          · exact Or.inr (Or.inr ⟨reads, hreads, by simp⟩)

set_option maxRecDepth 100000 in
/-- C23, as stated, fails: when the connection drops before the first inbound message
only the init message is sent, and when the dial fails no message is sent. -/
theorem subscribe_not_sent_counterexample :
    ((waitForToken sampleEnv "req-1" (sampleWorld emptyStore [])).2.trace.countP Event.isSend = 1 ∧
      (waitForToken sampleEnv "req-1" (sampleWorld emptyStore [])).2.trace.countP
        Event.isSubscribe = 0) ∧
    (waitForToken offlineEnv "req-1"
      (sampleWorld emptyStore [ackFrame, tokenFrame])).2.trace.countP Event.isSend = 0 := by
  decide

/-- C23, amended: the messages waitForToken sends are none, or the connection_init
message alone, or the connection_init message and then one subscribe message with id
"1" whose variables.requestId is the given requestID, the subscribe message after a
read of the first inbound message and nothing after it.  Both are sent when the
connection opens, the init message is written and a first inbound message is read. -/
theorem waitForToken_sent (env : Env) (requestID : String) (w : World) :
    ∃ ev, (waitForToken env requestID w).2.trace = w.trace ++ ev ∧
      (sent ev = [] ∨ sent ev = [initMsg] ∨
        ∃ pre post, ev = pre ++ Event.send (subMsg requestID) :: post ∧ sent pre = [initMsg] ∧
          Event.read ∈ pre ∧ sent post = []) ∧
      (∀ wsEndpoint u m rest v msg, WebSocketEndpoint env.endpoint = some wsEndpoint →
        env.urlParse wsEndpoint = .ok u → env.dial = none → env.sendFault 0 = none →
        w.inbound = m :: rest → m.result = .ok v → asMap v = .ok msg →
        sent ev = [initMsg, subMsg requestID]) ∧
      ∃ query, subMsg requestID = .object [("id", .string "1"), ("type", .string "subscribe"),
        ("payload", .object [("query", .string query),
          ("variables", .object [("requestId", .string requestID)])])] := by
  obtain ⟨ev, htr, hforms⟩ := waitForToken_events env requestID w
  refine ⟨ev, htr, ?_, ?_, ⟨_, rfl⟩⟩
  · rcases hforms with ⟨-, rfl | ⟨url, header, rfl⟩⟩ |
      ⟨-, url, header, ⟨rfl, -⟩ | ⟨rfl, -⟩ | ⟨reads, hreads, rfl⟩⟩
    · exact Or.inl rfl
    · exact Or.inl rfl
    · exact Or.inr (Or.inl rfl)
    · exact Or.inr (Or.inl rfl)
    · refine Or.inr (Or.inr ⟨[Event.dial url header, Event.send initMsg, Event.read],
        reads ++ [Event.close], by simp, rfl, by simp, ?_⟩)
      rw [sent_append, sent_reads reads hreads]
      rfl
  · intro wsEndpoint u m rest v msg hws hurl hdial hs0 hw hres hmap
    rcases hforms with ⟨hno, -⟩ |
      ⟨-, url, header, ⟨-, h0⟩ | ⟨-, -, hbad⟩ | ⟨reads, hreads, rfl⟩⟩
    · exact absurd ⟨wsEndpoint, u, hws, hurl, hdial⟩ hno
    · exact absurd hs0 h0
    · exact absurd (hbad m rest v msg hw hres hmap) id
    · rw [sent_append, sent_append, sent_reads reads hreads]
      rfl

set_option maxRecDepth 100000 in
theorem waitForToken_sent_witness :
    ∃ ev, (waitForToken sampleEnv "req-1" (sampleWorld emptyStore [ackFrame, tokenFrame])).2.trace
        = (sampleWorld emptyStore [ackFrame, tokenFrame]).trace ++ ev ∧
      sent ev = [initMsg, subMsg "req-1"] :=
  have h := waitForToken_sent sampleEnv "req-1" (sampleWorld emptyStore [ackFrame, tokenFrame])
  h.elim fun ev hev => ⟨ev, hev.1, hev.2.2.1 "ws://localhost:8080/ws/graphql"
    ⟨"ws", "localhost:8080"⟩ ackFrame [tokenFrame] _ _ (by decide) rfl rfl rfl rfl rfl rfl⟩

/-- C24: when the connection has been opened, waitForToken closes it exactly once,
as the last thing it does, however the exchange ends; when the endpoint is not a URL
or the dial fails, no close is performed. -/
theorem waitForToken_closes (env : Env) (requestID : String) (w : World) :
    (∀ wsEndpoint u, WebSocketEndpoint env.endpoint = some wsEndpoint →
      env.urlParse wsEndpoint = .ok u → env.dial = none →
      ∃ pre, (waitForToken env requestID w).2.trace = w.trace ++ pre ++ [Event.close] ∧
        pre.countP Event.isClose = 0) ∧
    (∀ wsEndpoint u err, WebSocketEndpoint env.endpoint = some wsEndpoint →
      env.urlParse wsEndpoint = .ok u → env.dial = some err →
      (waitForToken env requestID w).2.trace.countP Event.isClose =
        w.trace.countP Event.isClose) ∧
    (∀ wsEndpoint e, WebSocketEndpoint env.endpoint = some wsEndpoint →
      env.urlParse wsEndpoint = .error e → (waitForToken env requestID w).2 = w) := by
  refine ⟨?_, ?_, (waitForToken_unopened env requestID w).2.1⟩
  · intro wsEndpoint u hws hurl hdial
    obtain ⟨ev, htr, hforms⟩ := waitForToken_events env requestID w
    rcases hforms with ⟨hno, -⟩ |
      ⟨-, url, header, ⟨rfl, -⟩ | ⟨rfl, -⟩ | ⟨reads, hreads, rfl⟩⟩
    · exact absurd ⟨wsEndpoint, u, hws, hurl, hdial⟩ hno
    · exact ⟨[Event.dial url header, Event.send initMsg], by simp [htr], rfl⟩
    · exact ⟨[Event.dial url header, Event.send initMsg, Event.read], by simp [htr], rfl⟩
    · refine ⟨[Event.dial url header, Event.send initMsg, Event.read,
        Event.send (subMsg requestID)] ++ reads, by simp [htr], ?_⟩
      rw [List.countP_append, countP_isClose_reads reads hreads]
      rfl
  · intro wsEndpoint u err hws hurl hdial
    obtain ⟨header, htr⟩ := (waitForToken_unopened env requestID w).2.2 _ u err hws hurl hdial
    rw [htr, List.countP_append]
    simp [Event.isClose]

set_option maxRecDepth 100000 in
theorem waitForToken_closes_witness :
    (waitForToken sampleEnv "req-1"
        (sampleWorld emptyStore [ackFrame, completeFrame])).2.trace.countP Event.isClose = 1 ∧
      (waitForToken offlineEnv "req-1"
        (sampleWorld emptyStore [ackFrame, completeFrame])).2.trace.countP Event.isClose = 0 :=
  have h := (waitForToken_closes sampleEnv "req-1"
    (sampleWorld emptyStore [ackFrame, completeFrame])).1 "ws://localhost:8080/ws/graphql"
    ⟨"ws", "localhost:8080"⟩ (by decide) rfl rfl
  have h2 := (waitForToken_closes offlineEnv "req-1"
    (sampleWorld emptyStore [ackFrame, completeFrame])).2.1 "ws://localhost:8080/ws/graphql"
    ⟨"ws", "localhost:8080"⟩ (.leaf "connection refused") (by decide) rfl rfl
  ⟨h.elim fun pre hp => by
      rw [hp.1, List.countP_append, List.countP_append, hp.2]
      rfl,
    h2⟩

/-! ## The endpoint of the subscription and the replies of the gateway -/

/-- C25: the endpoint of the subscription maps the scheme http to ws and https to
wss and appends the path: for every text `r`, the base "http://r" gives
"ws://r/ws/graphql" and the base "https://r" gives "wss://r/ws/graphql". -/
theorem webSocketEndpoint_scheme (r : String) :
    WebSocketEndpoint ("http://" ++ r) = some ("ws://" ++ r ++ "/ws/graphql") ∧
      WebSocketEndpoint ("https://" ++ r) = some ("wss://" ++ r ++ "/ws/graphql") := by
  constructor
  · have hd : ("http://" ++ r).data = 'h' :: 't' :: 't' :: 'p' :: ':' :: '/' :: '/' :: r.data := by
      rw [String.data_append]; rfl
    unfold WebSocketEndpoint
    have h1 : ¬ (("http://" ++ r).length > 5 ∧ ("http://" ++ r).data.take 5 = "https".data) := by
      rintro ⟨-, h⟩
      rw [hd] at h
      simp at h
    have h2 : ¬ ("http://" ++ r).length < 4 := by
      rw [String.length_append]
      have h7 : "http://".length = 7 := rfl
      omega
    rw [if_neg h1, if_neg h2, hd]
    apply congrArg some
    apply String.ext
    simp [String.data_append]
  · have hd : ("https://" ++ r).data =
        'h' :: 't' :: 't' :: 'p' :: 's' :: ':' :: '/' :: '/' :: r.data := by
      rw [String.data_append]; rfl
    unfold WebSocketEndpoint
    have h1 : ("https://" ++ r).length > 5 ∧ ("https://" ++ r).data.take 5 = "https".data := by
      constructor
      · rw [String.length_append]
        have h8 : "https://".length = 8 := rfl
        omega
      · rw [hd]; rfl
    rw [if_pos h1, hd]
    apply congrArg some
    apply String.ext
    simp [String.data_append]

/-- C26: with no limit given (zero) and with a negative limit the list_requests tool
asks the gateway for 10 requests, not 20; a limit from 1 to 100 is passed on and a
larger one is cut to 100.  The default of 20 in Client.ListRequests is never used,
the handler never passing it a value below 1. -/
theorem listRequests_page_size (limit : Int) :
    listRequestsPageSize limit = (if limit ≤ 0 then 10 else if limit > 100 then 100 else limit) ∧
      listRequestsPageSize 0 = 10 ∧ listRequestsPageSize (-1) = 10 ∧ firstVar 0 = 20 := by
  refine ⟨?_, by decide, by decide, by decide⟩
  unfold listRequestsPageSize listRequestsLimit firstVar
  simp only
  split_ifs <;> omega

set_option maxRecDepth 100000 in
/-- C29: a refresh reply and a start-flow reply that carry neither a result nor an
error make EnsureAuthenticated fault: the nil token and the nil request are
dereferenced. -/
theorem ensureAuthenticated_nil_reply_faults :
    RefreshToken (blankEnv.refresh "refresh-0") = .ok none ∧
      (EnsureAuthenticated blankEnv (sampleWorld (storeWith staleText) [])).1 = .fault ∧
      StartAuthenticationFlow blankEnv.startFlow = .ok none ∧
      (EnsureAuthenticated blankEnv (sampleWorld emptyStore [])).1 = .fault := by
  decide

/-- C30: on a base address shorter than four characters WebSocketEndpoint does not
return: the slice `endpoint[4:]` is out of range. -/
theorem webSocketEndpoint_short_base :
    WebSocketEndpoint "abc" = none ∧ WebSocketEndpoint "x" = none := by
  decide

/-! ## Lemmas: the body of a message -/

theorem SplitN2_after (sep raw : List Nat) : (SplitN2 sep raw).2.getD [] = afterFirst sep raw := by
  induction raw with
  | nil => rfl
  | cons b rest ih =>
    rw [SplitN2, afterFirst]
    split_ifs
    · rfl
    · exact ih

/-- What SplitN2 returns puts the input together again, around the separator. -/
theorem SplitN2_join (sep raw : List Nat) :
    (∀ post, (SplitN2 sep raw).2 = some post → raw = (SplitN2 sep raw).1 ++ sep ++ post) ∧
      ((SplitN2 sep raw).2 = none → (SplitN2 sep raw).1 = raw) := by
  induction raw with
  | nil => simp [SplitN2]
  | cons b rest ih =>
    rw [SplitN2]
    split_ifs with h
    · constructor
      · intro post hp
        simp only [Option.some.injEq] at hp
        have h1 := List.isPrefixOf_iff_prefix.mp h
        obtain ⟨t, ht⟩ := h1
        rw [← hp, ← ht]
        simp
      · intro hn
        simp at hn
    · constructor
      · intro post hp
        simp only at hp ⊢
        exact congrArg (List.cons b) (ih.1 post hp)
      · intro hn
        simp only at hn ⊢
        rw [ih.2 hn]

theorem parseHTTPMessage_nil (readHeaders : List Nat → String × List (String × String))
    (rawBase64 : String) (includeHeaders includeBody : Bool) (bodyOffset bodyLimit : Int)
    (h : rawBase64 = "" ∨ DecodeString rawBase64 = none) :
    parseHTTPMessage readHeaders rawBase64 includeHeaders includeBody bodyOffset bodyLimit =
      none := by
  unfold parseHTTPMessage
  by_cases h0 : rawBase64 = ""
  · rw [if_pos h0]
  · rcases h with h | h
    · exact absurd h h0
    · rw [if_neg h0, h]

theorem limit_step (rem : List Nat) (bodyLimit : Int) (firstLine : String)
    (headers : Option (List (String × String))) (bodySize : Nat) :
    ∃ r : ParsedHTTPMessage,
      (if bodyLimit > 0 ∧ (rem.length : Int) > bodyLimit then
          some ⟨firstLine, headers, rem.take bodyLimit.toNat, bodySize, true⟩
        else some ⟨firstLine, headers, rem, bodySize, false⟩) = some r ∧
      r.BodySize = bodySize ∧
      r.Body = (if bodyLimit > 0 then rem.take bodyLimit.toNat else rem) ∧
      r.Truncated = (decide (0 < bodyLimit) && decide ((rem.length : Int) > bodyLimit)) := by
  by_cases hcut : bodyLimit > 0 ∧ (rem.length : Int) > bodyLimit
  · rw [if_pos hcut]
    refine ⟨_, rfl, rfl, ?_, ?_⟩
    · simp only [if_pos hcut.1]
    · rw [decide_eq_true hcut.1, decide_eq_true hcut.2]
      rfl
  · rw [if_neg hcut]
    refine ⟨_, rfl, rfl, ?_, ?_⟩
    · by_cases hlim : bodyLimit > 0
      · simp only [if_pos hlim]
        rw [List.take_of_length_le]
        have := not_and.mp hcut hlim
        omega
      · simp only [if_neg hlim]
    · by_cases hlim : bodyLimit > 0
      · rw [decide_eq_false (not_and.mp hcut hlim)]
        simp
      · rw [decide_eq_false hlim]
        rfl

theorem offset_step (after : List Nat) (bodyOffset : Int) (hlen : after.length > 0) :
    (if bodyOffset > 0 then
        if bodyOffset ≥ (after.length : Int) then [] else after.drop bodyOffset.toNat
      else after) =
      (if bodyOffset ≥ (after.length : Int) then [] else after.drop bodyOffset.toNat) := by
  by_cases hoff : bodyOffset > 0
  · rw [if_pos hoff]
  · rw [if_neg hoff]
    have hge : ¬ bodyOffset ≥ (after.length : Int) := by omega
    have h0 : bodyOffset.toNat = 0 := by omega
    rw [if_neg hge, h0]
    rfl

theorem parseHTTPMessage_reference (readHeaders : List Nat → String × List (String × String))
    (rawBase64 : String) (includeHeaders : Bool) (bodyOffset bodyLimit : Int) (raw : List Nat)
    (hne : rawBase64 ≠ "") (hraw : DecodeString rawBase64 = some raw) :
    ∃ r, parseHTTPMessage readHeaders rawBase64 includeHeaders true bodyOffset bodyLimit =
        some r ∧
      r.BodySize = (referenceBody raw bodyOffset bodyLimit).BodySize ∧
      r.Body = (referenceBody raw bodyOffset bodyLimit).Body ∧
      r.Truncated =
        (decide (0 < bodyLimit) && (referenceBody raw bodyOffset bodyLimit).Truncated) := by
  unfold parseHTTPMessage referenceBody
  rw [if_neg hne, hraw]
  simp only [SplitN2_after, true_and]
  generalize afterFirst [13, 10, 13, 10] raw = after
  by_cases hlen : after.length > 0
  · rw [if_pos hlen, offset_step after bodyOffset hlen]
    exact limit_step _ bodyLimit _ _ _
  · rw [if_neg hlen]
    have h0 : after = [] := by
      cases after with
      | nil => rfl
      | cons a t => simp at hlen
    subst h0
    have hrem : (if bodyOffset ≥ (([] : List Nat).length : Int) then ([] : List Nat)
        else List.drop bodyOffset.toNat []) = [] := by
      split_ifs <;> simp
    rw [hrem]
    refine ⟨_, rfl, rfl, ?_, ?_⟩
    · simp
    · by_cases hlim : bodyLimit > 0
      · have h1 : ¬ ((([] : List Nat).length : Int) > bodyLimit) := by
          simp only [List.length_nil, Nat.cast_zero]; omega
        rw [decide_eq_false h1]
        simp
      · rw [decide_eq_false hlim]
        rfl

set_option maxRecDepth 100000 in
/-- C27, as stated, fails: with a body limit of -1 the five bytes that remain after
the offset exceed the limit, and the body is returned whole with Truncated false. -/
theorem truncated_negative_limit_counterexample :
    DecodeString "QQ0KDQpoZWxsbw==" = some [65, 13, 10, 13, 10, 104, 101, 108, 108, 111] ∧
      parseHTTPMessage (fun _ => ("", [])) "QQ0KDQpoZWxsbw==" false true 0 (-1) =
        some ⟨"", none, [104, 101, 108, 108, 111], 5, false⟩ ∧
      referenceBody [65, 13, 10, 13, 10, 104, 101, 108, 108, 111] 0 (-1) =
        ⟨5, [104, 101, 108, 108, 111], true⟩ := by
  decide

/-- C27, amended: for an empty input and for an input that is not base64
parseHTTPMessage returns nil.  For every other input, with includeBody set, BodySize is
the number of bytes after the first CRLF CRLF (0 when there is none), whatever the
offset and the limit; Body is these bytes with the first bodyOffset dropped (none left
when bodyOffset is at least BodySize) and then cut to bodyLimit bytes when bodyLimit is
positive; and Truncated is true exactly when bodyLimit is positive and the bytes
remaining after the offset exceed it. -/
theorem parseHTTPMessage_body (readHeaders : List Nat → String × List (String × String))
    (rawBase64 : String) (includeHeaders : Bool) (bodyOffset bodyLimit : Int) :
    ((rawBase64 = "" ∨ DecodeString rawBase64 = none) → ∀ includeBody,
      parseHTTPMessage readHeaders rawBase64 includeHeaders includeBody bodyOffset bodyLimit =
        none) ∧
    (∀ raw, rawBase64 ≠ "" → DecodeString rawBase64 = some raw →
      ∃ r, parseHTTPMessage readHeaders rawBase64 includeHeaders true bodyOffset bodyLimit =
          some r ∧
        r.BodySize = (referenceBody raw bodyOffset bodyLimit).BodySize ∧
        r.Body = (referenceBody raw bodyOffset bodyLimit).Body ∧
        r.Truncated =
          (decide (0 < bodyLimit) && (referenceBody raw bodyOffset bodyLimit).Truncated)) :=
  ⟨fun h includeBody =>
      parseHTTPMessage_nil readHeaders rawBase64 includeHeaders includeBody bodyOffset bodyLimit h,
    fun raw hne hraw =>
      parseHTTPMessage_reference readHeaders rawBase64 includeHeaders bodyOffset bodyLimit raw
        hne hraw⟩

set_option maxRecDepth 100000 in
theorem parseHTTPMessage_body_witness :
    parseHTTPMessage (fun _ => ("", [])) "" false true 2 2 = none ∧
      parseHTTPMessage (fun _ => ("", [])) "QQ0K=" false true 2 2 = none ∧
      parseHTTPMessage (fun _ => ("", [])) "QQ0KDQpoZWxsbw==" false true 2 2 =
        some ⟨"", none, [108, 108], 5, true⟩ ∧
      referenceBody [65, 13, 10, 13, 10, 104, 101, 108, 108, 111] 2 2 = ⟨5, [108, 108], true⟩ :=
  have h1 := (parseHTTPMessage_body (fun _ => ("", [])) "" false 2 2).1 (Or.inl rfl) true
  have h2 := (parseHTTPMessage_body (fun _ => ("", [])) "QQ0K=" false 2 2).1
    (Or.inr (by decide)) true
  have h3 := (parseHTTPMessage_body (fun _ => ("", [])) "QQ0KDQpoZWxsbw==" false 2 2).2
    [65, 13, 10, 13, 10, 104, 101, 108, 108, 111] (by decide) (by decide)
  ⟨h1, h2, h3.elim fun r hr => by
      have hb : r = ⟨"", none, [108, 108], 5, true⟩ := by
        have := hr.1
        rw [show parseHTTPMessage (fun _ => ("", [])) "QQ0KDQpoZWxsbw==" false true 2 2 =
          some ⟨"", none, [108, 108], 5, true⟩ from by decide] at this
        exact (Option.some.inj this).symm
      rw [hr.1, hb],
    by decide⟩

/-! ## Lemmas: line endings -/

theorem replaceLF_cons (c : Char) (cs : List Char) :
    ReplaceAllFrom ['\n'] ['\r', '\n'] 0 (c :: cs) =
      if c = '\n' then '\r' :: '\n' :: ReplaceAllFrom ['\n'] ['\r', '\n'] 0 cs
      else c :: ReplaceAllFrom ['\n'] ['\r', '\n'] 0 cs := by
  rw [ReplaceAllFrom]
  by_cases h : c = '\n'
  · subst h
    simp [List.isPrefixOf]
  · have h1 : List.isPrefixOf ['\n'] (c :: cs) = false := by
      simp [List.isPrefixOf, Ne.symm h]
    rw [h1, if_neg h]
    simp

theorem replaceCRLF_match (cs : List Char) :
    ReplaceAllFrom ['\r', '\n'] ['\n'] 0 ('\r' :: '\n' :: cs) =
      '\n' :: ReplaceAllFrom ['\r', '\n'] ['\n'] 0 cs := by
  rw [ReplaceAllFrom]
  have h1 : List.isPrefixOf ['\r', '\n'] ('\r' :: '\n' :: cs) = true := by
    simp [List.isPrefixOf]
  rw [h1]
  simp only [if_true, List.length_cons, List.length_nil]
  rw [ReplaceAllFrom]
  rfl

theorem replaceCRLF_other (c : Char) (cs : List Char)
    (h : c ≠ '\r' ∨ cs.head? ≠ some '\n') :
    ReplaceAllFrom ['\r', '\n'] ['\n'] 0 (c :: cs) =
      c :: ReplaceAllFrom ['\r', '\n'] ['\n'] 0 cs := by
  rw [ReplaceAllFrom]
  have h1 : List.isPrefixOf ['\r', '\n'] (c :: cs) = false := by
    cases cs with
    | nil => simp [List.isPrefixOf]
    | cons d rest =>
      simp only [List.isPrefixOf, Bool.and_true, Bool.and_eq_false_imp, beq_iff_eq]
      intro hc
      rcases h with h | h
      · exact absurd hc.symm h
      · simp only [List.head?_cons, ne_eq, Option.some.injEq] at h
        simpa using Ne.symm h
  rw [h1]
  simp

theorem crlfFrom_head (p q : Char) (s : List Char) (h : crlfFrom p s = true)
    (hh : s.head? ≠ some '\n') : crlfFrom q s = true := by
  cases s with
  | nil => rfl
  | cons c cs =>
    simp only [List.head?_cons, ne_eq, Option.some.injEq] at hh
    simp only [crlfFrom, Bool.and_eq_true, Bool.or_eq_true, bne_iff_ne, ne_eq, beq_iff_eq] at h ⊢
    exact ⟨Or.inl hh, h.2⟩

theorem crlfFrom_next (p : Char) (s : List Char) (h : crlfFrom p s = true) (hp : p ≠ '\r') :
    s.head? ≠ some '\n' := by
  cases s with
  | nil => simp
  | cons c cs =>
    simp only [crlfFrom, Bool.and_eq_true, Bool.or_eq_true, bne_iff_ne, ne_eq, beq_iff_eq] at h
    simp only [List.head?_cons, ne_eq, Option.some.injEq]
    rcases h.1 with h1 | h1
    · exact h1
    · exact absurd h1 hp

/-- Replacing every LF by CRLF leaves no LF without a CR before it. -/
theorem crlfFrom_replaceLF : ∀ (s : List Char) (prev : Char),
    crlfFrom prev (ReplaceAllFrom ['\n'] ['\r', '\n'] 0 s) = true := by
  intro s
  induction s with
  | nil => intro prev; rfl
  | cons c cs ih =>
    intro prev
    rw [replaceLF_cons]
    by_cases h : c = '\n'
    · rw [if_pos h]
      simp [crlfFrom, ih]
    · rw [if_neg h]
      simp [crlfFrom, h, ih]

theorem crlfFrom_append_crlf : ∀ (s : List Char) (prev : Char), crlfFrom prev s = true →
    crlfFrom prev (s ++ ['\r', '\n']) = true := by
  intro s
  induction s with
  | nil => intro prev _; simp [crlfFrom]
  | cons c cs ih =>
    intro prev h
    simp only [crlfFrom, Bool.and_eq_true] at h
    simp only [List.cons_append, crlfFrom, Bool.and_eq_true]
    exact ⟨h.1, ih c h.2⟩

/-- On a text with CRLF line endings only, the two replacements undo each other. -/
theorem replace_fixed_le : ∀ (n : Nat) (y : List Char), y.length ≤ n →
    crlfFrom 'x' y = true →
    ReplaceAllFrom ['\n'] ['\r', '\n'] 0 (ReplaceAllFrom ['\r', '\n'] ['\n'] 0 y) = y := by
  intro n
  induction n with
  | zero =>
    intro y hn _
    have h0 : y = [] := List.length_eq_zero.mp (Nat.le_zero.mp hn)
    subst h0
    rfl
  | succ n ih =>
    intro y hn h
    cases y with
    | nil => rfl
    | cons c cs =>
      have hc : c ≠ '\n' := by
        simp only [crlfFrom, Bool.and_eq_true, Bool.or_eq_true, bne_iff_ne, ne_eq,
          beq_iff_eq] at h
        rcases h.1 with h1 | h1
        · exact h1
        · exact absurd h1 (by decide)
      have htail : crlfFrom c cs = true := by
        simp only [crlfFrom, Bool.and_eq_true] at h
        exact h.2
      by_cases hm : c = '\r' ∧ cs.head? = some '\n'
      · obtain ⟨hc1, hc2⟩ := hm
        cases cs with
        | nil => simp at hc2
        | cons d rest =>
          simp only [List.head?_cons, Option.some.injEq] at hc2
          subst hc1 hc2
          rw [replaceCRLF_match, replaceLF_cons, if_pos rfl]
          have hrest : crlfFrom '\n' rest = true := by
            simp only [crlfFrom, Bool.and_eq_true] at htail
            exact htail.2
          have h2 := crlfFrom_head '\n' 'x' rest hrest (crlfFrom_next '\n' rest hrest (by decide))
          rw [ih rest (by simp only [List.length_cons] at hn; omega) h2]
      · have hm2 : c ≠ '\r' ∨ cs.head? ≠ some '\n' := by
          by_cases h1 : c = '\r'
          · exact Or.inr fun h2 => hm ⟨h1, h2⟩
          · exact Or.inl h1
        rw [replaceCRLF_other c cs hm2, replaceLF_cons, if_neg hc]
        have hh : cs.head? ≠ some '\n' := by
          rcases hm2 with h1 | h1
          · exact crlfFrom_next c cs htail h1
          · exact h1
        rw [ih cs (by simp only [List.length_cons] at hn; omega)
          (crlfFrom_head c 'x' cs htail hh)]

theorem replace_fixed (y : List Char) (h : crlfFrom 'x' y = true) :
    ReplaceAllFrom ['\n'] ['\r', '\n'] 0 (ReplaceAllFrom ['\r', '\n'] ['\n'] 0 y) = y :=
  replace_fixed_le y.length y (le_refl _) h

theorem crlfFrom_before : ∀ (s : List Char) (prev : Char), crlfFrom prev s = true →
    ∀ pre post, s = pre ++ '\n' :: post → (prev :: pre).getLast? = some '\r' := by
  intro s
  induction s with
  | nil => intro prev _ pre post h; simp at h
  | cons c cs ih =>
    intro prev h pre post hs
    simp only [crlfFrom, Bool.and_eq_true, Bool.or_eq_true, bne_iff_ne, ne_eq, beq_iff_eq] at h
    cases pre with
    | nil =>
      simp only [List.nil_append, List.cons.injEq] at hs
      rcases h.1 with h1 | h1
      · exact absurd hs.1 h1
      · simp [h1]
    | cons p pre1 =>
      simp only [List.cons_append, List.cons.injEq] at hs
      rw [List.getLast?_cons_cons, ← hs.1]
      exact ih c h.2 pre1 post hs.2

theorem suffix_step (y : List Char) (hy : crlfFrom 'x' y = true) :
    ∃ z, (if ¬ HasSuffix y ['\r', '\n', '\r', '\n'] then
          if HasSuffix y ['\r', '\n'] then String.mk (y ++ ['\r', '\n'])
          else String.mk (y ++ ['\r', '\n', '\r', '\n'])
        else String.mk y) = String.mk z ∧
      crlfFrom 'x' z = true ∧ ['\r', '\n', '\r', '\n'] <:+ z := by
  by_cases h2 : ['\r', '\n', '\r', '\n'] <:+ y
  · refine ⟨y, ?_, hy, h2⟩
    simp [HasSuffix, h2]
  · by_cases h1 : ['\r', '\n'] <:+ y
    · refine ⟨y ++ ['\r', '\n'], ?_, crlfFrom_append_crlf y 'x' hy, ?_⟩
      · simp [HasSuffix, h2, h1]
      · obtain ⟨t, ht⟩ := h1
        exact ⟨t, by rw [← ht]; simp⟩
    · refine ⟨y ++ ['\r', '\n', '\r', '\n'], ?_, ?_, List.suffix_append _ _⟩
      · simp [HasSuffix, h2, h1]
      · have h3 := crlfFrom_append_crlf _ 'x' (crlfFrom_append_crlf y 'x' hy)
        simpa using h3

/-- The normalised text has CRLF line endings only and ends with a double CRLF. -/
theorem normalizeRaw_form (inputRaw : String) :
    ∃ z, normalizeRaw inputRaw = String.mk z ∧ crlfFrom 'x' z = true ∧
      ['\r', '\n', '\r', '\n'] <:+ z :=
  suffix_step _ (crlfFrom_replaceLF (ReplaceAll inputRaw.data ['\r', '\n'] ['\n']) 'x')

/-- A text with CRLF line endings only that ends with a double CRLF is left as it is. -/
theorem normalizeRaw_fixed (z : List Char) (hz : crlfFrom 'x' z = true)
    (hs : ['\r', '\n', '\r', '\n'] <:+ z) : normalizeRaw (String.mk z) = String.mk z := by
  unfold normalizeRaw
  simp only [ReplaceAll, replace_fixed z hz]
  simp [HasSuffix, hs]

/-- A text in which a CR stands before every LF has CRLF line endings only. -/
theorem crlfFrom_of_before : ∀ (s : List Char) (prev : Char),
    (∀ pre post, s = pre ++ '\n' :: post → (prev :: pre).getLast? = some '\r') →
    crlfFrom prev s = true := by
  intro s
  induction s with
  | nil => intro prev _; rfl
  | cons c cs ih =>
    intro prev h
    simp only [crlfFrom, Bool.and_eq_true, Bool.or_eq_true, bne_iff_ne, ne_eq, beq_iff_eq]
    refine ⟨?_, ih c ?_⟩
    · by_cases hc : c = '\n'
      · right
        have h1 := h [] cs (by rw [hc]; rfl)
        simpa using h1
      · exact Or.inl hc
    · intro pre post hs
      have h1 := h (c :: pre) post (by rw [hs]; rfl)
      rwa [List.getLast?_cons_cons] at h1

/-- Replacing every LF by CRLF adds and removes nothing but line-ending characters. -/
theorem filter_replaceLF (s : List Char) :
    (ReplaceAllFrom ['\n'] ['\r', '\n'] 0 s).filter (fun c => c != '\r' && c != '\n') =
      s.filter (fun c => c != '\r' && c != '\n') := by
  induction s with
  | nil => rfl
  | cons c cs ih =>
    rw [replaceLF_cons]
    by_cases h : c = '\n'
    · rw [if_pos h, h]
      simp [List.filter_cons, ih]
    · rw [if_neg h]
      simp [List.filter_cons, ih]

/-- Replacing every CRLF by LF adds and removes nothing but line-ending characters. -/
theorem filter_replaceCRLF_le : ∀ (n : Nat) (s : List Char), s.length ≤ n →
    (ReplaceAllFrom ['\r', '\n'] ['\n'] 0 s).filter (fun c => c != '\r' && c != '\n') =
      s.filter (fun c => c != '\r' && c != '\n') := by
  intro n
  induction n with
  | zero =>
    intro s hs
    have h0 : s = [] := List.length_eq_zero.mp (Nat.le_zero.mp hs)
    rw [h0]
    rfl
  | succ n ih =>
    intro s hs
    cases s with
    | nil => rfl
    | cons c cs =>
      simp only [List.length_cons] at hs
      by_cases hm : c = '\r' ∧ cs.head? = some '\n'
      · obtain ⟨hc, hh⟩ := hm
        cases cs with
        | nil => simp at hh
        | cons d rest =>
          simp only [List.head?_cons, Option.some.injEq] at hh
          rw [hc, hh, replaceCRLF_match]
          simp only [List.length_cons] at hs
          have hr := ih rest (by omega)
          simp [List.filter_cons, hr]
      · have hm1 : c ≠ '\r' ∨ cs.head? ≠ some '\n' := by
          by_cases hc : c = '\r'
          · exact Or.inr (fun hh => hm ⟨hc, hh⟩)
          · exact Or.inl hc
        rw [replaceCRLF_other c cs hm1]
        have hr := ih cs (by omega)
        simp only [List.filter_cons, hr]

/-- The text sendRequestHandler sends differs from the raw request in line-ending
characters only. -/
theorem normalizeRaw_content (inputRaw : String) :
    (normalizeRaw inputRaw).data.filter (fun c => c != '\r' && c != '\n') =
      inputRaw.data.filter (fun c => c != '\r' && c != '\n') := by
  have h : (ReplaceAll (ReplaceAll inputRaw.data ['\r', '\n'] ['\n']) ['\n']
      ['\r', '\n']).filter (fun c => c != '\r' && c != '\n') =
      inputRaw.data.filter (fun c => c != '\r' && c != '\n') := by
    unfold ReplaceAll
    rw [filter_replaceLF, filter_replaceCRLF_le _ _ (le_refl _)]
  unfold normalizeRaw
  simp only
  split_ifs
  · simp [h]
  · simp [h]
  · simp [h]

/-- C28: the request sendRequestHandler encodes and sends ends with CRLF CRLF and every
LF in it stands right behind a CR, for every raw request, the non-empty ones the
handler accepts among them; it differs from the raw request in CR and LF characters
only.  A request is left unchanged exactly when it is normalised already, that is when
it ends with CRLF CRLF and every LF in it stands right behind a CR; so normalising a
second time changes nothing. -/
theorem normalizeRaw_crlf (inputRaw : String) :
    (∃ head, (normalizeRaw inputRaw).data = head ++ ['\r', '\n', '\r', '\n']) ∧
      (∀ pre post, (normalizeRaw inputRaw).data = pre ++ '\n' :: post →
        pre.getLast? = some '\r') ∧
      normalizeRaw (normalizeRaw inputRaw) = normalizeRaw inputRaw ∧
      (((∃ head, inputRaw.data = head ++ ['\r', '\n', '\r', '\n']) ∧
          (∀ pre post, inputRaw.data = pre ++ '\n' :: post → pre.getLast? = some '\r')) ↔
        normalizeRaw inputRaw = inputRaw) ∧
      (normalizeRaw inputRaw).data.filter (fun c => c != '\r' && c != '\n') =
        inputRaw.data.filter (fun c => c != '\r' && c != '\n') := by
  obtain ⟨z, hz, hc, hs⟩ := normalizeRaw_form inputRaw
  have hshape : (∃ head, (normalizeRaw inputRaw).data = head ++ ['\r', '\n', '\r', '\n']) ∧
      (∀ pre post, (normalizeRaw inputRaw).data = pre ++ '\n' :: post →
        pre.getLast? = some '\r') := by
    rw [hz]
    constructor
    · obtain ⟨t, ht⟩ := hs
      exact ⟨t, ht.symm⟩
    · intro pre post hp
      have h := crlfFrom_before z 'x' hc pre post hp
      cases pre with
      | nil => simp at h
      | cons p pre1 => rwa [List.getLast?_cons_cons] at h
  refine ⟨hshape.1, hshape.2, ?_, ⟨?_, ?_⟩, normalizeRaw_content inputRaw⟩
  · rw [hz]
    exact normalizeRaw_fixed z hc hs
  · rintro ⟨⟨head, hhead⟩, hlf⟩
    have hcr : crlfFrom 'x' inputRaw.data = true := by
      apply crlfFrom_of_before
      intro pre post hp
      have h := hlf pre post hp
      cases pre with
      | nil => simp at h
      | cons p pre1 => rwa [List.getLast?_cons_cons]
    exact normalizeRaw_fixed inputRaw.data hcr ⟨head, hhead.symm⟩
  · intro hfix
    rw [hfix] at hshape
    exact hshape

set_option maxRecDepth 100000 in
theorem normalizeRaw_crlf_witness :
    normalizeRaw "GET /\nHost: a\r\n" = "GET /\r\nHost: a\r\n\r\n" ∧
      "GET /\r".data.getLast? = some '\r' ∧
      normalizeRaw (normalizeRaw "GET /\nHost: a\r\n") = normalizeRaw "GET /\nHost: a\r\n" ∧
      normalizeRaw "GET /\r\nHost: a\r\n\r\n" = "GET /\r\nHost: a\r\n\r\n" :=
  ⟨by decide,
    (normalizeRaw_crlf "GET /\nHost: a\r\n").2.1 "GET /\r".data "Host: a\r\n\r\n".data
      (by decide),
    (normalizeRaw_crlf "GET /\nHost: a\r\n").2.2.1,
    (normalizeRaw_crlf "GET /\r\nHost: a\r\n\r\n").2.2.2.1.mp
      ⟨⟨"GET /\r\nHost: a".data, by decide⟩,
        fun pre post hp => by
          have h := crlfFrom_before "GET /\r\nHost: a\r\n\r\n".data 'x' (by decide) pre post hp
          cases pre with
          | nil => simp at h
          | cons p pre1 => rwa [List.getLast?_cons_cons] at h⟩⟩

/-! ## The device flow from an empty store -/

/-- The dial of waitForToken: made exactly when the endpoint is formed and parsed. -/
theorem waitForToken_dials (env : Env) (requestID : String) (w : World) :
    (∀ wsEndpoint u, WebSocketEndpoint env.endpoint = some wsEndpoint →
      env.urlParse wsEndpoint = .ok u →
      (waitForToken env requestID w).2.trace.countP Event.isDial =
        w.trace.countP Event.isDial + 1) ∧
    ((∀ wsEndpoint u, WebSocketEndpoint env.endpoint = some wsEndpoint →
      env.urlParse wsEndpoint ≠ .ok u) →
      (waitForToken env requestID w).2.trace.countP Event.isDial =
        w.trace.countP Event.isDial) := by
  constructor
  · intro wsEndpoint u hws hurl
    cases hdial : env.dial with
    | some err =>
      obtain ⟨header, htr⟩ :=
        (waitForToken_unopened env requestID w).2.2 wsEndpoint u err hws hurl hdial
      rw [htr]
      simp [List.countP_append, Event.isDial]
    | none =>
      obtain ⟨wd, header, hwd, -, htr⟩ :=
        waitForToken_opened env requestID w wsEndpoint u hws hurl hdial
      obtain ⟨-, ev, hev, hkind⟩ := converse_world env requestID wd
      have h0 : ev.countP Event.isDial = 0 := by
        rw [List.countP_eq_zero]
        intro e he
        simp [(hkind e he).2]
      rw [htr, hev, hwd]
      simp [List.countP_append, Event.isDial, h0]
  · intro hno
    cases hws : WebSocketEndpoint env.endpoint with
    | none => rw [(waitForToken_unopened env requestID w).1 hws]
    | some wsEndpoint =>
      cases hurl : env.urlParse wsEndpoint with
      | error e => rw [(waitForToken_unopened env requestID w).2.1 wsEndpoint e hws hurl]
      | ok u => exact absurd hurl (hno wsEndpoint u hws)

/-- What startAuthFlow adds once waitForToken has returned is no dial. -/
theorem startAuthFlow_after_wait (env : Env) (w : World) (authReq : AuthenticationRequest)
    (hstart : StartAuthenticationFlow env.startFlow = .ok (some authReq)) :
    (startAuthFlow env w).2.trace.countP Event.isDial =
      (waitForToken env authReq.ID
        (showInstructions env authReq (w.emit Event.startFlow))).2.trace.countP Event.isDial := by
  unfold startAuthFlow
  simp only [hstart]
  cases waitForToken env authReq.ID (showInstructions env authReq (w.emit Event.startFlow)) with
  | mk r w2 =>
    cases r with
    | fault => rfl
    | error err => rfl
    | ok token =>
      simp only [saveToken, emit_fs]
      cases Save w2.fs ⟨token.AccessToken, token.RefreshToken, token.ExpiresAt⟩ with
      | mk r2 fs2 =>
        cases r2 <;> simp [emit_trace, List.countP_append, Event.isDial]

/-- The dials of a device flow: one when a request is returned and the endpoint of the
subscription is formed and parsed, none in every other run. -/
theorem startAuthFlow_dials (env : Env) (w : World) :
    (∀ authReq wsEndpoint u, StartAuthenticationFlow env.startFlow = .ok (some authReq) →
      WebSocketEndpoint env.endpoint = some wsEndpoint → env.urlParse wsEndpoint = .ok u →
      (startAuthFlow env w).2.trace.countP Event.isDial = w.trace.countP Event.isDial + 1) ∧
    ((∀ authReq, StartAuthenticationFlow env.startFlow ≠ .ok (some authReq)) →
      (startAuthFlow env w).2.trace.countP Event.isDial = w.trace.countP Event.isDial) ∧
    ((∀ wsEndpoint u, WebSocketEndpoint env.endpoint = some wsEndpoint →
      env.urlParse wsEndpoint ≠ .ok u) →
      (startAuthFlow env w).2.trace.countP Event.isDial = w.trace.countP Event.isDial) := by
  have hshow : ∀ authReq, (showInstructions env authReq (w.emit Event.startFlow)).trace.countP
      Event.isDial = w.trace.countP Event.isDial := by
    intro authReq
    obtain ⟨-, -, nev, ntr, nhev⟩ := showInstructions_adds env authReq (w.emit Event.startFlow)
    have hnd : nev.countP Event.isDial = 0 :=
      countP_kind _ _ (fun e h => (note_kinds e h).2.2.2.1) nev nhev
    rw [ntr, emit_trace]
    simp [List.countP_append, hnd, Event.isDial]
  have hnone : (∀ authReq, StartAuthenticationFlow env.startFlow ≠ .ok (some authReq)) →
      (startAuthFlow env w).2.trace.countP Event.isDial = w.trace.countP Event.isDial := by
    intro hno
    unfold startAuthFlow
    cases hs : StartAuthenticationFlow env.startFlow with
    | error err => simp [emit_trace, List.countP_append, Event.isDial]
    | ok request =>
      cases request with
      | none => simp [emit_trace, List.countP_append, Event.isDial]
      | some authReq => exact absurd hs (hno authReq)
  refine ⟨?_, hnone, ?_⟩
  · intro authReq wsEndpoint u hstart hws hurl
    rw [startAuthFlow_after_wait env w authReq hstart,
      (waitForToken_dials env authReq.ID _).1 wsEndpoint u hws hurl, hshow]
  · intro hno
    cases hs : StartAuthenticationFlow env.startFlow with
    | error err => exact hnone (fun a h => by rw [hs] at h; cases h)
    | ok request =>
      cases request with
      | none => exact hnone (fun a h => by rw [hs] at h; cases h)
      | some authReq =>
        rw [startAuthFlow_after_wait env w authReq hs,
          (waitForToken_dials env authReq.ID _).2 hno, hshow]

set_option maxRecDepth 100000 in
/-- C4, as stated, fails: with no stored credential and a gateway whose
startDeviceFlow fails, no subscription connection is opened; and with a token delivered
by the channel and a store that cannot be written, the call returns an error. -/
theorem deviceFlow_no_subscription_counterexample :
    (Load (sampleWorld emptyStore []).fs = .ok none ∧
      (EnsureAuthenticated offlineEnv (sampleWorld emptyStore [])).2.trace.countP
        Event.isDial = 0) ∧
    (Load (sampleWorld readOnlyStore [ackFrame, tokenFrame]).fs = .ok none ∧
      (waitForToken sampleEnv sampleRequest.ID (showInstructions sampleEnv sampleRequest
        (((sampleWorld readOnlyStore [ackFrame, tokenFrame]).emit Event.load).emit
          Event.startFlow))).1 = .ok renewedToken ∧
      (EnsureAuthenticated sampleEnv (sampleWorld readOnlyStore [ackFrame, tokenFrame])).1 =
        .error (.wrap "failed to save token: %w" (.wrap "failed to create config directory: %w"
          (.leaf "read-only file system")))) := by
  decide

/-- C4, amended: in every run that starts with no stored credential the refresh call
is never made and startDeviceFlow is called exactly once.  Exactly one subscription
connection is dialled whenever startDeviceFlow returns a request and the endpoint of
the subscription is formed and parsed, also when the wait or the Save fails afterwards;
none is dialled when startDeviceFlow fails or returns no request (startAuthFlow returns
before waitForToken) or the endpoint cannot be formed or parsed.  When the channel
delivers a token for the request, one connection was dialled and the files are those
Save leaves: the Save succeeding, the call returns the delivered access value and the
store holds the delivered credential; the Save failing, the call returns the error of
the Save wrapped in "failed to save token". -/
theorem ensureAuthenticated_device_flow (env : Env) (w : World)
    (hload : Load w.fs = .ok none) :
    ((EnsureAuthenticated env w).2.trace.countP Event.isRefresh =
        w.trace.countP Event.isRefresh ∧
      (EnsureAuthenticated env w).2.trace.countP Event.isStartFlow =
        w.trace.countP Event.isStartFlow + 1) ∧
    (∀ authReq wsEndpoint u, StartAuthenticationFlow env.startFlow = .ok (some authReq) →
      WebSocketEndpoint env.endpoint = some wsEndpoint → env.urlParse wsEndpoint = .ok u →
      (EnsureAuthenticated env w).2.trace.countP Event.isDial =
        w.trace.countP Event.isDial + 1) ∧
    (((∀ authReq, StartAuthenticationFlow env.startFlow ≠ .ok (some authReq)) ∨
        (∀ wsEndpoint u, WebSocketEndpoint env.endpoint = some wsEndpoint →
          env.urlParse wsEndpoint ≠ .ok u)) →
      (EnsureAuthenticated env w).2.trace.countP Event.isDial = w.trace.countP Event.isDial) ∧
    ∀ (authReq : AuthenticationRequest) (token : AuthenticationToken),
      StartAuthenticationFlow env.startFlow = .ok (some authReq) →
      (waitForToken env authReq.ID
        (showInstructions env authReq ((w.emit Event.load).emit Event.startFlow))).1 =
          .ok token →
      (EnsureAuthenticated env w).2.trace.countP Event.isDial =
          w.trace.countP Event.isDial + 1 ∧
        (EnsureAuthenticated env w).2.fs =
          (Save w.fs ⟨token.AccessToken, token.RefreshToken, token.ExpiresAt⟩).2 ∧
        (∀ fs1, Save w.fs ⟨token.AccessToken, token.RefreshToken, token.ExpiresAt⟩ =
            (none, fs1) →
          (EnsureAuthenticated env w).1 = .ok token.AccessToken ∧
          Load (EnsureAuthenticated env w).2.fs =
            .ok (some ⟨token.AccessToken, token.RefreshToken, token.ExpiresAt⟩)) ∧
        (∀ e, (Save w.fs ⟨token.AccessToken, token.RefreshToken, token.ExpiresAt⟩).1 =
            some e →
          (EnsureAuthenticated env w).1 = .error (.wrap "failed to save token: %w" e)) := by
  have h1 : EnsureAuthenticated env w = startAuthFlow env (w.emit Event.load) := by
    unfold EnsureAuthenticated
    simp only [emit_fs, hload]
  have hl : (w.emit Event.load).trace.countP Event.isDial = w.trace.countP Event.isDial := by
    simp [emit_trace, List.countP_append, Event.isDial]
  obtain ⟨hone, hnoreq, hnoend⟩ := startAuthFlow_dials env (w.emit Event.load)
  rw [h1]
  refine ⟨?_, ?_, ?_, ?_⟩
  · obtain ⟨ev, htr, c1, c2, -⟩ := startAuthFlow_world env (w.emit Event.load)
    rw [htr]
    simp only [emit_trace, List.countP_append, c1, c2]
    simp [Event.isRefresh, Event.isStartFlow]
  · intro authReq wsEndpoint u hstart hws hurl
    rw [hone authReq wsEndpoint u hstart hws hurl, hl]
  · intro h
    rcases h with h | h
    · rw [hnoreq h, hl]
    · rw [hnoend h, hl]
  · intro authReq token hstart hwait
    obtain ⟨-, hin, nev, ntr, nhev⟩ :=
      showInstructions_adds env authReq ((w.emit Event.load).emit Event.startFlow)
    have hnfs := (showInstructions_adds env authReq ((w.emit Event.load).emit Event.startFlow)).1
    obtain ⟨wfs, wev, wtr, -, -, wdial⟩ := waitForToken_world env authReq.ID
      (showInstructions env authReq ((w.emit Event.load).emit Event.startFlow))
    have hd := wdial token hwait
    have hnd : nev.countP Event.isDial = 0 :=
      countP_kind _ _ (fun e h => (note_kinds e h).2.2.2.1) nev nhev
    have hdial : (startAuthFlow env (w.emit Event.load)).2.trace.countP Event.isDial =
        w.trace.countP Event.isDial + 1 := by
      rw [startAuthFlow_after_wait env (w.emit Event.load) authReq hstart, wtr, ntr]
      simp [emit_trace, List.countP_append, hd, hnd, Event.isDial]
    refine ⟨hdial, ?_⟩
    unfold startAuthFlow
    simp only [hstart]
    cases hwt : waitForToken env authReq.ID
        (showInstructions env authReq ((w.emit Event.load).emit Event.startFlow)) with
    | mk r w2 =>
      rw [hwt] at hwait wfs
      simp only at hwait wfs
      subst hwait
      have hfs2 : w2.fs = w.fs := by rw [wfs, hnfs]; rfl
      simp only [saveToken, emit_fs, hfs2]
      cases hs : Save w.fs ⟨token.AccessToken, token.RefreshToken, token.ExpiresAt⟩ with
      | mk r2 fs2 =>
        cases r2 with
        | none =>
          refine ⟨rfl, ?_, fun e he => by simp at he⟩
          intro fs1 h1
          simp only [Prod.mk.injEq, true_and] at h1
          subst h1
          exact ⟨rfl, (Load_Save _ _ _ hs).1⟩
        | some e0 =>
          refine ⟨rfl, fun fs1 h1 => by simp at h1, ?_⟩
          intro e he
          simp only [Option.some.injEq] at he
          subst he
          rfl

set_option maxRecDepth 100000 in
theorem ensureAuthenticated_device_flow_witness :
    Load (sampleWorld emptyStore [ackFrame, tokenFrame]).fs = .ok none ∧
      (EnsureAuthenticated sampleEnv (sampleWorld emptyStore [ackFrame, tokenFrame])).2.trace.countP
        Event.isStartFlow = 1 ∧
      (EnsureAuthenticated sampleEnv (sampleWorld emptyStore [ackFrame, tokenFrame])).1 =
        .ok "access-1" ∧
      Load (EnsureAuthenticated sampleEnv (sampleWorld emptyStore [ackFrame, tokenFrame])).2.fs =
        .ok (some ⟨"access-1", "refresh-1", 63852796800000000000⟩) ∧
      (EnsureAuthenticated sampleEnv (sampleWorld emptyStore [ackFrame, tokenFrame])).2.trace.countP
        Event.isDial = 1 ∧
      (EnsureAuthenticated sampleEnv (sampleWorld emptyStore [ackFrame, completeFrame])).2.trace.countP
        Event.isDial = 1 ∧
      (EnsureAuthenticated sampleEnv (sampleWorld readOnlyStore [ackFrame, tokenFrame])).2.trace.countP
        Event.isDial = 1 ∧
      (EnsureAuthenticated offlineEnv (sampleWorld emptyStore [])).2.trace.countP
        Event.isDial = 0 :=
  have h := ensureAuthenticated_device_flow sampleEnv
    (sampleWorld emptyStore [ackFrame, tokenFrame]) (by decide)
  have h2 := h.2.2.2 sampleRequest renewedToken rfl (by decide)
  have h3 := h2.2.2.1 (Save emptyStore ⟨"access-1", "refresh-1", 63852796800000000000⟩).2
    (by decide)
  ⟨by decide, h.1.2, h3.1, h3.2, h2.1,
    (ensureAuthenticated_device_flow sampleEnv
      (sampleWorld emptyStore [ackFrame, completeFrame]) (by decide)).2.1 sampleRequest
        "ws://localhost:8080/ws/graphql" ⟨"ws", "localhost:8080"⟩ rfl (by decide) rfl,
    (ensureAuthenticated_device_flow sampleEnv
      (sampleWorld readOnlyStore [ackFrame, tokenFrame]) (by decide)).2.1 sampleRequest
        "ws://localhost:8080/ws/graphql" ⟨"ws", "localhost:8080"⟩ rfl (by decide) rfl,
    (ensureAuthenticated_device_flow offlineEnv
      (sampleWorld emptyStore []) (by decide)).2.2.1 (Or.inl (fun a h => by cases h))⟩

end Caido
